import Mathlib

/-!
# gossip: packet codec and hub session engine

A shallow embedding of `gossip-common/packet.go`, `gossip-common/crypto.go`,
`gossip-server/main.go` and `gossip-server/events.go`.

* Go `string` values that hold text are Lean `String`s (valid UTF-8); a JSON
  text is handled as its list of characters.
* Go `[]byte` values are `GoBytes`: `none` is the nil slice, `some bs` a
  non-nil slice with contents `bs`.
* `int64` is the subtype of `Int` with the 64-bit two's-complement range.
* `encoding/json`, `encoding/base64` and `strconv` are modelled for the
  struct shapes of `packet.go`; OpenPGP and Argon2 are parameters.
-/

namespace Gossip

/-! ## Bytes, integers, UTF-8 -/

/-- A byte of a Go byte slice. -/
abbrev Byte := Fin 256

/-- The contents of a byte slice. -/
abbrev Bytes := List Byte

/-- A Go `[]byte` value: `none` is the nil slice. -/
abbrev GoBytes := Option Bytes

/-- The contents of a Go `[]byte` value (a nil slice has no contents). -/
def bytesOf (b : GoBytes) : Bytes := b.getD []

/-- The byte with the given value, reduced modulo 256. -/
def byteOfNat (n : Nat) : Byte := ⟨n % 256, Nat.mod_lt n (by decide)⟩

/-- A Go `int64`. -/
abbrev Int64 := {i : Int // -9223372036854775808 ≤ i ∧ i ≤ 9223372036854775807}

/-- UTF-8 encoding of one Unicode scalar value. -/
def utf8EncodeChar (c : Char) : Bytes :=
  let v := c.toNat
  if v < 0x80 then [byteOfNat v]
  else if v < 0x800 then [byteOfNat (0xC0 + v / 64), byteOfNat (0x80 + v % 64)]
  else if v < 0x10000 then
    [byteOfNat (0xE0 + v / 4096), byteOfNat (0x80 + v / 64 % 64), byteOfNat (0x80 + v % 64)]
  else
    [byteOfNat (0xF0 + v / 262144), byteOfNat (0x80 + v / 4096 % 64),
     byteOfNat (0x80 + v / 64 % 64), byteOfNat (0x80 + v % 64)]

/-- The Go conversion `[]byte(s)` of a text string: its UTF-8 bytes. -/
def utf8 (s : String) : Bytes := s.data.flatMap utf8EncodeChar

/-- Whether a byte is a UTF-8 continuation byte `10xxxxxx`. -/
def isCont (b : Byte) : Bool := 0x80 ≤ b.val && b.val < 0xC0

/-- The Unicode replacement character U+FFFD. -/
def replacementChar : Char := Char.ofNat 0xFFFD

/-- Go `utf8.DecodeRune`: the first scalar value of a byte string and the number
of bytes it occupies; a byte that starts no well-formed sequence yields U+FFFD
and width 1. -/
def decodeRune : Bytes → Char × Nat
  | [] => (replacementChar, 1)
  | b0 :: rest =>
    if b0.val < 0x80 then (Char.ofNat b0.val, 1)
    else if 0xC2 ≤ b0.val ∧ b0.val < 0xE0 then
      match rest with
      | b1 :: _ =>
        if isCont b1 then (Char.ofNat ((b0.val - 0xC0) * 64 + (b1.val - 0x80)), 2)
        else (replacementChar, 1)
      | _ => (replacementChar, 1)
    else if 0xE0 ≤ b0.val ∧ b0.val < 0xF0 then
      match rest with
      | b1 :: b2 :: _ =>
        let v := (b0.val - 0xE0) * 4096 + (b1.val - 0x80) * 64 + (b2.val - 0x80)
        if isCont b1 ∧ isCont b2 ∧ 0x800 ≤ v ∧ ¬ (0xD800 ≤ v ∧ v < 0xE000) then
          (Char.ofNat v, 3)
        else (replacementChar, 1)
      | _ => (replacementChar, 1)
    else if 0xF0 ≤ b0.val ∧ b0.val < 0xF8 then
      match rest with
      | b1 :: b2 :: b3 :: _ =>
        let v := (b0.val - 0xF0) * 262144 + (b1.val - 0x80) * 4096 +
          (b2.val - 0x80) * 64 + (b3.val - 0x80)
        if isCont b1 ∧ isCont b2 ∧ isCont b3 ∧ 0x10000 ≤ v ∧ v < 0x110000 then
          (Char.ofNat v, 4)
        else (replacementChar, 1)
      | _ => (replacementChar, 1)
    else (replacementChar, 1)

/-- The text that `encoding/json` reads from a byte string: rune by rune, with
U+FFFD for every byte that is not part of well-formed UTF-8. The fuel bounds
the number of runes. -/
def utf8DecodeFuel : Nat → Bytes → List Char
  | 0, _ => []
  | _, [] => []
  | fuel + 1, b :: rest =>
    (decodeRune (b :: rest)).1 :: utf8DecodeFuel fuel ((b :: rest).drop (decodeRune (b :: rest)).2)

/-- The Go conversion `string(b)` read as text: every rune takes at least one
byte, so the length of the input is enough fuel. -/
def utf8DecodeLossy (bs : Bytes) : List Char := utf8DecodeFuel bs.length bs

/-! ## encoding/base64 (StdEncoding) -/

/-- The alphabet of `base64.StdEncoding`. -/
def b64Alphabet : List Char :=
  "ABCDEFGHIJKLMNOPQRSTUVWXYZabcdefghijklmnopqrstuvwxyz0123456789+/".data

/-- The character of a six-bit value. -/
def b64Char (n : Nat) : Char := b64Alphabet.getD n 'A'

/-- The six-bit value of an alphabet character. -/
def b64Val (c : Char) : Option Nat :=
  if b64Alphabet.indexOf c < 64 then some (b64Alphabet.indexOf c) else none

/-- Go `base64.StdEncoding.EncodeToString`: three bytes become four characters,
the last group is padded with `=`. -/
def b64Encode : Bytes → List Char
  | [] => []
  | [a] => [b64Char (a.val / 4), b64Char (a.val % 4 * 16), '=', '=']
  | [a, b] =>
    [b64Char (a.val / 4), b64Char (a.val % 4 * 16 + b.val / 16), b64Char (b.val % 16 * 4), '=']
  | a :: b :: c :: rest =>
    b64Char (a.val / 4) :: b64Char (a.val % 4 * 16 + b.val / 16) ::
      b64Char (b.val % 16 * 4 + c.val / 64) :: b64Char (c.val % 64) :: b64Encode rest

/-- Decoding of the four-character groups of a base64 text; padding is accepted
in the last group only. -/
def b64DecodeQuanta : List Char → Option Bytes
  | [] => some []
  | a :: b :: c :: d :: rest =>
    if d = '=' then
      if rest ≠ [] then none
      else if c = '=' then
        match b64Val a, b64Val b with
        | some x, some y => some [byteOfNat (x * 4 + y / 16)]
        | _, _ => none
      else
        match b64Val a, b64Val b, b64Val c with
        | some x, some y, some z => some [byteOfNat (x * 4 + y / 16), byteOfNat (y % 16 * 16 + z / 4)]
        | _, _, _ => none
    else
      match b64Val a, b64Val b, b64Val c, b64Val d, b64DecodeQuanta rest with
      | some x, some y, some z, some w, some tail =>
        some (byteOfNat (x * 4 + y / 16) :: byteOfNat (y % 16 * 16 + z / 4) ::
          byteOfNat (z % 4 * 64 + w) :: tail)
      | _, _, _, _, _ => none
  | _ => none

/-- Go `base64.StdEncoding.DecodeString`: carriage returns and line feeds are
skipped, the rest is decoded group by group. -/
def b64Decode (s : List Char) : Option Bytes :=
  b64DecodeQuanta (s.filter fun c => c ≠ '\r' ∧ c ≠ '\n')

/-! ## strconv: decimal integers -/

/-- The decimal digit character of a value below ten. -/
def digitChar (n : Nat) : Char := Char.ofNat (48 + n)

/-- Whether a character is a decimal digit. -/
def isDigit (c : Char) : Bool := 48 ≤ c.toNat && c.toNat ≤ 57

/-- The decimal digits of a natural number, most significant first (`strconv`
formatting in base 10). -/
def decDigits (n : Nat) : List Char :=
  if n < 10 then [digitChar n] else decDigits (n / 10) ++ [digitChar (n % 10)]
termination_by n
decreasing_by omega

/-- Go `strconv.AppendInt(_, i, 10)`. -/
def formatInt (i : Int) : List Char :=
  if i < 0 then '-' :: decDigits i.natAbs else decDigits i.natAbs

/-- The value of a string of decimal digits. -/
def parseNat (s : List Char) : Nat := s.foldl (fun acc c => acc * 10 + (c.toNat - 48)) 0

/-- Go `strconv.ParseInt(s, 10, 64)`: an optional sign and at least one digit,
nothing else, and a value in the `int64` range. -/
def parseInt64 (s : List Char) : Option Int64 :=
  let neg := s.head? = some '-'
  let digits := if neg ∨ s.head? = some '+' then s.drop 1 else s
  if digits = [] ∨ ¬ digits.all isDigit then none
  else
    let v : Int := if neg then -(parseNat digits : Int) else (parseNat digits : Int)
    if h : -9223372036854775808 ≤ v ∧ v ≤ 9223372036854775807 then some ⟨v, h⟩ else none

/-! ## encoding/json: strings -/

/-- The lower-case hexadecimal digit of a value below sixteen. -/
def hexDigit (n : Nat) : Char := "0123456789abcdef".data.getD n '0'

/-- The value of a hexadecimal digit of either case. -/
def hexVal (c : Char) : Option Nat :=
  if 48 ≤ c.toNat ∧ c.toNat ≤ 57 then some (c.toNat - 48)
  else if 97 ≤ c.toNat ∧ c.toNat ≤ 102 then some (c.toNat - 87)
  else if 65 ≤ c.toNat ∧ c.toNat ≤ 70 then some (c.toNat - 55)
  else none

/-- The value of four hexadecimal digits. -/
def parseHex4 (a b c d : Char) : Option Nat :=
  match hexVal a, hexVal b, hexVal c, hexVal d with
  | some x, some y, some z, some w => some (((x * 16 + y) * 16 + z) * 16 + w)
  | _, _, _, _ => none

/-- The text `encoding/json` writes for one character of a string, with HTML
escaping on as in `json.Marshal`: backslash and quote are escaped with a
backslash, the control characters have their short or `\u00XX` form, `<`, `>`
and `&` are written `\u00XX`, U+2028 and U+2029 are written `\u202X`, every
other character is copied. -/
def escapeChar (c : Char) : List Char :=
  if c = '\\' then ['\\', '\\']
  else if c = '"' then ['\\', '"']
  else if c = '\x08' then ['\\', 'b']
  else if c = '\x0c' then ['\\', 'f']
  else if c = '\n' then ['\\', 'n']
  else if c = '\r' then ['\\', 'r']
  else if c = '\t' then ['\\', 't']
  else if c.toNat < 0x20 ∨ c = '<' ∨ c = '>' ∨ c = '&' then
    ['\\', 'u', '0', '0', hexDigit (c.toNat / 16), hexDigit (c.toNat % 16)]
  else if c = Char.ofNat 0x2028 ∨ c = Char.ofNat 0x2029 then
    ['\\', 'u', '2', '0', '2', hexDigit (c.toNat % 16)]
  else [c]

/-- The JSON string literal of a text. -/
def quote (s : List Char) : List Char := '"' :: (s.flatMap escapeChar ++ ['"'])

/-- The character of a one-letter escape. -/
def simpleEscape (e : Char) : Option Char :=
  if e = '"' then some '"'
  else if e = '\\' then some '\\'
  else if e = '/' then some '/'
  else if e = 'b' then some '\x08'
  else if e = 'f' then some '\x0c'
  else if e = 'n' then some '\n'
  else if e = 'r' then some '\r'
  else if e = 't' then some '\t'
  else none

/-- The rune of a `\uXXXX` escape with value `r`, given the text after it: a
high surrogate followed by a `\uXXXX` low surrogate combines with it (six more
characters are used), any other surrogate becomes U+FFFD. The result is the
rune and the number of further characters used. -/
def decodeUnicodeEscape (r : Nat) (after : List Char) : Char × Nat :=
  if 0xD800 ≤ r ∧ r < 0xE000 then
    match after with
    | b :: u :: h1 :: h2 :: h3 :: h4 :: _ =>
      if b = '\\' ∧ u = 'u' ∧ r < 0xDC00 then
        match parseHex4 h1 h2 h3 h4 with
        | some r2 =>
          if 0xDC00 ≤ r2 ∧ r2 < 0xE000 then
            (Char.ofNat (0x10000 + (r - 0xD800) * 1024 + (r2 - 0xDC00)), 6)
          else (replacementChar, 0)
        | none => (replacementChar, 0)
      else (replacementChar, 0)
    | _ => (replacementChar, 0)
  else (Char.ofNat r, 0)

/-- The next item of a JSON string literal body: `none` is a syntax error (end
of text, control character, unknown escape), `some (none, rest)` the closing
quote, `some (some c, rest)` the rune `c`, in both cases with the text that
follows. -/
def nextRune : List Char → Option (Option Char × List Char)
  | [] => none
  | c :: rest =>
    if c = '"' then some (none, rest)
    else if c = '\\' then
      match rest with
      | [] => none
      | e :: rest2 =>
        if e = 'u' then
          match rest2 with
          | h1 :: h2 :: h3 :: h4 :: rest3 =>
            match parseHex4 h1 h2 h3 h4 with
            | none => none
            | some r =>
              some (some (decodeUnicodeEscape r rest3).1, rest3.drop (decodeUnicodeEscape r rest3).2)
          | _ => none
        else
          match simpleEscape e with
          | some ch => some (some ch, rest2)
          | none => none
    else if c.toNat < 0x20 then none
    else some (some c, rest)

/-- The rest of a JSON string literal after its opening quote: the text it
denotes and what follows the closing quote. The fuel bounds the number of
runes. -/
def unquoteBody : Nat → List Char → Option (List Char × List Char)
  | 0, _ => none
  | fuel + 1, cs =>
    match nextRune cs with
    | none => none
    | some (none, rest) => some ([], rest)
    | some (some c, rest) =>
      match unquoteBody fuel rest with
      | none => none
      | some (s, t) => some (c :: s, t)

/-! ## encoding/json: values -/

/-- A parsed JSON value; a number keeps its literal text. -/
inductive JVal where
  | null : JVal
  | bool (b : Bool) : JVal
  | num (raw : List Char) : JVal
  | str (s : List Char) : JVal
  | arr (xs : List JVal) : JVal
  | obj (kvs : List (List Char × JVal)) : JVal

/-- Skips JSON white space. -/
def skipWs : List Char → List Char
  | [] => []
  | c :: cs => if c = ' ' ∨ c = '\t' ∨ c = '\n' ∨ c = '\r' then skipWs cs else c :: cs

/-- The extent of a JSON number literal at the head of a text: an optional
minus sign, an integer part without a superfluous leading zero, an optional
fraction and an optional exponent. Returns the literal and what follows. -/
def scanNumber (cs : List Char) : Option (List Char × List Char) :=
  let sign : List Char := if cs.head? = some '-' then ['-'] else []
  let cs1 := cs.drop sign.length
  match cs1 with
  | [] => none
  | d :: r =>
    if ¬ isDigit d then none
    else
      let ip : List Char := if d = '0' then [d] else d :: r.takeWhile isDigit
      let r1 := if d = '0' then r else r.dropWhile isDigit
      let fracOk : Bool := r1.head? ≠ some '.' || ((r1.drop 1).takeWhile isDigit ≠ [])
      let fp : List Char := if r1.head? = some '.' then '.' :: (r1.drop 1).takeWhile isDigit else []
      let r2 := if r1.head? = some '.' then (r1.drop 1).dropWhile isDigit else r1
      let hasExp : Bool := r2.head? = some 'e' || r2.head? = some 'E'
      let r3 := r2.drop 1
      let esign : List Char :=
        if r3.head? = some '+' ∨ r3.head? = some '-' then r3.take 1 else []
      let r4 := r3.drop esign.length
      let expOk : Bool := !hasExp || (r4.takeWhile isDigit ≠ [])
      let ep : List Char := if hasExp then r2.take 1 ++ esign ++ r4.takeWhile isDigit else []
      let r5 := if hasExp then r4.dropWhile isDigit else r2
      if fracOk ∧ expOk then some (sign ++ ip ++ fp ++ ep, r5) else none

/-- Go `maxNestingDepth` of encoding/json: the scanner fails with "exceeded max
depth" when an opening brace or bracket makes the nesting deeper than this. -/
def maxNestingDepth : Nat := 10000

mutual
/-- One JSON value at the head of a text, and what follows it. The fuel bounds
the number of nested and successive values; `depth` is the number of objects
and arrays that are open around the value. -/
def parseValue : Nat → Nat → List Char → Option (JVal × List Char)
  | 0, _, _ => none
  | fuel + 1, depth, cs =>
    match skipWs cs with
    | [] => none
    | c :: rest =>
      if c = '"' then
        match unquoteBody rest.length rest with
        | some (s, t) => some (JVal.str s, t)
        | none => none
      else if c = '{' then
        if maxNestingDepth ≤ depth then none
        else
          match skipWs rest with
          | [] => none
          | c2 :: rest2 =>
            if c2 = '}' then some (JVal.obj [], rest2)
            else
              match parseMembers fuel (depth + 1) (c2 :: rest2) with
              | some (kvs, t) => some (JVal.obj kvs, t)
              | none => none
      else if c = '[' then
        if maxNestingDepth ≤ depth then none
        else
          match skipWs rest with
          | [] => none
          | c2 :: rest2 =>
            if c2 = ']' then some (JVal.arr [], rest2)
            else
              match parseElems fuel (depth + 1) (c2 :: rest2) with
              | some (xs, t) => some (JVal.arr xs, t)
              | none => none
      else if c = 'n' then
        if rest.take 3 = ['u', 'l', 'l'] then some (JVal.null, rest.drop 3) else none
      else if c = 't' then
        if rest.take 3 = ['r', 'u', 'e'] then some (JVal.bool true, rest.drop 3) else none
      else if c = 'f' then
        if rest.take 4 = ['a', 'l', 's', 'e'] then some (JVal.bool false, rest.drop 4) else none
      else
        match scanNumber (c :: rest) with
        | some (raw, t) => some (JVal.num raw, t)
        | none => none
/-- The elements of a non-empty JSON array after its opening bracket, up to and
including the closing bracket; `depth` counts the array itself. -/
def parseElems : Nat → Nat → List Char → Option (List JVal × List Char)
  | 0, _, _ => none
  | fuel + 1, depth, cs =>
    match parseValue fuel depth cs with
    | none => none
    | some (v, rest) =>
      match skipWs rest with
      | [] => none
      | c :: rest2 =>
        if c = ']' then some ([v], rest2)
        else if c = ',' then
          match parseElems fuel depth rest2 with
          | some (vs, t) => some (v :: vs, t)
          | none => none
        else none
/-- The members of a non-empty JSON object after its opening brace, up to and
including the closing brace; `depth` counts the object itself. -/
def parseMembers : Nat → Nat → List Char → Option (List (List Char × JVal) × List Char)
  | 0, _, _ => none
  | fuel + 1, depth, cs =>
    match skipWs cs with
    | [] => none
    | q :: rest =>
      if q ≠ '"' then none
      else
        match unquoteBody rest.length rest with
        | none => none
        | some (k, rest1) =>
          match skipWs rest1 with
          | [] => none
          | colon :: rest2 =>
            if colon ≠ ':' then none
            else
              match parseValue fuel depth rest2 with
              | none => none
              | some (v, rest3) =>
                match skipWs rest3 with
                | [] => none
                | c :: rest4 =>
                  if c = '}' then some ([(k, v)], rest4)
                  else if c = ',' then
                    match parseMembers fuel depth rest4 with
                    | some (kvs, t) => some ((k, v) :: kvs, t)
                    | none => none
                  else none
end

/-- A whole JSON text: one value, surrounded by optional white space and
nothing else, with no value nested deeper than `maxNestingDepth` (the syntax
check that `json.Unmarshal` runs first). -/
def parseJSON (text : List Char) : Option JVal :=
  match parseValue (text.length + 1) 0 text with
  | some (v, rest) => if skipWs rest = [] then some v else none
  | none => none

/-! ## packet.go: the three packet shapes -/

/-- Signalling packet (`GMSigPacket`). -/
structure GMSigPacket where
  /-- JSON field `cmd`. -/
  OpCmd : String
  /-- JSON field `dst`. -/
  Destination : String
  /-- JSON field `snd`. -/
  Sender : String
  /-- JSON field `pld`. -/
  Payload : GoBytes
deriving DecidableEq

/-- Data packet (`GMDataPacket`), fields in declaration order. -/
structure GMDataPacket where
  /-- JSON field `cmd`. -/
  OpCmd : String
  /-- JSON field `uid`. -/
  UID : GoBytes
  /-- JSON field `ts`. -/
  Timestamp : Int64
  /-- JSON field `exp`. -/
  Expiration : Int64
  /-- JSON field `idx`. -/
  ChunkIndex : Int64
  /-- JSON field `max`. -/
  ChunkMax : Int64
  /-- JSON field `snd`. -/
  Sender : String
  /-- JSON field `dst`. -/
  Destination : String
  /-- JSON field `pld`. -/
  Payload : GoBytes
deriving DecidableEq

/-- Stream packet (`GMStreamPacket`): an embedded data packet and the recipient
list; `none` is the nil slice. -/
structure GMStreamPacket extends GMDataPacket where
  /-- JSON field `r`. -/
  Recipients : Option (List String)
deriving DecidableEq

/-- Go `NewSignalPacketFromString`. -/
def NewSignalPacketFromString (OpCmd Destination Sender message : String) : GMSigPacket :=
  { OpCmd := OpCmd, Destination := Destination, Sender := Sender, Payload := some (utf8 message) }

/-- Go `NewSignalPacketFromData`. -/
def NewSignalPacketFromData (OpCmd Destination Sender : String) (data : GoBytes) : GMSigPacket :=
  { OpCmd := OpCmd, Destination := Destination, Sender := Sender, Payload := data }

/-- Go `NewDataPacketFromData`. -/
def NewDataPacketFromData (OpCmd : String) (UID : GoBytes)
    (Timestamp Expiration ChunkIndex ChunkMax : Int64) (Sender Destination : String)
    (data : GoBytes) : GMDataPacket :=
  { OpCmd := OpCmd, UID := UID, Timestamp := Timestamp, Expiration := Expiration,
    ChunkIndex := ChunkIndex, ChunkMax := ChunkMax, Sender := Sender,
    Destination := Destination, Payload := data }

/-- Go `NewStreamPacketFromData`. -/
def NewStreamPacketFromData (OpCmd : String) (UID : GoBytes)
    (Timestamp Expiration ChunkIndex ChunkMax : Int64) (Sender Destination : String)
    (data : GoBytes) (recipients : Option (List String)) : GMStreamPacket :=
  { toGMDataPacket := NewDataPacketFromData OpCmd UID Timestamp Expiration ChunkIndex ChunkMax
      Sender Destination data,
    Recipients := recipients }

/-! ## encoding/json: Marshal of the packet structs -/

/-- The text of an object key with its colon. -/
def jsonKey (name : String) : List Char := '"' :: (name.data ++ ['"', ':'])

/-- A `[]byte` field: `null` for the nil slice, else the base64 text in quotes. -/
def jsonBytes (b : GoBytes) : List Char :=
  match b with
  | none => ['n', 'u', 'l', 'l']
  | some bs => '"' :: (b64Encode bs ++ ['"'])

/-- The elements of a string array, separated by commas. -/
def jsonStringElems : List String → List Char
  | [] => []
  | [x] => quote x.data
  | x :: y :: rest => quote x.data ++ ',' :: jsonStringElems (y :: rest)

/-- A `[]string` field: `null` for the nil slice, else a JSON array. -/
def jsonStrings (r : Option (List String)) : List Char :=
  match r with
  | none => ['n', 'u', 'l', 'l']
  | some xs => '[' :: (jsonStringElems xs ++ [']'])

/-- The members of a data packet, in declaration order, without braces. -/
def marshalDataFields (p : GMDataPacket) : List Char :=
  jsonKey "cmd" ++ quote p.OpCmd.data ++ ',' ::
  (jsonKey "uid" ++ jsonBytes p.UID ++ ',' ::
  (jsonKey "ts" ++ formatInt p.Timestamp.val ++ ',' ::
  (jsonKey "exp" ++ formatInt p.Expiration.val ++ ',' ::
  (jsonKey "idx" ++ formatInt p.ChunkIndex.val ++ ',' ::
  (jsonKey "max" ++ formatInt p.ChunkMax.val ++ ',' ::
  (jsonKey "snd" ++ quote p.Sender.data ++ ',' ::
  (jsonKey "dst" ++ quote p.Destination.data ++ ',' ::
  (jsonKey "pld" ++ jsonBytes p.Payload))))))))

/-- Go `json.Marshal` of a `GMSigPacket`. -/
def marshalSig (p : GMSigPacket) : List Char :=
  '{' :: (jsonKey "cmd" ++ quote p.OpCmd.data ++ ',' ::
  (jsonKey "dst" ++ quote p.Destination.data ++ ',' ::
  (jsonKey "snd" ++ quote p.Sender.data ++ ',' ::
  (jsonKey "pld" ++ jsonBytes p.Payload ++ ['}']))))

/-- Go `json.Marshal` of a `GMDataPacket`. -/
def marshalData (p : GMDataPacket) : List Char :=
  '{' :: (marshalDataFields p ++ ['}'])

/-- Go `json.Marshal` of a `GMStreamPacket`: the promoted fields of the embedded
data packet, then `r`. -/
def marshalStream (p : GMStreamPacket) : List Char :=
  '{' :: (marshalDataFields p.toGMDataPacket ++ ',' :: (jsonKey "r" ++ jsonStrings p.Recipients ++ ['}']))

/-! ## encoding/json: Unmarshal into the packet structs -/

/-- Case folding of object keys (`bytes.EqualFold` against an ASCII field name):
ASCII letters, the long s and the Kelvin sign fold to upper-case ASCII. -/
def foldChar (c : Char) : Char :=
  if 97 ≤ c.toNat ∧ c.toNat ≤ 122 then Char.ofNat (c.toNat - 32)
  else if c = Char.ofNat 0x17F then 'S'
  else if c = Char.ofNat 0x212A then 'K'
  else c

/-- Whether an object key selects the field with the given JSON name. -/
def fieldIs (k : List Char) (name : String) : Bool := k.map foldChar = name.data.map foldChar

/-- A JSON value stored into a `string` field holding `old`. -/
def decodeString (v : JVal) (old : String) : Option String :=
  match v with
  | JVal.str s => some (String.mk s)
  | JVal.null => some old
  | _ => none

/-- A JSON value stored into an `int64` field holding `old`. -/
def decodeInt64 (v : JVal) (old : Int64) : Option Int64 :=
  match v with
  | JVal.num raw => parseInt64 raw
  | JVal.null => some old
  | _ => none

/-- A JSON value stored into a `uint8` slice element holding `old`. -/
def decodeUint8 (v : JVal) (old : Byte) : Option Byte :=
  match v with
  | JVal.num raw =>
    if raw ≠ [] ∧ raw.all isDigit ∧ parseNat raw < 256 then some (byteOfNat (parseNat raw)) else none
  | JVal.null => some old
  | _ => none

/-- The elements of a JSON array stored into a slice whose previous elements are
`old`: element `i` is decoded into the previous element `i` when there is one,
else into a zero value. -/
def decodeElems {α : Type} (elem : JVal → α → Option α) (zero : α) :
    List JVal → List α → Option (List α)
  | [], _ => some []
  | x :: xs, old =>
    match elem x (old.headD zero), decodeElems elem zero xs old.tail with
    | some a, some as => some (a :: as)
    | _, _ => none

/-- A JSON value stored into a `[]byte` field holding `old`: a string is base64
text, `null` gives the nil slice, an array gives its elements. -/
def decodeBytes (v : JVal) (old : GoBytes) : Option GoBytes :=
  match v with
  | JVal.str s => (b64Decode s).map some
  | JVal.null => some none
  | JVal.arr xs => (decodeElems decodeUint8 0 xs (bytesOf old)).map some
  | _ => none

/-- A JSON value stored into a `[]string` field holding `old`. -/
def decodeStrings (v : JVal) (old : Option (List String)) : Option (Option (List String)) :=
  match v with
  | JVal.arr xs => (decodeElems decodeString "" xs (old.getD [])).map some
  | JVal.null => some none
  | _ => none

/-- The zero `GMSigPacket`. -/
def zeroSig : GMSigPacket := { OpCmd := "", Destination := "", Sender := "", Payload := none }

/-- The zero `int64`. -/
def zeroInt64 : Int64 := ⟨0, by decide⟩

/-- The zero `GMDataPacket`. -/
def zeroData : GMDataPacket :=
  { OpCmd := "", UID := none, Timestamp := zeroInt64, Expiration := zeroInt64,
    ChunkIndex := zeroInt64, ChunkMax := zeroInt64, Sender := "", Destination := "",
    Payload := none }

/-- The zero `GMStreamPacket`. -/
def zeroStream : GMStreamPacket := { toGMDataPacket := zeroData, Recipients := none }

/-- One object member stored into a `GMSigPacket`; unknown keys are skipped. -/
def setSigField (p : GMSigPacket) (k : List Char) (v : JVal) : Option GMSigPacket :=
  if fieldIs k "cmd" then (decodeString v p.OpCmd).map fun x => { p with OpCmd := x }
  else if fieldIs k "dst" then (decodeString v p.Destination).map fun x => { p with Destination := x }
  else if fieldIs k "snd" then (decodeString v p.Sender).map fun x => { p with Sender := x }
  else if fieldIs k "pld" then (decodeBytes v p.Payload).map fun x => { p with Payload := x }
  else some p

/-- One object member stored into a `GMDataPacket`; unknown keys are skipped. -/
def setDataField (p : GMDataPacket) (k : List Char) (v : JVal) : Option GMDataPacket :=
  if fieldIs k "cmd" then (decodeString v p.OpCmd).map fun x => { p with OpCmd := x }
  else if fieldIs k "uid" then (decodeBytes v p.UID).map fun x => { p with UID := x }
  else if fieldIs k "ts" then (decodeInt64 v p.Timestamp).map fun x => { p with Timestamp := x }
  else if fieldIs k "exp" then (decodeInt64 v p.Expiration).map fun x => { p with Expiration := x }
  else if fieldIs k "idx" then (decodeInt64 v p.ChunkIndex).map fun x => { p with ChunkIndex := x }
  else if fieldIs k "max" then (decodeInt64 v p.ChunkMax).map fun x => { p with ChunkMax := x }
  else if fieldIs k "snd" then (decodeString v p.Sender).map fun x => { p with Sender := x }
  else if fieldIs k "dst" then (decodeString v p.Destination).map fun x => { p with Destination := x }
  else if fieldIs k "pld" then (decodeBytes v p.Payload).map fun x => { p with Payload := x }
  else some p

/-- One object member stored into a `GMStreamPacket`: `r` is its own field, every
other key goes to the embedded data packet. -/
def setStreamField (p : GMStreamPacket) (k : List Char) (v : JVal) : Option GMStreamPacket :=
  if fieldIs k "r" then (decodeStrings v p.Recipients).map fun x => { p with Recipients := x }
  else (setDataField p.toGMDataPacket k v).map fun d => { p with toGMDataPacket := d }

/-- The members of an object stored one after the other, starting from `init`. -/
def setFields {α : Type} (set : α → List Char → JVal → Option α) (init : α) :
    List (List Char × JVal) → Option α
  | [] => some init
  | (k, v) :: rest =>
    match set init k v with
    | some p => setFields set p rest
    | none => none

/-- Go `json.Unmarshal` into a zero struct: an object fills the fields, `null`
leaves the zero value, every other value is a type error. -/
def unmarshalInto {α : Type} (set : α → List Char → JVal → Option α) (zero : α) (text : List Char) :
    Option α :=
  match parseJSON text with
  | some (JVal.obj kvs) => setFields set zero kvs
  | some JVal.null => some zero
  | _ => none

/-! ## packet.go: serialize and deserialize -/

/-- Go `SerializeGMSigPacket`: `json.Marshal` has no failing case for this struct. -/
def SerializeGMSigPacket (packet : GMSigPacket) : Option String :=
  some (String.mk (marshalSig packet))

/-- Go `DeserializeGMSigPacket`; `none` is the error result. -/
def DeserializeGMSigPacket (packetStr : String) : Option GMSigPacket :=
  unmarshalInto setSigField zeroSig packetStr.data

/-- Go `SerializeGMDataPacket`. -/
def SerializeGMDataPacket (packet : GMDataPacket) : Option String :=
  some (String.mk (marshalData packet))

/-- Go `DeserializeGMDataPacket`; `none` is the error result. -/
def DeserializeGMDataPacket (packetStr : String) : Option GMDataPacket :=
  unmarshalInto setDataField zeroData packetStr.data

/-- Go `SerializeGMStreamPacket`. -/
def SerializeGMStreamPacket (packet : GMStreamPacket) : Option String :=
  some (String.mk (marshalStream packet))

/-- Go `DeserializeGMStreamPacket`; `none` is the error result. -/
def DeserializeGMStreamPacket (packetStr : String) : Option GMStreamPacket :=
  unmarshalInto setStreamField zeroStream packetStr.data

/-! ## crypto.go: the crypto façade -/

/-- Go `argon2.IDKey(password, salt, time, memory, threads, keyLen)`: a key of
`keyLen` bytes. The function itself is a parameter of the model. -/
abbrev Argon2IDKey :=
  (password salt : Bytes) → (time memory threads keyLen : Nat) → {k : Bytes // k.length = keyLen}

/-- Go `fmt.Sprintf("%x", b)`: two lower-case hexadecimal digits per byte. -/
def hexBytes (bs : Bytes) : List Char :=
  bs.flatMap fun b => [hexDigit (b.val / 16), hexDigit (b.val % 16)]

/-- Go `HashPassword`: the hexadecimal text of the Argon2id key of the password
under the fixed salt. -/
def HashPassword (idKey : Argon2IDKey) (password : String) : String :=
  String.mk (hexBytes (idKey (utf8 password) (utf8 "Th1S1$nOt4sEcuR3sALt") 1 (64 * 1024) 4 32).val)

/-- The order in which a Go `range` loop visits the entries of a map: some
rearrangement of the entries, chosen by the runtime. -/
structure RangeOrder (α : Type) where
  /-- The visiting order of the given entries. -/
  apply : List α → List α
  /-- Every entry is visited exactly once. -/
  perm : ∀ l, (apply l).Perm l

/-- The identity of a live connection (a `net.Conn` value). -/
abbrev Conn := Nat

/-- What the hub process takes from its environment: the OpenPGP operations of
`crypto.go` under the hub identity (`none` is the error result) and the map
iteration orders of the runtime. -/
structure Env where
  /-- Go `GWEncrypt(plaintext, recipientPublicKey)`. -/
  GWEncrypt : Bytes → Bytes → Option Bytes
  /-- Go `GWDecrypt(ciphertext)`. -/
  GWDecrypt : Bytes → Option Bytes
  /-- Go `RetrievePublicKey()`. -/
  RetrievePublicKey : GoBytes
  /-- Iteration order of `range connections`. -/
  connOrder : RangeOrder (String × Conn)
  /-- Iteration order of `range publicKeys`. -/
  keyOrder : RangeOrder (String × GoBytes)

/-! ## packet.go: the send wrappers -/

/-- Go `SendSignalPacket`: the bytes handed to the writer (which is then
flushed); `none` when serialization fails and nothing is written. -/
def SendSignalPacket (packet : GMSigPacket) : Option String :=
  match SerializeGMSigPacket packet with
  | none => none
  | some packetStr => some ("0" ++ packetStr ++ "\n")

/-- Go `SendDataPacket`: serialize, encrypt to `publicKey`, base64, frame with the
prefix `1`; `none` when serialization or encryption fails and nothing is written. -/
def SendDataPacket (env : Env) (packet : GMDataPacket) (publicKey : GoBytes) : Option String :=
  match SerializeGMDataPacket packet with
  | none => none
  | some packetStr =>
    match env.GWEncrypt (utf8 packetStr) (bytesOf publicKey) with
    | none => none
    | some encryptedPacket => some ("1" ++ String.mk (b64Encode encryptedPacket) ++ "\n")

/-- Go `SendStreamPacket`: as `SendDataPacket`, with the prefix `2`. -/
def SendStreamPacket (env : Env) (packet : GMStreamPacket) (serverPublicKey : GoBytes) :
    Option String :=
  match SerializeGMStreamPacket packet with
  | none => none
  | some packetStr =>
    match env.GWEncrypt (utf8 packetStr) (bytesOf serverPublicKey) with
    | none => none
    | some encryptedPacket => some ("2" ++ String.mk (b64Encode encryptedPacket) ++ "\n")

/-! ## Go maps -/

/-- A Go map: its entries, with pairwise distinct keys. -/
structure GoMap (κ ν : Type) where
  /-- The entries. -/
  entries : List (κ × ν)
  /-- No key occurs twice. -/
  nodup : (entries.map Prod.fst).Nodup

namespace GoMap

variable {κ ν : Type}

/-- The empty map (`make(map[...]...)`). -/
def empty : GoMap κ ν := ⟨[], List.nodup_nil⟩

/-- The keys of a map. -/
def keys (m : GoMap κ ν) : List κ := m.entries.map Prod.fst

/-- The lookup `v, ok := m[k]`. -/
def get? [DecidableEq κ] (m : GoMap κ ν) (k : κ) : Option ν :=
  (m.entries.find? fun e => e.1 = k).map Prod.snd

/-- Go `delete(m, k)`. -/
def delete [DecidableEq κ] (m : GoMap κ ν) (k : κ) : GoMap κ ν :=
  ⟨m.entries.filter (fun e => e.1 ≠ k), (m.nodup.sublist ((List.filter_sublist _).map _))⟩

/-- The assignment `m[k] = v`. -/
def set [DecidableEq κ] (m : GoMap κ ν) (k : κ) (v : ν) : GoMap κ ν :=
  ⟨m.entries.filter (fun e => e.1 ≠ k) ++ [(k, v)], by
    rw [List.map_append, List.nodup_append]
    refine ⟨m.nodup.sublist ((List.filter_sublist _).map _), by simp, ?_⟩
    intro a ha hb
    simp only [List.map_cons, List.map_nil, List.mem_singleton] at hb
    subst hb
    simp only [List.mem_map, List.mem_filter] at ha
    obtain ⟨e, ⟨-, he⟩, rfl⟩ := ha
    simp at he⟩

end GoMap

/-! ## main.go: configuration and shared state of the hub -/

/-- The flags and files read at start-up. -/
structure Config where
  /-- Flag `-d`. -/
  debugLogging : Bool
  /-- Flag `-l`. -/
  connectionLogging : Bool
  /-- The variable `password` after `main` has prepared it. -/
  password : String
  /-- The configured channel names, in file order. -/
  channels : List String
  /-- The server name. -/
  serverName : String

/-- Go `main`, the preparation of `password` from the flag `-k`: a non-empty
password is replaced by its hash. -/
def hubPassword (idKey : Argon2IDKey) (flag : String) : String :=
  if flag ≠ "" then HashPassword idKey flag else flag

/-- Go `App.Boot` of the client, the preparation of `password`. -/
def clientPassword (idKey : Argon2IDKey) (cpassword : String) : String :=
  HashPassword idKey cpassword

/-- The shared maps of the hub: `connections`, `publicKeys` (main.go) and
`activeCalls` (events.go), the latter keyed by the bytes of the call id. -/
structure Hub where
  /-- Go `connections`. -/
  connections : GoMap String Conn
  /-- Go `publicKeys`. -/
  publicKeys : GoMap String GoBytes
  /-- Go `activeCalls`. -/
  activeCalls : GoMap Bytes (List String)

/-- The hub state at start-up. -/
def Hub.init : Hub := ⟨GoMap.empty, GoMap.empty, GoMap.empty⟩

/-- The local variables of one `handleConnection` call. -/
structure Session where
  /-- The connection served. -/
  conn : Conn
  /-- Go `clientID`. -/
  clientID : String
  /-- Go `clientPublicKey`. -/
  clientPublicKey : GoBytes

/-- The local variables when `handleConnection` starts. -/
def Session.start (conn : Conn) : Session := ⟨conn, "", none⟩

/-- Bytes written to a connection and flushed. -/
structure Write where
  /-- The connection written to. -/
  conn : Conn
  /-- The bytes of the frame. -/
  line : String
deriving DecidableEq

/-- The outcome of handling one received line: the shared state, the local
variables, the writes in order, and whether the handler stopped with a run-time
panic (which ends the hub process). -/
structure Step where
  /-- The shared maps afterwards. -/
  hub : Hub
  /-- The local variables afterwards. -/
  sess : Session
  /-- The frames written, in order. -/
  out : List Write
  /-- Whether a run-time panic occurred. -/
  fault : Bool

/-- A `SendSignalPacket` call on a writer over `conn`. -/
def sendSig (conn : Conn) (packet : GMSigPacket) : List Write :=
  match SendSignalPacket packet with
  | some line => [⟨conn, line⟩]
  | none => []

/-- The map read `publicKeys[id]`: nil when the key is absent. -/
def Hub.keyOf (hub : Hub) (id : String) : GoBytes := (hub.publicKeys.get? id).getD none

/-! ## events.go: the hub session engine -/

/-- Go `sendRMKPackets`: an `rmk` for every registered connection other than
`clientID`. -/
def sendRMKPackets (env : Env) (hub : Hub) (clientID : String) : List Write :=
  (env.connOrder.apply hub.connections.entries).flatMap fun e =>
    if e.1 ≠ clientID then sendSig e.2 (NewSignalPacketFromData "rmk" e.1 clientID (some []))
    else []

/-- Go `sendKeyToOtherClients`: for every registered connection whose key is
known and for which encryption succeeds, a `ckp` with the new key encrypted to
that recipient. -/
def sendKeyToOtherClients (env : Env) (hub : Hub) (clientID : String)
    (clientPublicKey : GoBytes) : List Write :=
  (env.connOrder.apply hub.connections.entries).flatMap fun e =>
    match hub.publicKeys.get? e.1 with
    | none => []
    | some recipientPublicKey =>
      match env.GWEncrypt (bytesOf clientPublicKey) (bytesOf recipientPublicKey) with
      | none => []
      | some encryptedPublicKey =>
        sendSig e.2 (NewSignalPacketFromData "ckp" e.1 clientID (some encryptedPublicKey))

/-- Go `handleDataPacket`: decode, decrypt and deserialize a type-1 frame body,
then forward the packet to every registered connection, encrypted to the key
stored for that client. -/
def handleDataPacket (env : Env) (cfg : Config) (hub : Hub) (message : String) : List Write :=
  match b64Decode message.data with
  | none => []
  | some decodedPacket =>
    if (env.GWDecrypt decodedPacket).isNone ∧ cfg.debugLogging then []
    else
      match DeserializeGMDataPacket
          (String.mk (utf8DecodeLossy ((env.GWDecrypt decodedPacket).getD []))) with
      | none => []
      | some dataPacket =>
        (env.connOrder.apply hub.connections.entries).flatMap fun e =>
          match SendDataPacket env dataPacket (hub.keyOf e.1) with
          | some line => [⟨e.2, line⟩]
          | none => []

/-- Go `handleStreamPacket`: decode, decrypt and deserialize a type-2 frame body,
then forward the packet to the listed recipients that are registered. -/
def handleStreamPacket (env : Env) (hub : Hub) (message : String) : List Write :=
  match b64Decode message.data with
  | none => []
  | some decodedPacket =>
    match env.GWDecrypt decodedPacket with
    | none => []
    | some decryptedPacket =>
      match DeserializeGMStreamPacket (String.mk (utf8DecodeLossy decryptedPacket)) with
      | none => []
      | some streamPacket =>
        (streamPacket.Recipients.getD []).flatMap fun recipientID =>
          match hub.connections.get? recipientID with
          | none => []
          | some conn =>
            match SendStreamPacket env streamPacket (hub.keyOf recipientID) with
            | some line => [⟨conn, line⟩]
            | none => []

/-- The key fan-out of `gmk`: one `ckp` per entry of `publicKeys` for which
encryption to the requester succeeds. -/
def gmkKeyFrames (env : Env) (hub : Hub) (conn : Conn) (clientID : String) : List Write :=
  (env.keyOrder.apply hub.publicKeys.entries).flatMap fun e =>
    match env.GWEncrypt (bytesOf e.2) (bytesOf (hub.keyOf clientID)) with
    | none => []
    | some encryptedKey =>
      sendSig conn (NewSignalPacketFromData "ckp" clientID e.1 (some encryptedKey))

/-- The channel list of `gmk`: one `cup` per configured channel for which
encryption to the requester succeeds, in configured order. -/
def gmkChannelFrames (env : Env) (cfg : Config) (hub : Hub) (conn : Conn) (clientID : String) :
    List Write :=
  cfg.channels.flatMap fun channel =>
    match env.GWEncrypt (utf8 channel) (bytesOf (hub.keyOf clientID)) with
    | none => []
    | some encryptedChannelName =>
      sendSig conn (NewSignalPacketFromData "cup" clientID "" (some encryptedChannelName))

/-- The relay of `offer`, `answer` and `ice`: a fresh writer over
`connections[destination]`; when the destination is not registered the writer
wraps a nil connection and the flush in `SendSignalPacket` panics. -/
def relaySignal (hub : Hub) (sess : Session) (packet : GMSigPacket) : Step :=
  match hub.connections.get? packet.Destination with
  | none => ⟨hub, sess, [], true⟩
  | some conn =>
    ⟨hub, sess,
      sendSig conn
        (NewSignalPacketFromData packet.OpCmd packet.Destination packet.Sender packet.Payload),
      false⟩

/-- Go `handleConnection`, `case "grtng"`: register the connection and the key
under the sender id, announce the key, reply `hru`. -/
def onGrtng (env : Env) (cfg : Config) (hub : Hub) (sess : Session) (packet : GMSigPacket) :
    Step :=
  let clientID := packet.Sender
  let clientPublicKey := packet.Payload
  let hub1 : Hub :=
    { hub with
      connections := hub.connections.set clientID sess.conn,
      publicKeys := hub.publicKeys.set clientID clientPublicKey }
  ⟨hub1, { sess with clientID := clientID, clientPublicKey := clientPublicKey },
    sendKeyToOtherClients env hub1 clientID clientPublicKey ++
      sendSig sess.conn
        (NewSignalPacketFromData "hru" clientID cfg.serverName env.RetrievePublicKey),
    false⟩

/-- Go `handleConnection`, `case "ighru"`: decrypt the payload and compare it with
the configured password; reply `401` on a mismatch and `ig` on a match. -/
def onIghru (env : Env) (cfg : Config) (hub : Hub) (sess : Session) (packet : GMSigPacket) :
    Step :=
  match env.GWDecrypt (bytesOf packet.Payload) with
  | none => ⟨hub, sess, [], false⟩
  | some decryptedMsg =>
    if decryptedMsg ≠ utf8 cfg.password then
      ⟨hub, sess, sendSig sess.conn (NewSignalPacketFromData "401" sess.clientID "" (some [])),
        false⟩
    else
      match env.GWEncrypt (utf8 "I'm good!") (bytesOf (hub.keyOf sess.clientID)) with
      | none => ⟨hub, sess, [], false⟩
      | some encryptedMsg =>
        ⟨hub, sess,
          sendSig sess.conn (NewSignalPacketFromData "ig" sess.clientID "" (some encryptedMsg)),
          false⟩

/-- Go `handleConnection`, `case "gmk"`: the client id becomes the sender; the
keys, the channels and `eok` are written to this connection. -/
def onGmk (env : Env) (cfg : Config) (hub : Hub) (sess : Session) (packet : GMSigPacket) :
    Step :=
  let clientID := packet.Sender
  ⟨hub, { sess with clientID := clientID },
    gmkKeyFrames env hub sess.conn clientID ++
      (gmkChannelFrames env cfg hub sess.conn clientID ++
        sendSig sess.conn (NewSignalPacketFromData "eok" clientID "" (some []))),
    false⟩

/-- Go `handleConnection`, `case "start_call"`. -/
def onStartCall (hub : Hub) (sess : Session) (packet : GMSigPacket) : Step :=
  let callID := bytesOf packet.Payload
  ⟨{ hub with
      activeCalls :=
        hub.activeCalls.set callID ((hub.activeCalls.get? callID).getD [] ++ [packet.Sender]) },
    sess, sendSig sess.conn (NewSignalPacketFromData "call_active" sess.clientID "" (some [])),
    false⟩

/-- Go `handleConnection`, `case "gmp"`. -/
def onGmp (hub : Hub) (sess : Session) (packet : GMSigPacket) : Step :=
  let callID := bytesOf packet.Payload
  match hub.activeCalls.get? callID with
  | none =>
    ⟨hub, sess, sendSig sess.conn (NewSignalPacketFromData "c404" sess.clientID "" (some [])),
      false⟩
  | some participants =>
    ⟨{ hub with activeCalls := hub.activeCalls.set callID (participants ++ [packet.Sender]) },
      sess,
      (participants ++ [packet.Sender]).flatMap (fun participant =>
        if participant ≠ packet.Sender then
          sendSig sess.conn
            (NewSignalPacketFromData "participent" participant packet.Sender
              (some (utf8 participant)))
        else []),
      false⟩

/-- Go `handleConnection`, `case "hang-up"`. -/
def onHangUp (hub : Hub) (sess : Session) (packet : GMSigPacket) : Step :=
  let callID := bytesOf packet.Payload
  let sender := packet.Sender
  match hub.activeCalls.get? callID with
  | none => ⟨hub, sess, [], false⟩
  | some participants =>
    let newParticipants := participants.filter fun participant => participant ≠ sender
    if newParticipants.length > 0 then
      ⟨{ hub with activeCalls := hub.activeCalls.set callID newParticipants }, sess, [], false⟩
    else ⟨{ hub with activeCalls := hub.activeCalls.delete callID }, sess, [], false⟩

/-- Go `handleConnection`, `case "urgstr"`. -/
def onUrgstr (env : Env) (hub : Hub) (sess : Session) : Step :=
  if sess.clientID ≠ "" then
    let hub1 : Hub :=
      { hub with
        connections := hub.connections.delete sess.clientID,
        publicKeys := hub.publicKeys.delete sess.clientID }
    ⟨hub1, sess, sendRMKPackets env hub1 sess.clientID, false⟩
  else ⟨hub, sess, [], false⟩

/-- Go `handleConnection`, the `switch packet.OpCmd` on a deserialized signal
packet; an opcode without a case does nothing. Every case ends by going on to
the next line. -/
def handleSig (env : Env) (cfg : Config) (hub : Hub) (sess : Session) (packet : GMSigPacket) :
    Step :=
  if packet.OpCmd = "grtng" then onGrtng env cfg hub sess packet
  else if packet.OpCmd = "ighru" then onIghru env cfg hub sess packet
  else if packet.OpCmd = "gmk" then onGmk env cfg hub sess packet
  else if packet.OpCmd = "start_call" then onStartCall hub sess packet
  else if packet.OpCmd = "gmp" then onGmp hub sess packet
  else if packet.OpCmd = "offer" then relaySignal hub sess packet
  else if packet.OpCmd = "answer" then relaySignal hub sess packet
  else if packet.OpCmd = "ice" then relaySignal hub sess packet
  else if packet.OpCmd = "hang-up" then onHangUp hub sess packet
  else if packet.OpCmd = "urgstr" then onUrgstr env hub sess
  else ⟨hub, sess, [], false⟩

/-- Go `handleConnection`, the body of the scanner loop for one received line:
`message[0]` selects the frame type (and panics on an empty line; the first byte
of a text is `0`, `1` or `2` exactly when its first character is); data and
stream frames are handed to their handlers (the goroutines started for them are
run at once), signal frames are deserialized and dispatched. -/
def handleLine (env : Env) (cfg : Config) (hub : Hub) (sess : Session) (message : String) : Step :=
  match message.data with
  | [] => ⟨hub, sess, [], true⟩
  | c :: rest =>
    if c = '0' then
      match DeserializeGMSigPacket (String.mk rest) with
      | none => ⟨hub, sess, [], false⟩
      | some packet => handleSig env cfg hub sess packet
    else if c = '1' then ⟨hub, sess, handleDataPacket env cfg hub (String.mk rest), false⟩
    else if c = '2' then ⟨hub, sess, handleStreamPacket env hub (String.mk rest), false⟩
    else ⟨hub, sess, [], false⟩

/-- Go `handleConnection`, the deferred cleanup that runs when the scanner loop
ends (end of input or read error). -/
def closeConn (env : Env) (hub : Hub) (sess : Session) : Hub × List Write :=
  if sess.clientID ≠ "" then
    let hub1 : Hub :=
      { hub with
        connections := hub.connections.delete sess.clientID,
        publicKeys := hub.publicKeys.delete sess.clientID }
    (hub1, sendRMKPackets env hub1 sess.clientID)
  else (hub, [])

/-- One session from its first line to the end of its connection, with no other
connection active in between: the lines are handled in order; the end of input
runs the deferred cleanup; a panic unwinds the handler, which runs the deferred
cleanup too, and then stops the process. Returns the shared state, all writes
in order, and whether the process panicked. -/
def runSession (env : Env) (cfg : Config) :
    Hub → Session → List String → Hub × List Write × Bool
  | hub, sess, [] => ((closeConn env hub sess).1, (closeConn env hub sess).2, false)
  | hub, sess, message :: rest =>
    if (handleLine env cfg hub sess message).fault then
      ((closeConn env (handleLine env cfg hub sess message).hub
          (handleLine env cfg hub sess message).sess).1,
        (handleLine env cfg hub sess message).out ++
          (closeConn env (handleLine env cfg hub sess message).hub
            (handleLine env cfg hub sess message).sess).2,
        true)
    else
      (((runSession env cfg (handleLine env cfg hub sess message).hub
          (handleLine env cfg hub sess message).sess rest).1),
        (handleLine env cfg hub sess message).out ++
          (runSession env cfg (handleLine env cfg hub sess message).hub
            (handleLine env cfg hub sess message).sess rest).2.1,
        (runSession env cfg (handleLine env cfg hub sess message).hub
          (handleLine env cfg hub sess message).sess rest).2.2)

/-! ## The hub as a whole -/

/-- What can happen at the hub: a connection delivers a line, or a connection
ends. A connection is accepted when its first event arrives. -/
inductive Event where
  | line (conn : Conn) (message : String) : Event
  | close (conn : Conn) : Event

/-- The hub process: the shared maps, the local variables of the running
`handleConnection` calls, everything written so far, and whether the process has
panicked. -/
structure System where
  /-- The shared maps. -/
  hub : Hub
  /-- The running sessions. -/
  sessions : List Session
  /-- All writes so far, in order. -/
  out : List Write
  /-- Whether the process has panicked. -/
  crashed : Bool

/-- The hub process at start-up. -/
def System.init : System := ⟨Hub.init, [], [], false⟩

/-- The running session of a connection, or a fresh one for a new connection. -/
def System.session (s : System) (conn : Conn) : Session :=
  (s.sessions.find? fun x => x.conn = conn).getD (Session.start conn)

/-- One event of the hub process. A line that makes its handler panic is
followed by the deferred cleanup of that connection, which runs while the
handler unwinds; then the process has stopped and nothing happens any more. -/
def System.step (env : Env) (cfg : Config) (s : System) : Event → System
  | Event.line conn message =>
    if s.crashed then s
    else
      let r := handleLine env cfg s.hub (s.session conn) message
      if r.fault then
        ⟨(closeConn env r.hub r.sess).1, s.sessions.filter (fun x => x.conn ≠ conn),
          s.out ++ r.out ++ (closeConn env r.hub r.sess).2, true⟩
      else ⟨r.hub, r.sess :: s.sessions.filter (fun x => x.conn ≠ conn), s.out ++ r.out, false⟩
  | Event.close conn =>
    if s.crashed then s
    else
      let r := closeConn env s.hub (s.session conn)
      ⟨r.1, s.sessions.filter (fun x => x.conn ≠ conn), s.out ++ r.2, false⟩

/-- The hub process after a sequence of events. -/
def System.run (env : Env) (cfg : Config) (s : System) (events : List Event) : System :=
  events.foldl (System.step env cfg) s

/-- The signal packet a receiver reads from a written frame: the prefix `0` and
the line end are removed and the rest is deserialized (as the scanner loops of
client and hub do). -/
def Write.packet (w : Write) : Option GMSigPacket :=
  match w.line.data with
  | [] => none
  | c :: rest => if c = '0' then DeserializeGMSigPacket (String.mk rest.dropLast) else none

/-! ## A stand-in environment for worked examples -/

/-- An environment for evaluating the hub on examples: encryption and
decryption are the identity on the plaintext, the hub key is empty, maps are
visited in entry order. -/
def demoEnv : Env :=
  { GWEncrypt := fun plaintext _ => some plaintext,
    GWDecrypt := fun ciphertext => some ciphertext,
    RetrievePublicKey := some [],
    connOrder := ⟨id, fun _ => List.Perm.refl _⟩,
    keyOrder := ⟨id, fun _ => List.Perm.refl _⟩ }

/-- A configuration for examples: password `pw`, one channel `general`. -/
def demoCfg : Config :=
  { debugLogging := false, connectionLogging := false, password := "pw",
    channels := ["general"], serverName := "hub" }

/-- A stand-in for Argon2id in examples: the all-zero key of the asked length. -/
def demoIDKey : Argon2IDKey :=
  fun _ _ _ _ _ keyLen => ⟨List.replicate keyLen 0, List.length_replicate keyLen 0⟩

/-- The hub after a client greeted on a fresh connection in the stand-in
environment; the bytes of the id stand for its key. -/
def demoGreet (hub : Hub) (conn : Conn) (id : String) : Hub :=
  (handleSig demoEnv demoCfg hub (Session.start conn) ⟨"grtng", "", id, some (utf8 id)⟩).hub

/-- The hub with client `A` registered on connection 1. -/
def demoHubA : Hub := demoGreet Hub.init 1 "A"

/-- The hub with `A` and `B` registered on connections 1 and 2. -/
def demoHubAB : Hub := demoGreet demoHubA 2 "B"

/-- The hub with `A`, `B` and `C` registered on connections 1, 2 and 3. -/
def demoHubABC : Hub := demoGreet demoHubAB 3 "C"

/-- The data packet a receiver reads from a written frame, as the scanner loop of
the client does for the prefix `1`: prefix and line end are removed, the rest
is base64-decoded, decrypted with the receiver's identity (`decrypt`) and
deserialized. -/
def Write.dataPacket (decrypt : Bytes → Option Bytes) (w : Write) : Option GMDataPacket :=
  match w.line.data with
  | [] => none
  | c :: rest =>
    if c = '1' then
      match b64Decode rest.dropLast with
      | none => none
      | some decodedPacket =>
        match decrypt decodedPacket with
        | none => none
        | some decryptedPacket =>
          DeserializeGMDataPacket (String.mk (utf8DecodeLossy decryptedPacket))
    else none

/-- A second stand-in environment: as `demoEnv`, except that encryption to an
empty key fails, as reading an empty key ring does. -/
def strictEnv : Env :=
  { GWEncrypt := fun plaintext key => if key = [] then none else some plaintext,
    GWDecrypt := fun ciphertext => some ciphertext,
    RetrievePublicKey := some [],
    connOrder := ⟨id, fun _ => List.Perm.refl _⟩,
    keyOrder := ⟨id, fun _ => List.Perm.refl _⟩ }

/-- The hub with `A` registered on connection 1 and `Z` registered on connection
2 with an empty key. -/
def demoHubAZ : Hub :=
  (handleSig demoEnv demoCfg demoHubA (Session.start 2) ⟨"grtng", "", "Z", some []⟩).hub

/-- The `int64` value one. -/
def oneInt64 : Int64 := ⟨1, by decide⟩

/-- A chat packet for examples: one chunk, no expiry. -/
def demoChat : GMDataPacket :=
  NewDataPacketFromData "cht" (some [1]) zeroInt64 zeroInt64 oneInt64 oneInt64 "A" "general"
    (some [2])

/-- The body of the type-1 frame that carries `demoChat` to a hub whose
decryption is the identity. -/
def demoChatBody : String := String.mk (b64Encode (utf8 (String.mk (marshalData demoChat))))

/-- A stream packet for examples: recipients `B` and `Q`. -/
def demoStream : GMStreamPacket := { toGMDataPacket := demoChat, Recipients := some ["B", "Q"] }

/-- The body of the type-2 frame that carries `demoStream` to a hub whose
decryption is the identity. -/
def demoStreamBody : String := String.mk (b64Encode (utf8 (String.mk (marshalStream demoStream))))

/-- The hub with `A` and `B` registered after `A` has started call `[9]`. -/
def demoHubCall : Hub :=
  (handleSig demoEnv demoCfg demoHubAB ⟨1, "A", some (utf8 "A")⟩
    ⟨"start_call", "", "A", some [9]⟩).hub


/-! ## The client (gossip-client) -/

/-- What the client process takes from its environment: the operations of the
hub environment under the client identity, the multi-recipient encryption of
`crypto.go`, and the id the process generated at start-up. -/
structure ClientEnv extends Env where
  /-- Go `GWEncryptToMultiple(plaintext, recipientPublicKeys)`. -/
  GWEncryptToMultiple : Bytes → List Bytes → Option Bytes
  /-- Go `gossip_common.GetClientID()`. -/
  GetClientID : String

/-- The package variables of the client (`main.go`, `events.go`) that the
response loop and `SendMessage` use, and whether `conn.Close()` was called. -/
structure Client where
  /-- Go `username`, set by `Boot`. -/
  username : String
  /-- Go `password`, the hashed password set by `Boot`. -/
  password : String
  /-- Go `serverName`. -/
  serverName : String
  /-- Go `serverPublicKey`. -/
  serverPublicKey : GoBytes
  /-- Go `publicKeys`, the keys of the connected clients by id. -/
  publicKeys : GoMap String GoBytes
  /-- Go `callID`. -/
  callID : String
  /-- Whether the connection to the hub was closed by the client. -/
  closed : Bool

/-- What the client does to the outside: bytes written to the hub connection,
events emitted to the user interface (the arguments as text, integers in
decimal), and the calls into the WebRTC code of `stream.go`, which is not
followed further. -/
inductive ClientEffect where
  | send (line : String) : ClientEffect
  | emit (event : String) (args : List String) : ClientEffect
  | SendOfferToClient (destination : String) : ClientEffect
  | HandleOffer (sender : String) (offerBlob : GoBytes) : ClientEffect
  | HandleAnswer (sender : String) (answerBlob : GoBytes) : ClientEffect
  | HandleICECandidate (destination : String) (candidateBlob : GoBytes) : ClientEffect
  deriving DecidableEq

/-- The result of handling one line at the client: the variables afterwards, the
effects in order, and whether the handling ended in a runtime panic. -/
structure ClientStep where
  client : Client
  out : List ClientEffect
  fault : Bool

/-- Go `string(n)` for an integer: the text of the code point `n`, or of U+FFFD
when `n` is not a code point. -/
def runeString (n : Nat) : String :=
  String.singleton (if n.isValidChar then Char.ofNat n else replacementChar)

/-- Go `handleDataPacket` of the client (`data.go`): a `cht` packet has its
payload and its uid decrypted and is handed to the user interface; any other
packet does nothing. -/
def Client.handleDataPacket (cenv : ClientEnv) (packet : GMDataPacket) : List ClientEffect :=
  if packet.OpCmd = "cht" then
    match cenv.GWDecrypt (bytesOf packet.Payload) with
    | none => []
    | some decryptedMsg =>
      match cenv.GWDecrypt (bytesOf packet.UID) with
      | none => []
      | some decryptedUID =>
        [ClientEffect.emit "message-received"
          [packet.Destination, String.mk (utf8DecodeLossy decryptedUID),
            String.mk (utf8DecodeLossy decryptedMsg), String.mk (formatInt packet.Expiration.1),
            String.mk (formatInt packet.Timestamp.1), packet.Sender]]
  else []

/-- Go `handleResponses`, `case "hru"`: the hub key and name are stored and the
hashed password is sent back encrypted to the hub key. -/
def onHru (cenv : ClientEnv) (cl : Client) (packet : GMSigPacket) : ClientStep :=
  match cenv.GWEncrypt (utf8 cl.password) (bytesOf packet.Payload) with
  | none => ⟨{ cl with serverPublicKey := packet.Payload }, [], false⟩
  | some encryptedMsg =>
    match SendSignalPacket
        (NewSignalPacketFromData "ighru" "" cenv.GetClientID (some encryptedMsg)) with
    | none =>
      ⟨{ cl with serverPublicKey := packet.Payload, serverName := packet.Sender }, [], false⟩
    | some line =>
      ⟨{ cl with serverPublicKey := packet.Payload, serverName := packet.Sender },
        [ClientEffect.send line,
          ClientEffect.emit "update-loading-status" ["Sending IGHRU to server..."],
          ClientEffect.emit "server-name-received" [packet.Sender],
          ClientEffect.emit "update-client-id" [cenv.GetClientID]],
        false⟩

/-- Go `handleResponses`, `case "ig"`: when the payload decrypts to the expected
text the client asks for the keys. -/
def onIg (cenv : ClientEnv) (cl : Client) (packet : GMSigPacket) : ClientStep :=
  match cenv.GWDecrypt (bytesOf packet.Payload) with
  | none => ⟨cl, [], false⟩
  | some decryptedMsg =>
    if decryptedMsg ≠ utf8 "I'm good!" then ⟨cl, [], false⟩
    else
      match SendSignalPacket (NewSignalPacketFromData "gmk" "" cenv.GetClientID (some [])) with
      | none => ⟨cl, [], false⟩
      | some line =>
        ⟨cl,
          [ClientEffect.send line,
            ClientEffect.emit "update-loading-status" ["Sending GMK to server..."]],
          false⟩

/-- Go `handleResponses`, `case "ckp"`: the payload is decrypted and stored as
the key of the sender; a payload that does not decrypt is skipped. -/
def onCkp (cenv : ClientEnv) (cl : Client) (packet : GMSigPacket) : ClientStep :=
  match cenv.GWDecrypt (bytesOf packet.Payload) with
  | none => ⟨cl, [], false⟩
  | some decryptedKey =>
    ⟨{ cl with publicKeys := cl.publicKeys.set packet.Sender (some decryptedKey) },
      [ClientEffect.emit "update-loading-status"
        ["Received key #" ++
          runeString (cl.publicKeys.set packet.Sender (some decryptedKey)).entries.length ++
          "..."]],
      false⟩

/-- Go `handleResponses`, `case "cup"`. -/
def onCup (cenv : ClientEnv) (cl : Client) (packet : GMSigPacket) : ClientStep :=
  match cenv.GWDecrypt (bytesOf packet.Payload) with
  | none => ⟨cl, [], false⟩
  | some decryptedChannel =>
    ⟨cl, [ClientEffect.emit "channel-update" [String.mk (utf8DecodeLossy decryptedChannel)]],
      false⟩

/-- Go `handleResponses`, `case "rmk"`: the key of the sender is removed. -/
def onRmk (cl : Client) (packet : GMSigPacket) : ClientStep :=
  ⟨{ cl with publicKeys := cl.publicKeys.delete packet.Sender }, [], false⟩

/-- Go `handleResponses`, the `switch packet.OpCmd` on a deserialized signal
packet; an opcode without a case is logged and does nothing. -/
def clientSig (cenv : ClientEnv) (cl : Client) (packet : GMSigPacket) : ClientStep :=
  if packet.OpCmd = "hru" then onHru cenv cl packet
  else if packet.OpCmd = "ig" then onIg cenv cl packet
  else if packet.OpCmd = "ckp" then onCkp cenv cl packet
  else if packet.OpCmd = "cup" then onCup cenv cl packet
  else if packet.OpCmd = "eok" then ⟨cl, [ClientEffect.emit "finish-loading-status" []], false⟩
  else if packet.OpCmd = "call_active" then
    ⟨cl, [ClientEffect.emit "call_active" [cl.callID]], false⟩
  else if packet.OpCmd = "participent" then
    ⟨cl, [ClientEffect.emit "call_sending_offer" [],
      ClientEffect.SendOfferToClient packet.Destination], false⟩
  else if packet.OpCmd = "offer" then
    ⟨cl, [ClientEffect.emit "call_received_offer" [],
      ClientEffect.HandleOffer packet.Sender packet.Payload], false⟩
  else if packet.OpCmd = "answer" then
    ⟨cl, [ClientEffect.emit "call_received_answer" [],
      ClientEffect.HandleAnswer packet.Sender packet.Payload], false⟩
  else if packet.OpCmd = "ice" then
    ⟨cl, [ClientEffect.emit "call_received_ice" [cl.callID],
      ClientEffect.HandleICECandidate packet.Sender packet.Payload], false⟩
  else if packet.OpCmd = "c404" then ⟨cl, [ClientEffect.emit "call_not_found" [cl.callID]], false⟩
  else if packet.OpCmd = "401" then
    ⟨{ cl with closed := true }, [ClientEffect.emit "unauthorized" []], false⟩
  else if packet.OpCmd = "rmk" then onRmk cl packet
  else ⟨cl, [], false⟩

/-- Go `handleResponses`, the body of the scan loop for one line. The prefix is
read with `message[0]`, which panics on an empty line. A data frame is decoded,
decrypted and deserialized, each failure skipping the line; the handling of
stream frames is commented out in the source. -/
def handleResponse (cenv : ClientEnv) (cl : Client) (message : String) : ClientStep :=
  match message.data with
  | [] => ⟨cl, [], true⟩
  | c :: rest =>
    if c = '0' then
      match DeserializeGMSigPacket (String.mk rest) with
      | none => ⟨cl, [], false⟩
      | some packet => clientSig cenv cl packet
    else if c = '1' then
      match b64Decode rest with
      | none => ⟨cl, [], false⟩
      | some decodedPacket =>
        match cenv.GWDecrypt decodedPacket with
        | none => ⟨cl, [], false⟩
        | some decryptedPacket =>
          match DeserializeGMDataPacket (String.mk (utf8DecodeLossy decryptedPacket)) with
          | none => ⟨cl, [], false⟩
          | some dataPacket => ⟨cl, Client.handleDataPacket cenv dataPacket, false⟩
    else if c = '2' then ⟨cl, [], false⟩
    else ⟨cl, [], false⟩

/-- Go `handleResponses`: the lines of the hub are handled in order; a panic
stops the process. Returns the variables, all effects in order, and whether the
process panicked. -/
def handleResponses (cenv : ClientEnv) : Client → List String → Client × List ClientEffect × Bool
  | cl, [] => (cl, [], false)
  | cl, message :: rest =>
    if (handleResponse cenv cl message).fault then
      ((handleResponse cenv cl message).client, (handleResponse cenv cl message).out, true)
    else
      ((handleResponses cenv (handleResponse cenv cl message).client rest).1,
        (handleResponse cenv cl message).out ++
          (handleResponses cenv (handleResponse cenv cl message).client rest).2.1,
        (handleResponses cenv (handleResponse cenv cl message).client rest).2.2)

/-- Go `SendMessage`, up to the packet it builds (`cPacket`): the known keys are
collected from the key map, the message and the user name are each encrypted to
all of them, and the `cht` packet is made with the time `now` of the call;
`none` when one of the two encryptions fails. -/
def chatPacket (cenv : ClientEnv) (cl : Client) (now : Int64) (message : String)
    (expiry : Int64) (channel : String) : Option GMDataPacket :=
  match cenv.GWEncryptToMultiple (utf8 message)
      ((cenv.keyOrder.apply cl.publicKeys.entries).map fun e => bytesOf e.2) with
  | none => none
  | some encryptedMsg =>
    match cenv.GWEncryptToMultiple (utf8 cl.username)
        ((cenv.keyOrder.apply cl.publicKeys.entries).map fun e => bytesOf e.2) with
    | none => none
    | some encryptedUID =>
      some (NewDataPacketFromData "cht" (some encryptedUID) now expiry oneInt64 oneInt64
        cenv.GetClientID channel (some encryptedMsg))

/-- What a call of `SendMessage` gives: the returned error (`none` is Go `nil`)
and the lines written to the hub connection. -/
structure SendResult where
  err : Option String
  sent : List String
  deriving DecidableEq

/-- Go `SendMessage`: the packet is built and sent to the hub in a data frame
encrypted to the hub key. Every failure is logged and followed by `return nil`,
as is the success. -/
def SendMessage (cenv : ClientEnv) (cl : Client) (now : Int64) (message : String)
    (expiry : Int64) (channel : String) : SendResult :=
  match chatPacket cenv cl now message expiry channel with
  | none => ⟨none, []⟩
  | some cPacket =>
    match SendDataPacket cenv.toEnv cPacket cl.serverPublicKey with
    | none => ⟨none, []⟩
    | some line => ⟨none, [line]⟩

/-- The stream packet the hub reads from a frame, as `handleConnection` and
`handleStreamPacket` do for the prefix `2`: prefix and line end are removed, the
rest is base64-decoded, decrypted with the receiver identity (`decrypt`) and
deserialized. -/
def Write.streamPacket (decrypt : Bytes → Option Bytes) (w : Write) : Option GMStreamPacket :=
  match w.line.data with
  | [] => none
  | c :: rest =>
    if c = '2' then
      match b64Decode rest.dropLast with
      | none => none
      | some decodedPacket =>
        match decrypt decodedPacket with
        | none => none
        | some decryptedPacket =>
          DeserializeGMStreamPacket (String.mk (utf8DecodeLossy decryptedPacket))
    else none

/-- A client environment for examples: the stand-in hub environment, encryption
to several keys is the identity on the plaintext, the client id is `id-A`. -/
def demoClientEnv : ClientEnv :=
  { toEnv := demoEnv, GWEncryptToMultiple := fun plaintext _ => some plaintext,
    GetClientID := "id-A" }

/-- A second client environment for examples: as `demoClientEnv`, except that
encryption to several keys fails when one of the keys is empty, and nothing
decrypts. -/
def strictClientEnv : ClientEnv :=
  { toEnv := { demoEnv with GWDecrypt := fun _ => none },
    GWEncryptToMultiple := fun plaintext keys => if [] ∈ keys then none else some plaintext,
    GetClientID := "id-A" }

/-- A client for examples: user `alice`, connected, with no keys yet. -/
def demoClient : Client :=
  { username := "alice", password := "pw", serverName := "hub", serverPublicKey := some [],
    publicKeys := GoMap.empty, callID := "", closed := false }

/-- The example client after a `ckp` from `B` carrying an empty key. -/
def demoClientB : Client :=
  (onCkp demoClientEnv demoClient ⟨"ckp", "id-A", "B", some []⟩).client

/-! ## Lock discipline of the hub handlers -/

/-- The shared maps of the hub (`main.go`, `events.go`). -/
inductive SharedMap where
  | connections | publicKeys | activeCalls
  deriving DecidableEq

/-- The two read-write mutexes of the hub. -/
inductive Mutex where
  | connectionsLock | activeCallsLock
  deriving DecidableEq

/-- The mutex under which the source touches each map where it locks at all:
`connectionsLock` around `connections` and `publicKeys` (registration,
unregistration, key broadcast), `activeCallsLock` around `activeCalls`
(`start_call`, `hang-up`). -/
def SharedMap.mutex : SharedMap → Mutex
  | SharedMap.connections => Mutex.connectionsLock
  | SharedMap.publicKeys => Mutex.connectionsLock
  | SharedMap.activeCalls => Mutex.activeCallsLock

/-- What a handler does with the mutexes and the shared maps, one item per
statement of the source in program order. -/
inductive Access where
  | Lock (m : Mutex) : Access
  | Unlock (m : Mutex) : Access
  | RLock (m : Mutex) : Access
  | RUnlock (m : Mutex) : Access
  | read (s : SharedMap) : Access
  | write (s : SharedMap) : Access
  deriving DecidableEq

/-- How the running handler holds a mutex. -/
inductive Hold where
  | free | shared | exclusive
  deriving DecidableEq

/-- The accesses of a sequence that are made without the lock they need: a read
with the mutex of its map not held at all, a write with it not held exclusively.
`held` is how the handler holds the two mutexes before the sequence. -/
def violationsFrom (held : Mutex → Hold) : List Access → List Access
  | [] => []
  | Access.Lock m :: rest =>
    violationsFrom (fun x => if x = m then Hold.exclusive else held x) rest
  | Access.RLock m :: rest =>
    violationsFrom (fun x => if x = m then Hold.shared else held x) rest
  | Access.Unlock m :: rest =>
    violationsFrom (fun x => if x = m then Hold.free else held x) rest
  | Access.RUnlock m :: rest =>
    violationsFrom (fun x => if x = m then Hold.free else held x) rest
  | Access.read s :: rest =>
    if held s.mutex = Hold.free then Access.read s :: violationsFrom held rest
    else violationsFrom held rest
  | Access.write s :: rest =>
    if held s.mutex = Hold.exclusive then violationsFrom held rest
    else Access.write s :: violationsFrom held rest

/-- The unguarded accesses of a handler that starts with no mutex held. -/
def violations (t : List Access) : List Access := violationsFrom (fun _ => Hold.free) t

/-- Accesses of `sendKeyToOtherClients`: the read lock is taken, `connections`
is ranged over and the key of every registered client is looked up; the
deferred unlock runs at the end. -/
def sendKeyToOtherClientsAccesses (hub : Hub) : List Access :=
  Access.RLock Mutex.connectionsLock :: Access.read SharedMap.connections ::
    ((hub.connections.entries.map fun _ => Access.read SharedMap.publicKeys) ++
    [Access.RUnlock Mutex.connectionsLock])

/-- Accesses of `sendRMKPackets`: `connections` is ranged over. -/
def sendRMKPacketsAccesses : List Access := [Access.read SharedMap.connections]

/-- Accesses of `case "grtng"`: the two maps are written under the lock, then
the key is broadcast. -/
def grtngAccesses (hub : Hub) (sess : Session) (packet : GMSigPacket) : List Access :=
  Access.Lock Mutex.connectionsLock :: Access.write SharedMap.connections ::
    Access.write SharedMap.publicKeys :: Access.Unlock Mutex.connectionsLock ::
    sendKeyToOtherClientsAccesses
      { hub with connections := hub.connections.set packet.Sender sess.conn }

/-- Accesses of `case "gmk"`: `publicKeys` is ranged over, with a lookup of the
requester key for every key and for every channel. -/
def gmkAccesses (cfg : Config) (hub : Hub) : List Access :=
  Access.read SharedMap.publicKeys ::
    ((hub.publicKeys.entries.map fun _ => Access.read SharedMap.publicKeys) ++
      cfg.channels.map fun _ => Access.read SharedMap.publicKeys)

/-- Accesses of `case "start_call"`: the roster entry is read and written under
the lock. -/
def startCallAccesses : List Access :=
  [Access.Lock Mutex.activeCallsLock, Access.read SharedMap.activeCalls,
    Access.write SharedMap.activeCalls, Access.Unlock Mutex.activeCallsLock]

/-- Accesses of `case "gmp"`: the roster is looked up; for a known call the
entry is read and written and then ranged over. -/
def gmpAccesses (hub : Hub) (packet : GMSigPacket) : List Access :=
  match hub.activeCalls.get? (bytesOf packet.Payload) with
  | none => [Access.read SharedMap.activeCalls]
  | some _ =>
    [Access.read SharedMap.activeCalls, Access.read SharedMap.activeCalls,
      Access.write SharedMap.activeCalls, Access.read SharedMap.activeCalls]

/-- Accesses of `case "offer"`, `case "answer"` and `case "ice"`: the connection
of the destination is looked up. -/
def relayAccesses : List Access := [Access.read SharedMap.connections]

/-- Accesses of `case "hang-up"`: under the lock the roster entry is looked up
and, for a known call, written or deleted. -/
def hangUpAccesses (hub : Hub) (packet : GMSigPacket) : List Access :=
  match hub.activeCalls.get? (bytesOf packet.Payload) with
  | none =>
    [Access.Lock Mutex.activeCallsLock, Access.read SharedMap.activeCalls,
      Access.Unlock Mutex.activeCallsLock]
  | some _ =>
    [Access.Lock Mutex.activeCallsLock, Access.read SharedMap.activeCalls,
      Access.write SharedMap.activeCalls, Access.Unlock Mutex.activeCallsLock]

/-- Accesses of `case "urgstr"` and of the deferred cleanup for a session with a
client id: the two entries are deleted under the lock, then `rmk` is
broadcast. -/
def unregisterAccesses : List Access :=
  Access.Lock Mutex.connectionsLock :: Access.write SharedMap.connections ::
    Access.write SharedMap.publicKeys :: Access.Unlock Mutex.connectionsLock ::
    sendRMKPacketsAccesses

/-- Accesses of the fan-out loop of `handleDataPacket`: `connections` is ranged
over and the key of every client is looked up. -/
def dataFanOutAccesses (hub : Hub) : List Access :=
  Access.read SharedMap.connections ::
    hub.connections.entries.map fun _ => Access.read SharedMap.publicKeys

/-- Accesses of the loop of `handleStreamPacket`: for every recipient the
connection is looked up and, when there is one, the key. -/
def streamFanOutAccesses (hub : Hub) (recipients : List String) : List Access :=
  recipients.flatMap fun recipientID =>
    match hub.connections.get? recipientID with
    | none => [Access.read SharedMap.connections]
    | some _ => [Access.read SharedMap.connections, Access.read SharedMap.publicKeys]
/-! ## Predicates used in the proofs -/

/-- A character that a JSON string literal holds as itself and that base64
decoding does not skip. -/
def b64Safe (c : Char) : Prop :=
  c ≠ '"' ∧ c ≠ '\\' ∧ ¬ c.toNat < 0x20 ∧ c ≠ '\r' ∧ c ≠ '\n'

/-- The JSON value that a `[]byte` field is written as. -/
def jvBytes (b : GoBytes) : JVal :=
  match b with
  | none => JVal.null
  | some bs => JVal.str (b64Encode bs)

/-- The JSON value that a `[]string` field is written as. -/
def jvStrings (r : Option (List String)) : JVal :=
  match r with
  | none => JVal.null
  | some xs => JVal.arr (xs.map (fun y => JVal.str y.data))

/-- The registry invariant: the connection registry and the key map have the same
keys. -/
def regInv (h : Hub) : Prop := ∀ id, id ∈ h.connections.keys ↔ id ∈ h.publicKeys.keys

/-- The frame that `SendSignalPacket` writes for a packet. -/
def sigLine (p : GMSigPacket) : String := "0" ++ String.mk (marshalSig p) ++ "\n"

/-- The `rmk` packet sent to `id` about the departed client. -/
def rmkPacket (id departed : String) : GMSigPacket :=
  NewSignalPacketFromData "rmk" id departed (some [])


/-- The roster invariant: every call in the roster has at least one
participant. -/
def rosterInv (h : Hub) : Prop :=
  ∀ callID participants, h.activeCalls.get? callID = some participants → participants ≠ []

/-- Whether a line is a signal frame whose packet has the opcode `grtng` or
`gmk`, the two opcodes whose handlers assign the client id of the session. -/
def assignsClientID (message : String) : Bool :=
  match message.data with
  | [] => false
  | c :: rest =>
    if c = '0' then
      match DeserializeGMSigPacket (String.mk rest) with
      | none => false
      | some packet => packet.OpCmd = "grtng" || packet.OpCmd = "gmk"
    else false
/-! ## Lemmas: base64 -/

theorem b64Val_b64Char (n : Nat) (h : n < 64) : b64Val (b64Char n) = some n := by
  interval_cases n <;> rfl

theorem b64Char_ne_pad (n : Nat) (h : n < 64) : b64Char n ≠ '=' := by
  interval_cases n <;> decide

theorem b64Char_plain (n : Nat) (h : n < 64) :
    b64Char n ≠ '"' ∧ b64Char n ≠ '\\' ∧ ¬ (b64Char n).toNat < 0x20 ∧
      b64Char n ≠ '\r' ∧ b64Char n ≠ '\n' := by
  interval_cases n <;> decide

theorem b64DecodeQuanta_encode (bs : Bytes) : b64DecodeQuanta (b64Encode bs) = some bs := by
  induction bs using b64Encode.induct with
  | case1 => simp [b64Encode, b64DecodeQuanta]
  | case2 a =>
    have h1 : a.val / 4 < 64 := by omega
    have h2 : a.val % 4 * 16 < 64 := by omega
    simp only [b64Encode, b64DecodeQuanta, b64Val_b64Char _ h1, b64Val_b64Char _ h2]
    simp [byteOfNat]
    apply Fin.ext
    simp
    omega
  | case3 a b =>
    have h1 : a.val / 4 < 64 := by omega
    have h2 : a.val % 4 * 16 + b.val / 16 < 64 := by omega
    have h3 : b.val % 16 * 4 < 64 := by omega
    simp only [b64Encode, b64DecodeQuanta, b64Val_b64Char _ h1, b64Val_b64Char _ h2,
      b64Val_b64Char _ h3]
    simp [byteOfNat, b64Char_ne_pad _ h3]
    constructor <;> apply Fin.ext <;> simp <;> omega
  | case4 a b c rest ih =>
    have h1 : a.val / 4 < 64 := by omega
    have h2 : a.val % 4 * 16 + b.val / 16 < 64 := by omega
    have h3 : b.val % 16 * 4 + c.val / 64 < 64 := by omega
    have h4 : c.val % 64 < 64 := by omega
    simp only [b64Encode, b64DecodeQuanta, b64Val_b64Char _ h1, b64Val_b64Char _ h2,
      b64Val_b64Char _ h3, b64Val_b64Char _ h4, ih]
    simp [byteOfNat, b64Char_ne_pad _ h4]
    refine ⟨?_, ?_, ?_⟩ <;> apply Fin.ext <;> simp <;> omega

theorem b64Encode_safe (bs : Bytes) : ∀ c ∈ b64Encode bs, b64Safe c := by
  have pad : b64Safe '=' := by unfold b64Safe; decide
  induction bs using b64Encode.induct with
  | case1 => simp [b64Encode]
  | case2 a =>
    intro c hc
    simp only [b64Encode, List.mem_cons, List.mem_singleton, List.not_mem_nil, or_false] at hc
    rcases hc with h | h | h | h <;> subst h
    · exact b64Char_plain _ (by omega)
    · exact b64Char_plain _ (by omega)
    · exact pad
    · exact pad
  | case3 a b =>
    intro c hc
    simp only [b64Encode, List.mem_cons, List.mem_singleton, List.not_mem_nil, or_false] at hc
    rcases hc with h | h | h | h <;> subst h
    · exact b64Char_plain _ (by omega)
    · exact b64Char_plain _ (by omega)
    · exact b64Char_plain _ (by omega)
    · exact pad
  | case4 a b c rest ih =>
    intro x hx
    simp only [b64Encode, List.mem_cons] at hx
    rcases hx with h | h | h | h | h
    · subst h; exact b64Char_plain _ (by omega)
    · subst h; exact b64Char_plain _ (by omega)
    · subst h; exact b64Char_plain _ (by omega)
    · subst h; exact b64Char_plain _ (by omega)
    · exact ih x h

theorem b64Decode_encode (bs : Bytes) : b64Decode (b64Encode bs) = some bs := by
  unfold b64Decode
  rw [List.filter_eq_self.mpr, b64DecodeQuanta_encode]
  intro c hc
  have := b64Encode_safe bs c hc
  simp [this.2.2.2.1, this.2.2.2.2]

/-! ## Lemmas: JSON strings -/

theorem hexVal_hexDigit (d : Nat) (h : d < 16) : hexVal (hexDigit d) = some d := by
  interval_cases d <;> rfl

theorem escapeChar_length_pos (c : Char) : 1 ≤ (escapeChar c).length := by
  unfold escapeChar
  by_cases c1 : c = '\\'
  · rw [if_pos c1]; simp only [List.length_cons, List.length_nil]; omega
  rw [if_neg c1]
  by_cases c2 : c = '"'
  · rw [if_pos c2]; simp only [List.length_cons, List.length_nil]; omega
  rw [if_neg c2]
  by_cases c3 : c = '\x08'
  · rw [if_pos c3]; simp only [List.length_cons, List.length_nil]; omega
  rw [if_neg c3]
  by_cases c4 : c = '\x0c'
  · rw [if_pos c4]; simp only [List.length_cons, List.length_nil]; omega
  rw [if_neg c4]
  by_cases c5 : c = '\n'
  · rw [if_pos c5]; simp only [List.length_cons, List.length_nil]; omega
  rw [if_neg c5]
  by_cases c6 : c = '\r'
  · rw [if_pos c6]; simp only [List.length_cons, List.length_nil]; omega
  rw [if_neg c6]
  by_cases c7 : c = '\t'
  · rw [if_pos c7]; simp only [List.length_cons, List.length_nil]; omega
  rw [if_neg c7]
  by_cases c8 : c.toNat < 0x20 ∨ c = '<' ∨ c = '>' ∨ c = '&'
  · rw [if_pos c8]; simp only [List.length_cons, List.length_nil]; omega
  rw [if_neg c8]
  by_cases c9 : c = Char.ofNat 0x2028 ∨ c = Char.ofNat 0x2029
  · rw [if_pos c9]; simp only [List.length_cons, List.length_nil]; omega
  rw [if_neg c9]
  simp only [List.length_cons, List.length_nil]; omega

theorem length_le_flatMap_escape (s : List Char) : s.length ≤ (s.flatMap escapeChar).length := by
  induction s with
  | nil => simp
  | cons c s ih =>
    have := escapeChar_length_pos c
    simp only [List.flatMap_cons, List.length_cons, List.length_append]
    omega

theorem unquoteBody_quote (f : Nat) (rest : List Char) :
    unquoteBody (f + 1) ('"' :: rest) = some ([], rest) := by
  simp [unquoteBody, nextRune]

theorem unquoteBody_simple (e ch : Char) (f : Nat) (tail s t : List Char)
    (he : e ≠ 'u') (hs : simpleEscape e = some ch) (h : unquoteBody f tail = some (s, t)) :
    unquoteBody (f + 1) ('\\' :: e :: tail) = some (ch :: s, t) := by
  have hn : nextRune ('\\' :: e :: tail) = some (some ch, tail) := by
    have q : ('\\' : Char) ≠ '"' := by decide
    simp only [nextRune, q, he, if_false, if_true, hs]
  simp only [unquoteBody, hn, h]

theorem unquoteBody_literal (c : Char) (f : Nat) (tail s t : List Char)
    (h1 : c ≠ '"') (h2 : c ≠ '\\') (h3 : ¬ c.toNat < 0x20) (h : unquoteBody f tail = some (s, t)) :
    unquoteBody (f + 1) (c :: tail) = some (c :: s, t) := by
  have hn : nextRune (c :: tail) = some (some c, tail) := by
    simp only [nextRune, h1, h2, h3, if_false]
  simp only [unquoteBody, hn, h]

theorem unquoteBody_u (n : Nat) (h1 h2 h3 h4 : Char) (f : Nat) (tail s t : List Char)
    (hp : parseHex4 h1 h2 h3 h4 = some n) (hn : n < 0xD800)
    (h : unquoteBody f tail = some (s, t)) :
    unquoteBody (f + 1) ('\\' :: 'u' :: h1 :: h2 :: h3 :: h4 :: tail) = some (Char.ofNat n :: s, t) := by
  have hd : decodeUnicodeEscape n tail = (Char.ofNat n, 0) := by
    unfold decodeUnicodeEscape
    rw [if_neg (by omega)]
  have hr : nextRune ('\\' :: 'u' :: h1 :: h2 :: h3 :: h4 :: tail) = some (some (Char.ofNat n), tail) := by
    have q : ('\\' : Char) ≠ '"' := by decide
    simp only [nextRune, q, if_false, if_true, hp, hd, List.drop_zero]
  simp only [unquoteBody, hr, h]

theorem unquoteBody_escapeChar (c : Char) (f : Nat) (tail s t : List Char)
    (h : unquoteBody f tail = some (s, t)) :
    unquoteBody (f + 1) (escapeChar c ++ tail) = some (c :: s, t) := by
  unfold escapeChar
  by_cases c1 : c = '\\'
  · subst c1; rw [if_pos rfl]; exact unquoteBody_simple _ _ f tail s t (by decide) (by rfl) h
  rw [if_neg c1]
  by_cases c2 : c = '"'
  · subst c2; rw [if_pos rfl]; exact unquoteBody_simple _ _ f tail s t (by decide) (by rfl) h
  rw [if_neg c2]
  by_cases c3 : c = '\x08'
  · subst c3; rw [if_pos rfl]; exact unquoteBody_simple _ _ f tail s t (by decide) (by rfl) h
  rw [if_neg c3]
  by_cases c4 : c = '\x0c'
  · subst c4; rw [if_pos rfl]; exact unquoteBody_simple _ _ f tail s t (by decide) (by rfl) h
  rw [if_neg c4]
  by_cases c5 : c = '\n'
  · subst c5; rw [if_pos rfl]; exact unquoteBody_simple _ _ f tail s t (by decide) (by rfl) h
  rw [if_neg c5]
  by_cases c6 : c = '\r'
  · subst c6; rw [if_pos rfl]; exact unquoteBody_simple _ _ f tail s t (by decide) (by rfl) h
  rw [if_neg c6]
  by_cases c7 : c = '\t'
  · subst c7; rw [if_pos rfl]; exact unquoteBody_simple _ _ f tail s t (by decide) (by rfl) h
  rw [if_neg c7]
  by_cases c8 : c.toNat < 0x20 ∨ c = '<' ∨ c = '>' ∨ c = '&'
  · rw [if_pos c8]
    have hn : c.toNat < 128 := by
      rcases c8 with h8 | h8 | h8 | h8
      · omega
      · subst h8; decide
      · subst h8; decide
      · subst h8; decide
    have hp : parseHex4 '0' '0' (hexDigit (c.toNat / 16)) (hexDigit (c.toNat % 16)) = some c.toNat := by
      unfold parseHex4
      rw [hexVal_hexDigit _ (by omega), hexVal_hexDigit _ (by omega)]
      have h0 : hexVal '0' = some 0 := by rfl
      simp only [h0]
      congr 1
      omega
    have := unquoteBody_u c.toNat _ _ _ _ f tail s t hp (by omega) h
    rw [Char.ofNat_toNat] at this
    exact this
  rw [if_neg c8]
  by_cases c9 : c = Char.ofNat 0x2028 ∨ c = Char.ofNat 0x2029
  · rw [if_pos c9]
    have hp : parseHex4 '2' '0' '2' (hexDigit (c.toNat % 16)) = some c.toNat := by
      rcases c9 with h9 | h9 <;> subst h9 <;> rfl
    have hn : c.toNat < 0xD800 := by
      rcases c9 with h9 | h9 <;> subst h9 <;> decide
    have := unquoteBody_u c.toNat _ _ _ _ f tail s t hp hn h
    rw [Char.ofNat_toNat] at this
    exact this
  rw [if_neg c9]
  have c8' := not_or.mp c8
  exact unquoteBody_literal c f tail s t c2 c1 c8'.1 h

theorem unquoteBody_plain (s rest : List Char) (hs : ∀ c ∈ s, b64Safe c) :
    ∀ fuel, s.length < fuel → unquoteBody fuel (s ++ '"' :: rest) = some (s, rest) := by
  induction s with
  | nil =>
    intro fuel hf
    obtain ⟨f, rfl⟩ : ∃ f, fuel = f + 1 := ⟨fuel - 1, by simp at hf; omega⟩
    exact unquoteBody_quote f rest
  | cons c s ih =>
    intro fuel hf
    obtain ⟨f, rfl⟩ : ∃ f, fuel = f + 1 := ⟨fuel - 1, by simp at hf; omega⟩
    have hc := hs c (List.mem_cons_self _ _)
    have ih' := ih (fun x hx => hs x (List.mem_cons_of_mem _ hx)) f (by simp at hf; omega)
    exact unquoteBody_literal c f _ s rest hc.1 hc.2.1 hc.2.2.1 ih' 

theorem unquoteBody_escape (s rest : List Char) :
    ∀ fuel, s.length < fuel →
      unquoteBody fuel (s.flatMap escapeChar ++ '"' :: rest) = some (s, rest) := by
  induction s with
  | nil =>
    intro fuel hf
    obtain ⟨f, rfl⟩ : ∃ f, fuel = f + 1 := ⟨fuel - 1, by simp at hf; omega⟩
    exact unquoteBody_quote f rest
  | cons c s ih =>
    intro fuel hf
    obtain ⟨f, rfl⟩ : ∃ f, fuel = f + 1 := ⟨fuel - 1, by simp at hf; omega⟩
    have ih' := ih f (by simp at hf; omega)
    simp only [List.flatMap_cons, List.append_assoc]
    exact unquoteBody_escapeChar c f _ s rest ih'

/-! ## Lemmas: decimal integers -/

theorem digitChar_facts (n : Nat) (h : n < 10) :
    isDigit (digitChar n) = true ∧ (digitChar n).toNat - 48 = n ∧
      (digitChar n = '0' → n = 0) ∧ digitChar n ≠ '-' ∧ digitChar n ≠ '+' := by
  interval_cases n <;> decide

theorem decDigits_lt (n : Nat) (h : n < 10) : decDigits n = [digitChar n] := by
  rw [decDigits, if_pos h]

theorem decDigits_ge (n : Nat) (h : ¬ n < 10) :
    decDigits n = decDigits (n / 10) ++ [digitChar (n % 10)] := by
  rw [decDigits, if_neg h]

theorem decDigits_all (n : Nat) : ∀ c ∈ decDigits n, isDigit c = true := by
  induction n using Nat.strong_induction_on with
  | _ n ih =>
    by_cases h : n < 10
    · rw [decDigits_lt n h]
      intro c hc
      rw [List.mem_singleton] at hc
      subst hc
      exact (digitChar_facts n h).1
    · rw [decDigits_ge n h]
      intro c hc
      rcases List.mem_append.mp hc with hc | hc
      · exact ih (n / 10) (by omega) c hc
      · rw [List.mem_singleton] at hc
        subst hc
        exact (digitChar_facts (n % 10) (by omega)).1

theorem parseNat_append (s : List Char) (c : Char) :
    parseNat (s ++ [c]) = parseNat s * 10 + (c.toNat - 48) := by
  simp [parseNat, List.foldl_append]

theorem parseNat_decDigits (n : Nat) : parseNat (decDigits n) = n := by
  induction n using Nat.strong_induction_on with
  | _ n ih =>
    by_cases h : n < 10
    · rw [decDigits_lt n h]
      simp [parseNat, (digitChar_facts n h).2.1]
    · rw [decDigits_ge n h, parseNat_append, ih (n / 10) (by omega),
        (digitChar_facts (n % 10) (by omega)).2.1]
      omega

/-- The shape of a formatted natural number: a first digit and further digits,
and a first digit zero only for the number zero. -/
theorem decDigits_shape (n : Nat) :
    ∃ d ds, decDigits n = d :: ds ∧ isDigit d = true ∧ (∀ c ∈ ds, isDigit c = true) ∧
      (d = '0' → ds = []) := by
  induction n using Nat.strong_induction_on with
  | _ n ih =>
    by_cases h : n < 10
    · exact ⟨digitChar n, [], decDigits_lt n h, (digitChar_facts n h).1, by simp, fun _ => rfl⟩
    · obtain ⟨d, ds, hd, hdig, hall, hz⟩ := ih (n / 10) (by omega)
      have hne : d ≠ '0' := by
        intro h0
        have hds := hz h0
        have hp := parseNat_decDigits (n / 10)
        rw [hd, hds, h0] at hp
        simp [parseNat] at hp
        omega
      refine ⟨d, ds ++ [digitChar (n % 10)], ?_, hdig, ?_, fun h0 => absurd h0 hne⟩
      · rw [decDigits_ge n h, hd]; rfl
      · intro c hc
        rcases List.mem_append.mp hc with hc | hc
        · exact hall c hc
        · rw [List.mem_singleton] at hc
          subst hc
          exact (digitChar_facts (n % 10) (by omega)).1

theorem takeWhile_digits (ds : List Char) (c : Char) (rest : List Char)
    (hds : ∀ x ∈ ds, isDigit x = true) (hc : isDigit c = false) :
    (ds ++ c :: rest).takeWhile isDigit = ds ∧ (ds ++ c :: rest).dropWhile isDigit = c :: rest := by
  induction ds with
  | nil => simp [List.takeWhile, List.dropWhile, hc]
  | cons d ds ih =>
    have hd := hds d (List.mem_cons_self _ _)
    have ih' := ih (fun x hx => hds x (List.mem_cons_of_mem _ hx))
    simp [List.takeWhile, List.dropWhile, hd, ih'.1, ih'.2]

/-- A number literal made of digits, followed by a comma, a closing brace or a
closing bracket, is scanned as itself. -/
theorem scanNumber_digits (neg : Bool) (d : Char) (ds : List Char) (c : Char) (rest : List Char)
    (hd : isDigit d = true) (hds : ∀ x ∈ ds, isDigit x = true) (hz : d = '0' → ds = [])
    (hc : c = ',' ∨ c = '}') :
    scanNumber ((if neg then ['-'] else []) ++ d :: (ds ++ c :: rest)) =
      some ((if neg then ['-'] else []) ++ d :: ds, c :: rest) := by
  have hcd : isDigit c = false := by rcases hc with h | h <;> subst h <;> decide
  have hc1 : c ≠ '.' := by rcases hc with h | h <;> subst h <;> decide
  have hc2 : c ≠ 'e' := by rcases hc with h | h <;> subst h <;> decide
  have hc3 : c ≠ 'E' := by rcases hc with h | h <;> subst h <;> decide
  have hdm : d ≠ '-' := by
    intro h; subst h; revert hd; decide
  have tw := takeWhile_digits ds c rest hds hcd
  cases neg with
  | true =>
    by_cases h0 : d = '0'
    · have := hz h0
      subst this
      subst h0
      simp [scanNumber, hc1, hc2, hc3]
      decide
    · simp [scanNumber, hd, h0, tw.1, tw.2, hc1, hc2, hc3]
  | false =>
    by_cases h0 : d = '0'
    · have := hz h0
      subst this
      subst h0
      simp [scanNumber, hc1, hc2, hc3]
      decide
    · simp [scanNumber, hd, h0, hdm, tw.1, tw.2, hc1, hc2, hc3]

theorem formatInt_eq (i : Int) :
    formatInt i = (if decide (i < 0) then ['-'] else []) ++ decDigits i.natAbs := by
  unfold formatInt
  by_cases h : i < 0 <;> simp [h]

theorem parseInt64_formatInt (i : Int64) : parseInt64 (formatInt i.val) = some i := by
  obtain ⟨d, ds, hd, hdig, hall, -⟩ := decDigits_shape i.val.natAbs
  have hp := parseNat_decDigits i.val.natAbs
  have hall' : (d :: ds).all isDigit = true := by
    simp only [List.all_cons, hdig, Bool.true_and, List.all_eq_true]
    exact hall
  have hdm : d ≠ '-' := by intro h; subst h; revert hdig; decide
  have hdp : d ≠ '+' := by intro h; subst h; revert hdig; decide
  rw [hd] at hp
  unfold formatInt
  by_cases h : i.val < 0
  · rw [if_pos h, hd]
    have hv : -(parseNat (d :: ds) : Int) = i.val := by rw [hp]; omega
    unfold parseInt64
    simp only [List.head?_cons, true_or, if_true, List.drop_succ_cons, List.drop_zero,
      hall', not_true_eq_false, or_false, reduceCtorEq, if_false, hv]
    rw [dif_pos i.property]
  · rw [if_neg h, hd]
    have hv : (parseNat (d :: ds) : Int) = i.val := by rw [hp]; omega
    unfold parseInt64
    simp only [List.head?_cons, Option.some.injEq, hdm, hdp, or_self, if_false,
      hall', not_true_eq_false, or_false, reduceCtorEq, hv]
    rw [dif_pos i.property]

theorem scanNumber_formatInt (i : Int) (c : Char) (rest : List Char) (hc : c = ',' ∨ c = '}') :
    scanNumber (formatInt i ++ c :: rest) = some (formatInt i, c :: rest) := by
  obtain ⟨d, ds, hd, hdig, hall, hz⟩ := decDigits_shape i.natAbs
  rw [formatInt_eq, hd, List.append_assoc, List.cons_append]
  exact scanNumber_digits _ d ds c rest hdig hall hz hc

/-! ## Lemmas: JSON values -/

theorem skipWs_cons (c : Char) (t : List Char)
    (h : ¬ (c = ' ' ∨ c = '\t' ∨ c = '\n' ∨ c = '\r')) : skipWs (c :: t) = c :: t := by
  simp only [skipWs, h, if_false]

theorem skipWs_quote (t : List Char) : skipWs ('"' :: t) = '"' :: t :=
  skipWs_cons _ _ (by decide)

theorem skipWs_comma (t : List Char) : skipWs (',' :: t) = ',' :: t :=
  skipWs_cons _ _ (by decide)

theorem skipWs_colon (t : List Char) : skipWs (':' :: t) = ':' :: t :=
  skipWs_cons _ _ (by decide)

theorem skipWs_rbrace (t : List Char) : skipWs ('}' :: t) = '}' :: t :=
  skipWs_cons _ _ (by decide)

theorem skipWs_rbracket (t : List Char) : skipWs (']' :: t) = ']' :: t :=
  skipWs_cons _ _ (by decide)

theorem parseValue_quoted {d : Nat} (body s rest : List Char) (f : Nat)
    (h : unquoteBody (body ++ '"' :: rest).length (body ++ '"' :: rest) = some (s, rest)) :
    parseValue (f + 1) d ('"' :: (body ++ '"' :: rest)) = some (JVal.str s, rest) := by
  simp only [parseValue, skipWs_quote, if_true, h]

theorem parseValue_quote {d : Nat} (s rest : List Char) (f : Nat) :
    parseValue (f + 1) d (quote s ++ rest) = some (JVal.str s, rest) := by
  have h : quote s ++ rest = '"' :: (s.flatMap escapeChar ++ '"' :: rest) := by
    simp [quote]
  rw [h]
  apply parseValue_quoted
  apply unquoteBody_escape
  have := length_le_flatMap_escape s
  simp only [List.length_append, List.length_cons]
  omega

theorem parseValue_null {d : Nat} (rest : List Char) (f : Nat) :
    parseValue (f + 1) d ('n' :: 'u' :: 'l' :: 'l' :: rest) = some (JVal.null, rest) := by
  have h : skipWs ('n' :: 'u' :: 'l' :: 'l' :: rest) = 'n' :: 'u' :: 'l' :: 'l' :: rest :=
    skipWs_cons _ _ (by decide)
  have q1 : ('n' : Char) ≠ '"' := by decide
  have q2 : ('n' : Char) ≠ '{' := by decide
  have q3 : ('n' : Char) ≠ '[' := by decide
  simp only [parseValue, h, q1, q2, q3, if_false, if_true, List.take, List.drop]

/-- An opening bracket or brace at the nesting limit is a syntax error. -/
theorem parseValue_too_deep (f d : Nat) (rest : List Char) (hd : maxNestingDepth ≤ d) :
    parseValue (f + 1) d ('[' :: rest) = none ∧ parseValue (f + 1) d ('{' :: rest) = none := by
  have h1 : skipWs ('[' :: rest) = '[' :: rest := skipWs_cons _ _ (by decide)
  have h2 : skipWs ('{' :: rest) = '{' :: rest := skipWs_cons _ _ (by decide)
  have q1 : ('[' : Char) ≠ '"' := by decide
  have q2 : ('[' : Char) ≠ '{' := by decide
  have q3 : ('{' : Char) ≠ '"' := by decide
  constructor
  · simp only [parseValue, h1, q1, q2, hd, if_false, if_true]
  · simp only [parseValue, h2, q3, hd, if_false, if_true]

/-- The JSON value that a `[]byte` field is written as. -/
theorem parseValue_jsonBytes {d : Nat} (b : GoBytes) (rest : List Char) (f : Nat) :
    parseValue (f + 1) d (jsonBytes b ++ rest) =
      some ((jvBytes b), rest) := by
  cases b with
  | none => exact parseValue_null rest f
  | some bs =>
    have h : jsonBytes (some bs) ++ rest = '"' :: (b64Encode bs ++ '"' :: rest) := by
      simp [jsonBytes]
    rw [h]
    show _ = some (JVal.str (b64Encode bs), rest)
    apply parseValue_quoted
    apply unquoteBody_plain _ _ (b64Encode_safe bs)
    simp only [List.length_append, List.length_cons]
    omega

theorem parseValue_formatInt {d : Nat} (i : Int) (c : Char) (rest : List Char) (f : Nat)
    (hc : c = ',' ∨ c = '}') :
    parseValue (f + 1) d (formatInt i ++ c :: rest) = some (JVal.num (formatInt i), c :: rest) := by
  have hs := scanNumber_formatInt i c rest hc
  obtain ⟨d, ds, hd, hdig, -, -⟩ := decDigits_shape i.natAbs
  have key : ∃ x xs, formatInt i ++ c :: rest = x :: xs ∧ (x = '-' ∨ isDigit x = true) := by
    rw [formatInt_eq, hd]
    by_cases h : i < 0
    · exact ⟨'-', d :: (ds ++ c :: rest), by simp [h], Or.inl rfl⟩
    · exact ⟨d, ds ++ c :: rest, by simp [h], Or.inr hdig⟩
  obtain ⟨x, xs, hx, hx'⟩ := key
  rw [hx] at hs ⊢
  have n1 : ¬ (x = ' ' ∨ x = '\t' ∨ x = '\n' ∨ x = '\r') := by
    rcases hx' with h | h
    · subst h; decide
    · intro h'; rcases h' with h' | h' | h' | h' <;> subst h' <;> revert h <;> decide
  have n2 : x ≠ '"' := by
    rcases hx' with h | h
    · subst h; decide
    · intro h'; subst h'; revert h; decide
  have n3 : x ≠ '{' := by
    rcases hx' with h | h
    · subst h; decide
    · intro h'; subst h'; revert h; decide
  have n4 : x ≠ '[' := by
    rcases hx' with h | h
    · subst h; decide
    · intro h'; subst h'; revert h; decide
  have n5 : x ≠ 'n' := by
    rcases hx' with h | h
    · subst h; decide
    · intro h'; subst h'; revert h; decide
  have n6 : x ≠ 't' := by
    rcases hx' with h | h
    · subst h; decide
    · intro h'; subst h'; revert h; decide
  have n7 : x ≠ 'f' := by
    rcases hx' with h | h
    · subst h; decide
    · intro h'; subst h'; revert h; decide
  simp only [parseValue, skipWs_cons x xs n1, n2, n3, n4, n5, n6, n7, if_false, hs]

/-! ## Lemmas: arrays and objects -/

theorem parseElems_succ (f d : Nat) (cs : List Char) :
    parseElems (f + 1) d cs =
      match parseValue f d cs with
      | none => none
      | some (v, rest) =>
        match skipWs rest with
        | [] => none
        | c :: rest2 =>
          if c = ']' then some ([v], rest2)
          else if c = ',' then
            match parseElems f d rest2 with
            | some (vs, t) => some (v :: vs, t)
            | none => none
          else none := by
  rw [parseElems]

theorem parseValue_quote_pos {d : Nat} (s rest : List Char) (f : Nat) (hf : 0 < f) :
    parseValue f d (quote s ++ rest) = some (JVal.str s, rest) := by
  obtain ⟨g, rfl⟩ : ∃ g, f = g + 1 := ⟨f - 1, by omega⟩
  exact parseValue_quote s rest g

theorem parseElems_strings {d : Nat} (x : String) (xs : List String) (rest : List Char) :
    ∀ fuel, xs.length + 1 < fuel →
      parseElems fuel d (jsonStringElems (x :: xs) ++ ']' :: rest) =
        some ((x :: xs).map (fun y => JVal.str y.data), rest) := by
  induction xs generalizing x with
  | nil =>
    intro fuel hf
    obtain ⟨g, rfl⟩ : ∃ g, fuel = g + 1 := ⟨fuel - 1, by simp at hf; omega⟩
    rw [parseElems_succ]
    simp only [jsonStringElems]
    rw [parseValue_quote_pos _ _ g (by simp at hf; omega)]
    simp only [skipWs_rbracket, if_true, List.map_cons, List.map_nil]
  | cons y ys ih =>
    intro fuel hf
    obtain ⟨g, rfl⟩ : ∃ g, fuel = g + 1 := ⟨fuel - 1, by simp at hf; omega⟩
    have ih' := ih y g (by simp at hf ⊢; omega)
    have q : (',' : Char) ≠ ']' := by decide
    rw [parseElems_succ]
    simp only [jsonStringElems, List.append_assoc, List.cons_append]
    rw [parseValue_quote_pos _ _ g (by simp at hf; omega)]
    simp only [skipWs_comma, q, if_false, if_true, ih', List.map_cons]

/-- The JSON value that a `[]string` field is written as. -/
theorem parseValue_jsonStrings {d : Nat} (r : Option (List String)) (rest : List Char) (f : Nat)
    (hf : (r.getD []).length + 1 < f) (hd : d < maxNestingDepth) :
    parseValue (f + 1) d (jsonStrings r ++ rest) =
      some ((jvStrings r), rest) := by
  have h0 : skipWs ('[' :: rest) = '[' :: rest := skipWs_cons _ _ (by decide)
  have q1 : ('[' : Char) ≠ '"' := by decide
  have q2 : ('[' : Char) ≠ '{' := by decide
  have hd1 : ¬ maxNestingDepth ≤ d := Nat.not_le.mpr hd
  cases r with
  | none => exact parseValue_null rest f
  | some xs =>
    cases xs with
    | nil =>
      have h : skipWs ('[' :: ']' :: rest) = '[' :: ']' :: rest := skipWs_cons _ _ (by decide)
      simp only [jsonStrings, jsonStringElems, List.nil_append, List.cons_append, parseValue, h,
        q1, q2, hd1, if_false, if_true, skipWs_rbracket, List.map_nil, jvStrings]
    | cons x xs =>
      have he := parseElems_strings (d := d + 1) x xs rest f (by simp at hf; omega)
      have hq : ∃ t, jsonStringElems (x :: xs) ++ ']' :: rest = '"' :: t := by
        cases xs with
        | nil => exact ⟨_, by simp [jsonStringElems, quote]; rfl⟩
        | cons y ys => exact ⟨_, by simp [jsonStringElems, quote]; rfl⟩
      obtain ⟨t, ht⟩ := hq
      have h : skipWs ('[' :: (jsonStringElems (x :: xs) ++ ']' :: rest)) =
          '[' :: (jsonStringElems (x :: xs) ++ ']' :: rest) := skipWs_cons _ _ (by decide)
      have q3 : ('"' : Char) ≠ ']' := by decide
      have h1 : jsonStrings (some (x :: xs)) ++ rest =
          '[' :: (jsonStringElems (x :: xs) ++ ']' :: rest) := by
        simp [jsonStrings]
      rw [h1]
      simp only [parseValue, h, q1, q2, hd1, if_false, if_true]
      rw [ht, skipWs_quote]
      simp only [q3, if_false]
      rw [← ht, he]
      rfl

/-- A JSON field name of the packet structs: plain lower-case letters. -/
theorem parseMembers_key {d : Nat} (k : String) (hk : ∀ c ∈ k.data, b64Safe c) (f : Nat)
    (vtext : List Char) :
    parseMembers (f + 1) d (jsonKey k ++ vtext) =
      match parseValue f d vtext with
      | none => none
      | some (v, rest3) =>
        match skipWs rest3 with
        | [] => none
        | c :: rest4 =>
          if c = '}' then some ([(k.data, v)], rest4)
          else if c = ',' then
            match parseMembers f d rest4 with
            | some (kvs, t) => some ((k.data, v) :: kvs, t)
            | none => none
          else none := by
  have h : jsonKey k ++ vtext = '"' :: (k.data ++ '"' :: (':' :: vtext)) := by
    simp [jsonKey]
  have hu := unquoteBody_plain k.data (':' :: vtext) hk (k.data ++ '"' :: (':' :: vtext)).length
    (by simp only [List.length_append, List.length_cons]; omega)
  rw [h]
  simp only [parseMembers, skipWs_quote, ne_eq, not_true_eq_false, if_false, hu, skipWs_colon]

theorem parseMembers_cons {d : Nat} (k : String) (hk : ∀ c ∈ k.data, b64Safe c) (f : Nat)
    (vtext : List Char) (v : JVal) (more : List Char) (kvs : List (List Char × JVal))
    (t : List Char) (hv : parseValue f d vtext = some (v, ',' :: more))
    (hm : parseMembers f d more = some (kvs, t)) :
    parseMembers (f + 1) d (jsonKey k ++ vtext) = some ((k.data, v) :: kvs, t) := by
  have q : (',' : Char) ≠ '}' := by decide
  rw [parseMembers_key k hk, hv]
  simp only [skipWs_comma, q, if_false, if_true, hm]

theorem parseMembers_last {d : Nat} (k : String) (hk : ∀ c ∈ k.data, b64Safe c) (f : Nat)
    (vtext : List Char) (v : JVal) (rest : List Char)
    (hv : parseValue f d vtext = some (v, '}' :: rest)) :
    parseMembers (f + 1) d (jsonKey k ++ vtext) = some ([(k.data, v)], rest) := by
  rw [parseMembers_key k hk, hv]
  simp only [skipWs_rbrace, if_true]

theorem parseValue_object {d : Nat} (f : Nat) (k : String) (text : List Char)
    (kvs : List (List Char × JVal)) (t : List Char)
    (h : parseMembers f (d + 1) (jsonKey k ++ text) = some (kvs, t))
    (hd : d < maxNestingDepth) :
    parseValue (f + 1) d ('{' :: (jsonKey k ++ text)) = some (JVal.obj kvs, t) := by
  have hd1 : ¬ maxNestingDepth ≤ d := Nat.not_le.mpr hd
  have h0 : skipWs ('{' :: (jsonKey k ++ text)) = '{' :: (jsonKey k ++ text) :=
    skipWs_cons _ _ (by decide)
  have q1 : ('{' : Char) ≠ '"' := by decide
  have q3 : ('"' : Char) ≠ '}' := by decide
  have hk : jsonKey k ++ text = '"' :: (k.data ++ '"' :: (':' :: text)) := by
    simp [jsonKey]
  simp only [parseValue, h0, q1, hd1, if_false, if_true]
  rw [hk, skipWs_quote]
  simp only [q3, if_false]
  rw [← hk, h]

/-! ## Lemmas: the packet round trips -/

theorem mk_data (s : String) : String.mk s.data = s := rfl

theorem key_safe_cmd : ∀ c ∈ "cmd".data, b64Safe c := by simp only [b64Safe]; decide
theorem key_safe_dst : ∀ c ∈ "dst".data, b64Safe c := by simp only [b64Safe]; decide
theorem key_safe_snd : ∀ c ∈ "snd".data, b64Safe c := by simp only [b64Safe]; decide
theorem key_safe_pld : ∀ c ∈ "pld".data, b64Safe c := by simp only [b64Safe]; decide
theorem key_safe_uid : ∀ c ∈ "uid".data, b64Safe c := by simp only [b64Safe]; decide
theorem key_safe_ts : ∀ c ∈ "ts".data, b64Safe c := by simp only [b64Safe]; decide
theorem key_safe_exp : ∀ c ∈ "exp".data, b64Safe c := by simp only [b64Safe]; decide
theorem key_safe_idx : ∀ c ∈ "idx".data, b64Safe c := by simp only [b64Safe]; decide
theorem key_safe_max : ∀ c ∈ "max".data, b64Safe c := by simp only [b64Safe]; decide
theorem key_safe_r : ∀ c ∈ "r".data, b64Safe c := by simp only [b64Safe]; decide

theorem decodeBytes_jsonBytes (b old : GoBytes) :
    decodeBytes (jvBytes b) old =
      some b := by
  cases b with
  | none => rfl
  | some bs => simp [jvBytes, decodeBytes, b64Decode_encode]

theorem decodeInt64_formatInt (i old : Int64) :
    decodeInt64 (JVal.num (formatInt i.val)) old = some i := by
  simp [decodeInt64, parseInt64_formatInt]

theorem decodeElems_strings (xs old : List String) :
    decodeElems decodeString "" (xs.map (fun y => JVal.str y.data)) old = some xs := by
  induction xs generalizing old with
  | nil => rfl
  | cons x xs ih => simp [decodeElems, decodeString, ih, mk_data]

theorem decodeStrings_jsonStrings (r old : Option (List String)) :
    decodeStrings (jvStrings r) old = some r := by
  cases r with
  | none => rfl
  | some xs => simp [jvStrings, decodeStrings, decodeElems_strings]

/-- The parse of a marshalled signal packet. -/
theorem parseJSON_marshalSig (p : GMSigPacket) :
    parseJSON (marshalSig p) = some (JVal.obj
      [("cmd".data, JVal.str p.OpCmd.data), ("dst".data, JVal.str p.Destination.data),
       ("snd".data, JVal.str p.Sender.data),
       ("pld".data, jvBytes p.Payload)]) := by
  have hlen : 5 ≤ (marshalSig p).length := by
    simp only [marshalSig, jsonKey, List.length_cons, List.length_append]
    omega
  obtain ⟨g, hg⟩ : ∃ g, (marshalSig p).length = g + 5 := ⟨_, (Nat.sub_add_cancel hlen).symm⟩
  unfold parseJSON
  rw [hg]
  have h4 : parseMembers (g + 2) 1 (jsonKey "pld" ++ (jsonBytes p.Payload ++ ['}'])) = _ :=
    parseMembers_last "pld" key_safe_pld (g + 1) _ _ [] (parseValue_jsonBytes p.Payload _ g)
  have h3 := parseMembers_cons "snd" key_safe_snd (g + 2) _ _ _ _ _
    (parseValue_quote p.Sender.data _ (g + 1)) h4
  have h2 := parseMembers_cons "dst" key_safe_dst (g + 3) _ _ _ _ _
    (parseValue_quote p.Destination.data _ (g + 2)) h3
  have h1 := parseMembers_cons "cmd" key_safe_cmd (g + 4) _ _ _ _ _
    (parseValue_quote p.OpCmd.data _ (g + 3)) h2
  have h0 := parseValue_object (d := 0) (g + 5) "cmd" _ _ _ h1 (by decide)
  have ht : marshalSig p = '{' :: (jsonKey "cmd" ++ (quote p.OpCmd.data ++ ',' ::
      (jsonKey "dst" ++ (quote p.Destination.data ++ ',' ::
      (jsonKey "snd" ++ (quote p.Sender.data ++ ',' ::
      (jsonKey "pld" ++ (jsonBytes p.Payload ++ ['}'])))))))) := by
    simp only [marshalSig, List.append_assoc]
  rw [ht, h0]
  simp [skipWs]

/-- Shared form of the signal round trip. -/
theorem deserialize_serialize_sig (p : GMSigPacket) :
    (SerializeGMSigPacket p).bind DeserializeGMSigPacket = some p := by
  simp only [SerializeGMSigPacket, Option.some_bind, DeserializeGMSigPacket, unmarshalInto,
    parseJSON_marshalSig]
  simp +decide only [setFields, setSigField, if_true, if_false, decodeString,
    decodeBytes_jsonBytes, Option.map_some', mk_data]

/-- The first eight members of a marshalled data packet, as parsed. -/
theorem parseMembers_dataFields {d : Nat} (p : GMDataPacket) (f : Nat) (X : List Char)
    (kvs : List (List Char × JVal)) (t : List Char)
    (hlast : parseMembers (f + 1) d (jsonKey "pld" ++ (jsonBytes p.Payload ++ X)) = some (kvs, t)) :
    parseMembers (f + 9) d (marshalDataFields p ++ X) = some (
      ("cmd".data, JVal.str p.OpCmd.data) ::
      ("uid".data, jvBytes p.UID) ::
      ("ts".data, JVal.num (formatInt p.Timestamp.val)) ::
      ("exp".data, JVal.num (formatInt p.Expiration.val)) ::
      ("idx".data, JVal.num (formatInt p.ChunkIndex.val)) ::
      ("max".data, JVal.num (formatInt p.ChunkMax.val)) ::
      ("snd".data, JVal.str p.Sender.data) ::
      ("dst".data, JVal.str p.Destination.data) :: kvs, t) := by
  have h8 := parseMembers_cons "dst" key_safe_dst (f + 1) _ _ _ _ _
    (parseValue_quote p.Destination.data _ f) hlast
  have h7 := parseMembers_cons "snd" key_safe_snd (f + 2) _ _ _ _ _
    (parseValue_quote p.Sender.data _ (f + 1)) h8
  have h6 := parseMembers_cons "max" key_safe_max (f + 3) _ _ _ _ _
    (parseValue_formatInt p.ChunkMax.val ',' _ (f + 2) (Or.inl rfl)) h7
  have h5 := parseMembers_cons "idx" key_safe_idx (f + 4) _ _ _ _ _
    (parseValue_formatInt p.ChunkIndex.val ',' _ (f + 3) (Or.inl rfl)) h6
  have h4 := parseMembers_cons "exp" key_safe_exp (f + 5) _ _ _ _ _
    (parseValue_formatInt p.Expiration.val ',' _ (f + 4) (Or.inl rfl)) h5
  have h3 := parseMembers_cons "ts" key_safe_ts (f + 6) _ _ _ _ _
    (parseValue_formatInt p.Timestamp.val ',' _ (f + 5) (Or.inl rfl)) h4
  have h2 := parseMembers_cons "uid" key_safe_uid (f + 7) _ _ _ _ _
    (parseValue_jsonBytes p.UID _ (f + 6)) h3
  have h1 := parseMembers_cons "cmd" key_safe_cmd (f + 8) _ _ _ _ _
    (parseValue_quote p.OpCmd.data _ (f + 7)) h2
  have ht : marshalDataFields p ++ X =
      jsonKey "cmd" ++ (quote p.OpCmd.data ++ ',' ::
      (jsonKey "uid" ++ (jsonBytes p.UID ++ ',' ::
      (jsonKey "ts" ++ (formatInt p.Timestamp.val ++ ',' ::
      (jsonKey "exp" ++ (formatInt p.Expiration.val ++ ',' ::
      (jsonKey "idx" ++ (formatInt p.ChunkIndex.val ++ ',' ::
      (jsonKey "max" ++ (formatInt p.ChunkMax.val ++ ',' ::
      (jsonKey "snd" ++ (quote p.Sender.data ++ ',' ::
      (jsonKey "dst" ++ (quote p.Destination.data ++ ',' ::
      (jsonKey "pld" ++ (jsonBytes p.Payload ++ X))))))))))))))))) := by
    simp only [marshalDataFields, List.append_assoc, List.cons_append]
  rw [ht, h1]

theorem marshalDataFields_eq (p : GMDataPacket) (X : List Char) :
    ∃ text, marshalDataFields p ++ X = jsonKey "cmd" ++ text :=
  ⟨_, by simp only [marshalDataFields, List.append_assoc]; rfl⟩

/-- The parse of a marshalled data packet. -/
theorem parseJSON_marshalData (p : GMDataPacket) :
    parseJSON (marshalData p) = some (JVal.obj
      [("cmd".data, JVal.str p.OpCmd.data),
       ("uid".data, jvBytes p.UID),
       ("ts".data, JVal.num (formatInt p.Timestamp.val)),
       ("exp".data, JVal.num (formatInt p.Expiration.val)),
       ("idx".data, JVal.num (formatInt p.ChunkIndex.val)),
       ("max".data, JVal.num (formatInt p.ChunkMax.val)),
       ("snd".data, JVal.str p.Sender.data), ("dst".data, JVal.str p.Destination.data),
       ("pld".data, jvBytes p.Payload)]) := by
  have hlen : 10 ≤ (marshalData p).length := by
    simp only [marshalData, marshalDataFields, jsonKey, List.length_cons, List.length_append]
    omega
  obtain ⟨g, hg⟩ : ∃ g, (marshalData p).length = g + 10 := ⟨_, (Nat.sub_add_cancel hlen).symm⟩
  unfold parseJSON
  rw [hg]
  have hlast : parseMembers (g + 1 + 1) 1 (jsonKey "pld" ++ (jsonBytes p.Payload ++ ['}'])) = _ :=
    parseMembers_last "pld" key_safe_pld (g + 1) _ _ [] (parseValue_jsonBytes p.Payload _ g)
  have hm := parseMembers_dataFields p (g + 1) ['}'] _ _ hlast
  obtain ⟨text, htext⟩ := marshalDataFields_eq p ['}']
  rw [htext] at hm
  have h0 := parseValue_object (d := 0) (g + 1 + 9) "cmd" _ _ _ hm (by decide)
  rw [← htext] at h0
  have ht : marshalData p = '{' :: (marshalDataFields p ++ ['}']) := rfl
  rw [ht, h0]
  simp [skipWs]

/-- Shared form of the data round trip. -/
theorem deserialize_serialize_data (p : GMDataPacket) :
    (SerializeGMDataPacket p).bind DeserializeGMDataPacket = some p := by
  simp only [SerializeGMDataPacket, Option.some_bind, DeserializeGMDataPacket, unmarshalInto,
    parseJSON_marshalData]
  simp +decide only [setFields, setDataField, if_true, if_false, decodeString,
    decodeBytes_jsonBytes, decodeInt64_formatInt, Option.map_some', mk_data]

theorem length_le_jsonStringElems (xs : List String) : xs.length ≤ (jsonStringElems xs).length := by
  induction xs with
  | nil => simp
  | cons x xs ih =>
    cases xs with
    | nil => simp [jsonStringElems, quote]
    | cons y ys =>
      simp only [jsonStringElems, List.length_append, List.length_cons] at ih ⊢
      omega

/-- The parse of a marshalled stream packet. -/
theorem parseJSON_marshalStream (p : GMStreamPacket) :
    parseJSON (marshalStream p) = some (JVal.obj
      [("cmd".data, JVal.str p.OpCmd.data),
       ("uid".data, jvBytes p.UID),
       ("ts".data, JVal.num (formatInt p.Timestamp.val)),
       ("exp".data, JVal.num (formatInt p.Expiration.val)),
       ("idx".data, JVal.num (formatInt p.ChunkIndex.val)),
       ("max".data, JVal.num (formatInt p.ChunkMax.val)),
       ("snd".data, JVal.str p.Sender.data), ("dst".data, JVal.str p.Destination.data),
       ("pld".data, jvBytes p.Payload),
       ("r".data, jvStrings p.Recipients)]) := by
  have hlen : (p.Recipients.getD []).length + 14 ≤ (marshalStream p).length := by
    cases hr : p.Recipients with
    | none =>
      simp only [marshalStream, marshalDataFields, jsonKey, List.length_cons, List.length_append,
        Option.getD_none, List.length_nil]
      omega
    | some xs =>
      have := length_le_jsonStringElems xs
      simp only [marshalStream, marshalDataFields, jsonKey, jsonStrings, hr, List.length_cons,
        List.length_append, Option.getD_some]
      omega
  obtain ⟨g, hg⟩ : ∃ g, (marshalStream p).length = g + ((p.Recipients.getD []).length + 14) :=
    ⟨_, (Nat.sub_add_cancel hlen).symm⟩
  generalize hn : (p.Recipients.getD []).length = n at hg
  unfold parseJSON
  rw [hg]
  have hr : parseMembers (g + n + 4 + 1) 1 (jsonKey "r" ++ (jsonStrings p.Recipients ++ ['}'])) = _ :=
    parseMembers_last "r" key_safe_r (g + n + 4) _ _ []
      (parseValue_jsonStrings p.Recipients _ (g + n + 3) (by omega) (by decide))
  have hlast := parseMembers_cons "pld" key_safe_pld (g + n + 5) _ _ _ _ _
    (parseValue_jsonBytes p.Payload (',' :: (jsonKey "r" ++ (jsonStrings p.Recipients ++ ['}'])))
      (g + n + 4)) hr
  have hm := parseMembers_dataFields p.toGMDataPacket (g + n + 5)
    (',' :: (jsonKey "r" ++ (jsonStrings p.Recipients ++ ['}']))) _ _ hlast
  obtain ⟨text, htext⟩ := marshalDataFields_eq p.toGMDataPacket
    (',' :: (jsonKey "r" ++ (jsonStrings p.Recipients ++ ['}'])))
  rw [htext] at hm
  have h0 := parseValue_object (d := 0) (g + n + 5 + 9) "cmd" _ _ _ hm (by decide)
  rw [← htext] at h0
  have ht : marshalStream p = '{' :: (marshalDataFields p.toGMDataPacket ++
      ',' :: (jsonKey "r" ++ (jsonStrings p.Recipients ++ ['}']))) := by
    simp only [marshalStream, List.append_assoc]
  have hfuel : g + (n + 14) + 1 = g + n + 5 + 9 + 1 := by omega
  rw [ht, hfuel, h0]
  simp [skipWs]

/-- Shared form of the stream round trip. -/
theorem deserialize_serialize_stream (p : GMStreamPacket) :
    (SerializeGMStreamPacket p).bind DeserializeGMStreamPacket = some p := by
  simp only [SerializeGMStreamPacket, Option.some_bind, DeserializeGMStreamPacket, unmarshalInto,
    parseJSON_marshalStream]
  simp +decide only [setFields, setStreamField, setDataField, if_true, if_false, decodeString,
    decodeBytes_jsonBytes, decodeInt64_formatInt, decodeStrings_jsonStrings, Option.map_some',
    mk_data]

/-! ## Lemmas: Go maps -/

namespace GoMap

variable {κ ν : Type} [DecidableEq κ]

theorem mem_keys_set (m : GoMap κ ν) (k : κ) (v : ν) (a : κ) :
    a ∈ (m.set k v).keys ↔ a = k ∨ a ∈ m.keys := by
  simp only [keys, set, List.map_append, List.mem_append, List.mem_map, List.mem_filter,
    List.map_cons, List.map_nil, List.mem_singleton]
  constructor
  · rintro (⟨e, ⟨he, -⟩, rfl⟩ | h)
    · exact Or.inr ⟨e, he, rfl⟩
    · exact Or.inl h
  · rintro (h | ⟨e, he, rfl⟩)
    · exact Or.inr h
    · by_cases hk : e.1 = k
      · exact Or.inr hk
      · exact Or.inl ⟨e, ⟨he, by simpa using hk⟩, rfl⟩

theorem mem_keys_delete (m : GoMap κ ν) (k a : κ) :
    a ∈ (m.delete k).keys ↔ a ≠ k ∧ a ∈ m.keys := by
  simp only [keys, delete, List.mem_map, List.mem_filter]
  constructor
  · rintro ⟨e, ⟨he, hk⟩, rfl⟩
    exact ⟨by simpa using hk, e, he, rfl⟩
  · rintro ⟨hk, e, he, rfl⟩
    exact ⟨e, ⟨he, by simpa using hk⟩, rfl⟩

theorem get?_eq_some_iff (m : GoMap κ ν) (k : κ) (v : ν) :
    m.get? k = some v ↔ (k, v) ∈ m.entries := by
  obtain ⟨l, hl⟩ := m
  simp only [get?]
  induction l with
  | nil => simp
  | cons e l ih =>
    rw [List.map_cons, List.nodup_cons] at hl
    by_cases h : e.1 = k
    · simp only [List.find?_cons, h, decide_True, Option.map_some', Option.some.injEq,
        List.mem_cons]
      constructor
      · intro hv; left; rw [← hv, ← h]
      · rintro (hv | hv)
        · rw [← hv]
        · exact absurd (List.mem_map.mpr ⟨(k, v), hv, rfl⟩) (h ▸ hl.1)
    · simp only [List.find?_cons, h, decide_False, List.mem_cons]
      rw [ih hl.2]
      constructor
      · exact Or.inr
      · rintro (hv | hv)
        · exact absurd (by rw [← hv]) h
        · exact hv

theorem mem_keys_iff (m : GoMap κ ν) (k : κ) : k ∈ m.keys ↔ ∃ v, m.get? k = some v := by
  simp only [get?_eq_some_iff, keys, List.mem_map]
  constructor
  · rintro ⟨e, he, rfl⟩; exact ⟨e.2, he⟩
  · rintro ⟨v, hv⟩; exact ⟨(k, v), hv, rfl⟩

end GoMap

/-! ## Lemmas: the registry invariant -/

theorem regInv_set (h : Hub) (hinv : regInv h) (k : String) (c : Conn) (key : GoBytes) :
    regInv { h with connections := h.connections.set k c, publicKeys := h.publicKeys.set k key } := by
  intro id
  simp only [GoMap.mem_keys_set, hinv id]

theorem regInv_delete (h : Hub) (hinv : regInv h) (k : String) :
    regInv { h with connections := h.connections.delete k, publicKeys := h.publicKeys.delete k } := by
  intro id
  simp only [GoMap.mem_keys_delete, hinv id]

theorem regInv_calls (h : Hub) (hinv : regInv h) (calls : GoMap Bytes (List String)) :
    regInv { h with activeCalls := calls } := hinv

theorem onGrtng_regInv (env : Env) (cfg : Config) (hub : Hub) (sess : Session)
    (packet : GMSigPacket) (hinv : regInv hub) : regInv (onGrtng env cfg hub sess packet).hub := by
  simp only [onGrtng]
  exact regInv_set hub hinv _ _ _

theorem onIghru_same (env : Env) (cfg : Config) (hub : Hub) (sess : Session)
    (packet : GMSigPacket) :
    (onIghru env cfg hub sess packet).hub = hub ∧ (onIghru env cfg hub sess packet).sess = sess ∧
      (onIghru env cfg hub sess packet).fault = false := by
  unfold onIghru
  split
  · exact ⟨rfl, rfl, rfl⟩
  · split_ifs
    · exact ⟨rfl, rfl, rfl⟩
    · split <;> exact ⟨rfl, rfl, rfl⟩

theorem onGmp_regInv (hub : Hub) (sess : Session) (packet : GMSigPacket) (hinv : regInv hub) :
    regInv (onGmp hub sess packet).hub := by
  simp only [onGmp]
  split <;> exact hinv

theorem relaySignal_hub (hub : Hub) (sess : Session) (packet : GMSigPacket) :
    (relaySignal hub sess packet).hub = hub ∧ (relaySignal hub sess packet).sess = sess := by
  unfold relaySignal
  split <;> exact ⟨rfl, rfl⟩

theorem onHangUp_regInv (hub : Hub) (sess : Session) (packet : GMSigPacket) (hinv : regInv hub) :
    regInv (onHangUp hub sess packet).hub := by
  simp only [onHangUp]
  split
  · exact hinv
  · split_ifs <;> exact hinv

theorem onUrgstr_regInv (env : Env) (hub : Hub) (sess : Session) (hinv : regInv hub) :
    regInv (onUrgstr env hub sess).hub := by
  unfold onUrgstr
  split_ifs
  · exact regInv_delete hub hinv _
  · exact hinv

/-- Case analysis on the opcode switch: a property of every case is a property
of the dispatch. -/
theorem handleSig_cases (P : Step → Prop) (env : Env) (cfg : Config) (hub : Hub) (sess : Session)
    (packet : GMSigPacket)
    (h1 : P (onGrtng env cfg hub sess packet)) (h2 : P (onIghru env cfg hub sess packet))
    (h3 : P (onGmk env cfg hub sess packet)) (h4 : P (onStartCall hub sess packet))
    (h5 : P (onGmp hub sess packet)) (h6 : P (relaySignal hub sess packet))
    (h7 : P (onHangUp hub sess packet)) (h8 : P (onUrgstr env hub sess))
    (h9 : P ⟨hub, sess, [], false⟩) : P (handleSig env cfg hub sess packet) := by
  unfold handleSig
  by_cases c1 : packet.OpCmd = "grtng"
  · rw [if_pos c1]; exact h1
  rw [if_neg c1]
  by_cases c2 : packet.OpCmd = "ighru"
  · rw [if_pos c2]; exact h2
  rw [if_neg c2]
  by_cases c3 : packet.OpCmd = "gmk"
  · rw [if_pos c3]; exact h3
  rw [if_neg c3]
  by_cases c4 : packet.OpCmd = "start_call"
  · rw [if_pos c4]; exact h4
  rw [if_neg c4]
  by_cases c5 : packet.OpCmd = "gmp"
  · rw [if_pos c5]; exact h5
  rw [if_neg c5]
  by_cases c6 : packet.OpCmd = "offer"
  · rw [if_pos c6]; exact h6
  rw [if_neg c6]
  by_cases c7 : packet.OpCmd = "answer"
  · rw [if_pos c7]; exact h6
  rw [if_neg c7]
  by_cases c8 : packet.OpCmd = "ice"
  · rw [if_pos c8]; exact h6
  rw [if_neg c8]
  by_cases c9 : packet.OpCmd = "hang-up"
  · rw [if_pos c9]; exact h7
  rw [if_neg c9]
  by_cases c10 : packet.OpCmd = "urgstr"
  · rw [if_pos c10]; exact h8
  rw [if_neg c10]
  exact h9

theorem handleSig_regInv (env : Env) (cfg : Config) (hub : Hub) (sess : Session)
    (packet : GMSigPacket) (hinv : regInv hub) : regInv (handleSig env cfg hub sess packet).hub := by
  apply handleSig_cases (fun r => regInv r.hub)
  · exact onGrtng_regInv env cfg hub sess packet hinv
  · show regInv (onIghru env cfg hub sess packet).hub
    rw [(onIghru_same env cfg hub sess packet).1]; exact hinv
  · exact hinv
  · exact hinv
  · exact onGmp_regInv hub sess packet hinv
  · show regInv (relaySignal hub sess packet).hub
    rw [(relaySignal_hub hub sess packet).1]; exact hinv
  · exact onHangUp_regInv hub sess packet hinv
  · exact onUrgstr_regInv env hub sess hinv
  · exact hinv

/-- Case analysis on the frame type of a received line. -/
theorem handleLine_cases (P : Step → Prop) (env : Env) (cfg : Config) (hub : Hub) (sess : Session)
    (message : String)
    (h0 : message.data = [] → P ⟨hub, sess, [], true⟩)
    (h1 : ∀ packet, P (handleSig env cfg hub sess packet))
    (h2 : ∀ body, P ⟨hub, sess, handleDataPacket env cfg hub body, false⟩)
    (h3 : ∀ body, P ⟨hub, sess, handleStreamPacket env hub body, false⟩)
    (h4 : P ⟨hub, sess, [], false⟩) : P (handleLine env cfg hub sess message) := by
  unfold handleLine
  cases hm : message.data with
  | nil => exact h0 hm
  | cons c rest =>
    simp only
    by_cases c0 : c = '0'
    · rw [if_pos c0]
      cases DeserializeGMSigPacket (String.mk rest) with
      | none => exact h4
      | some packet => exact h1 packet
    rw [if_neg c0]
    by_cases c1 : c = '1'
    · rw [if_pos c1]; exact h2 _
    rw [if_neg c1]
    by_cases c2 : c = '2'
    · rw [if_pos c2]; exact h3 _
    rw [if_neg c2]
    exact h4

theorem handleLine_regInv (env : Env) (cfg : Config) (hub : Hub) (sess : Session)
    (message : String) (hinv : regInv hub) : regInv (handleLine env cfg hub sess message).hub := by
  apply handleLine_cases (fun r => regInv r.hub)
  · intro _; exact hinv
  · intro packet; exact handleSig_regInv env cfg hub sess packet hinv
  · intro _; exact hinv
  · intro _; exact hinv
  · exact hinv

theorem closeConn_regInv (env : Env) (hub : Hub) (sess : Session) (hinv : regInv hub) :
    regInv (closeConn env hub sess).1 := by
  unfold closeConn
  split
  · exact regInv_delete hub hinv _
  · exact hinv

theorem step_regInv (env : Env) (cfg : Config) (s : System) (ev : Event) (hinv : regInv s.hub) :
    regInv (System.step env cfg s ev).hub := by
  cases ev with
  | line conn message =>
    simp only [System.step]
    split
    · exact hinv
    · split
      · exact closeConn_regInv env _ _ (handleLine_regInv env cfg s.hub _ message hinv)
      · exact handleLine_regInv env cfg s.hub _ message hinv
  | close conn =>
    simp only [System.step]
    split
    · exact hinv
    · exact closeConn_regInv env s.hub _ hinv

theorem run_regInv (env : Env) (cfg : Config) (events : List Event) :
    ∀ s : System, regInv s.hub → regInv (System.run env cfg s events).hub := by
  induction events with
  | nil => intro s h; exact h
  | cons ev evs ih =>
    intro s h
    exact ih (System.step env cfg s ev) (step_regInv env cfg s ev h)

/-! ## Lemmas: frames on the wire -/

theorem sendSignalPacket_eq (p : GMSigPacket) : SendSignalPacket p = some (sigLine p) := rfl

theorem sendSig_eq (conn : Conn) (p : GMSigPacket) : sendSig conn p = [⟨conn, sigLine p⟩] := rfl

theorem sigLine_data (p : GMSigPacket) : (sigLine p).data = '0' :: (marshalSig p ++ ['\n']) := rfl

theorem deserialize_marshalSig (p : GMSigPacket) :
    DeserializeGMSigPacket (String.mk (marshalSig p)) = some p := by
  have := deserialize_serialize_sig p
  simpa [SerializeGMSigPacket] using this

/-- A receiver reads back the packet that was sent. -/
theorem packet_sigLine (conn : Conn) (p : GMSigPacket) :
    Write.packet ⟨conn, sigLine p⟩ = some p := by
  simp only [Write.packet, sigLine_data, if_true, List.dropLast_concat, deserialize_marshalSig]

theorem sigLine_injective (p q : GMSigPacket) (h : sigLine p = sigLine q) : p = q := by
  have hp := packet_sigLine 0 p
  rw [h, packet_sigLine 0 q] at hp
  exact (Option.some.inj hp).symm

/-- The hub reading its own signal frame: the line without its line end is
dispatched on the packet. -/
theorem handleLine_sig (env : Env) (cfg : Config) (hub : Hub) (sess : Session) (p : GMSigPacket) :
    handleLine env cfg hub sess ("0" ++ String.mk (marshalSig p)) =
      handleSig env cfg hub sess p := by
  have hd : ("0" ++ String.mk (marshalSig p)).data = '0' :: marshalSig p := rfl
  simp only [handleLine, hd, if_true, deserialize_marshalSig]

/-! ## Lemmas: counting frames over a map -/

theorem count_flatMap_zero {α : Type} (l : List α) (g : α → List Write) (w : Write)
    (h : ∀ e ∈ l, (g e).count w = 0) : (l.flatMap g).count w = 0 := by
  induction l with
  | nil => simp
  | cons a l ih =>
    rw [List.flatMap_cons, List.count_append, h a (List.mem_cons_self _ _),
      ih (fun e he => h e (List.mem_cons_of_mem _ he))]

theorem count_flatMap_keyed {ν : Type} (l : List (String × ν)) (hnd : (l.map Prod.fst).Nodup)
    (g : String × ν → List Write) (w : Write) (e : String × ν) (he : e ∈ l)
    (h1 : (g e).count w = 1) (h2 : ∀ x ∈ l, x.1 ≠ e.1 → (g x).count w = 0) :
    (l.flatMap g).count w = 1 := by
  induction l with
  | nil => exact absurd he (List.not_mem_nil _)
  | cons a l ih =>
    rw [List.map_cons, List.nodup_cons] at hnd
    rw [List.flatMap_cons, List.count_append]
    rcases List.mem_cons.mp he with hea | hel
    · subst hea
      have hz : (l.flatMap g).count w = 0 := by
        apply count_flatMap_zero
        intro x hx
        apply h2 x (List.mem_cons_of_mem _ hx)
        intro hk
        exact hnd.1 (hk ▸ List.mem_map.mpr ⟨x, hx, rfl⟩)
      rw [h1, hz]
    · have ha : (g a).count w = 0 := by
        apply h2 a (List.mem_cons_self _ _)
        intro hk
        exact hnd.1 (hk ▸ List.mem_map.mpr ⟨e, hel, rfl⟩)
      rw [ha, ih hnd.2 hel (fun x hx => h2 x (List.mem_cons_of_mem _ hx)), Nat.zero_add]

/-! ## Lemmas: the `rmk` broadcast -/

theorem mem_sendRMKPackets (env : Env) (hub : Hub) (clientID : String) (w : Write) :
    w ∈ sendRMKPackets env hub clientID ↔
      ∃ id, id ≠ clientID ∧ hub.connections.get? id = some w.conn ∧
        w.line = sigLine (rmkPacket id clientID) := by
  simp only [sendRMKPackets, List.mem_flatMap, (env.connOrder.perm _).mem_iff]
  constructor
  · rintro ⟨e, he, hw⟩
    by_cases hk : e.1 = clientID
    · simp [hk] at hw
    · rw [if_pos hk, sendSig_eq, List.mem_singleton] at hw
      subst hw
      exact ⟨e.1, hk, (GoMap.get?_eq_some_iff _ _ _).mpr he, rfl⟩
  · rintro ⟨id, hid, hget, hline⟩
    refine ⟨(id, w.conn), (GoMap.get?_eq_some_iff _ _ _).mp hget, ?_⟩
    rw [if_pos hid, sendSig_eq, List.mem_singleton]
    cases w
    simp only at hline
    rw [hline]
    rfl

theorem count_sendRMKPackets (env : Env) (hub : Hub) (clientID id : String) (conn : Conn)
    (hid : id ≠ clientID) (hget : hub.connections.get? id = some conn) :
    (sendRMKPackets env hub clientID).count ⟨conn, sigLine (rmkPacket id clientID)⟩ = 1 := by
  unfold sendRMKPackets
  rw [(List.Perm.flatMap_right _ (env.connOrder.perm _)).count_eq]
  apply count_flatMap_keyed _ hub.connections.nodup _ _ (id, conn)
    ((GoMap.get?_eq_some_iff _ _ _).mp hget)
  · rw [if_pos hid, sendSig_eq]
    simp [rmkPacket]
  · intro x _ hx
    by_cases hk : x.1 = clientID
    · simp [hk]
    · rw [if_pos hk, sendSig_eq, List.count_singleton]
      have hne : (⟨x.2, sigLine (NewSignalPacketFromData "rmk" x.1 clientID (some []))⟩ : Write) ≠
          ⟨conn, sigLine (rmkPacket id clientID)⟩ := by
        intro h
        have h' := sigLine_injective _ _ (congrArg Write.line h)
        have h'' := congrArg GMSigPacket.Destination h'
        exact hx h''
      simp [hne]

theorem countP_flatMap_zero {α : Type} (l : List α) (g : α → List Write) (p : Write → Bool)
    (h : ∀ e ∈ l, (g e).countP p = 0) : (l.flatMap g).countP p = 0 := by
  induction l with
  | nil => simp
  | cons a l ih =>
    rw [List.flatMap_cons, List.countP_append, h a (List.mem_cons_self _ _),
      ih (fun e he => h e (List.mem_cons_of_mem _ he))]

theorem countP_flatMap_keyed {ν : Type} (l : List (String × ν)) (hnd : (l.map Prod.fst).Nodup)
    (g : String × ν → List Write) (p : Write → Bool) (e : String × ν) (he : e ∈ l)
    (h1 : (g e).countP p = 1) (h2 : ∀ x ∈ l, x.1 ≠ e.1 → (g x).countP p = 0) :
    (l.flatMap g).countP p = 1 := by
  induction l with
  | nil => exact absurd he (List.not_mem_nil _)
  | cons a l ih =>
    rw [List.map_cons, List.nodup_cons] at hnd
    rw [List.flatMap_cons, List.countP_append]
    rcases List.mem_cons.mp he with hea | hel
    · subst hea
      have hz : (l.flatMap g).countP p = 0 := by
        apply countP_flatMap_zero
        intro x hx
        apply h2 x (List.mem_cons_of_mem _ hx)
        intro hk
        exact hnd.1 (hk ▸ List.mem_map.mpr ⟨x, hx, rfl⟩)
      rw [h1, hz]
    · have ha : (g a).countP p = 0 := by
        apply h2 a (List.mem_cons_self _ _)
        intro hk
        exact hnd.1 (hk ▸ List.mem_map.mpr ⟨e, hel, rfl⟩)
      rw [ha, ih hnd.2 hel (fun x hx => h2 x (List.mem_cons_of_mem _ hx)), Nat.zero_add]

/-- Among the frames of an `rmk` broadcast, exactly one is addressed to a given
remaining client. -/
theorem countP_sendRMKPackets (env : Env) (hub : Hub) (clientID id : String) (conn : Conn)
    (hid : id ≠ clientID) (hget : hub.connections.get? id = some conn) :
    (sendRMKPackets env hub clientID).countP
      (fun w => w.packet.map GMSigPacket.Destination = some id) = 1 := by
  unfold sendRMKPackets
  rw [(List.Perm.flatMap_right _ (env.connOrder.perm _)).countP_eq]
  apply countP_flatMap_keyed _ hub.connections.nodup _ _ (id, conn)
    ((GoMap.get?_eq_some_iff _ _ _).mp hget)
  · rw [if_pos hid, sendSig_eq]
    simp [packet_sigLine, NewSignalPacketFromData]
  · intro x _ hx
    by_cases hk : x.1 = clientID
    · simp [hk]
    · rw [if_pos hk, sendSig_eq]
      simp [packet_sigLine, NewSignalPacketFromData, hx]

theorem get?_delete (m : GoMap String Conn) (k id : String) (conn : Conn) :
    (m.delete k).get? id = some conn ↔ id ≠ k ∧ m.get? id = some conn := by
  rw [GoMap.get?_eq_some_iff, GoMap.get?_eq_some_iff]
  simp only [GoMap.delete, List.mem_filter, decide_eq_true_eq]
  exact and_comm

/-! ## Lemmas: the opcode dispatch -/

theorem handleSig_grtng (env : Env) (cfg : Config) (hub : Hub) (sess : Session)
    (packet : GMSigPacket) (h : packet.OpCmd = "grtng") :
    handleSig env cfg hub sess packet = onGrtng env cfg hub sess packet := by
  simp [handleSig, h]

theorem handleSig_ighru (env : Env) (cfg : Config) (hub : Hub) (sess : Session)
    (packet : GMSigPacket) (h : packet.OpCmd = "ighru") :
    handleSig env cfg hub sess packet = onIghru env cfg hub sess packet := by
  simp [handleSig, h]

theorem handleSig_gmk (env : Env) (cfg : Config) (hub : Hub) (sess : Session)
    (packet : GMSigPacket) (h : packet.OpCmd = "gmk") :
    handleSig env cfg hub sess packet = onGmk env cfg hub sess packet := by
  simp [handleSig, h]

theorem handleSig_start_call (env : Env) (cfg : Config) (hub : Hub) (sess : Session)
    (packet : GMSigPacket) (h : packet.OpCmd = "start_call") :
    handleSig env cfg hub sess packet = onStartCall hub sess packet := by
  simp [handleSig, h]

theorem handleSig_gmp (env : Env) (cfg : Config) (hub : Hub) (sess : Session)
    (packet : GMSigPacket) (h : packet.OpCmd = "gmp") :
    handleSig env cfg hub sess packet = onGmp hub sess packet := by
  simp [handleSig, h]

theorem handleSig_relay (env : Env) (cfg : Config) (hub : Hub) (sess : Session)
    (packet : GMSigPacket)
    (h : packet.OpCmd = "offer" ∨ packet.OpCmd = "answer" ∨ packet.OpCmd = "ice") :
    handleSig env cfg hub sess packet = relaySignal hub sess packet := by
  rcases h with h | h | h <;> simp [handleSig, h]

theorem handleSig_hang_up (env : Env) (cfg : Config) (hub : Hub) (sess : Session)
    (packet : GMSigPacket) (h : packet.OpCmd = "hang-up") :
    handleSig env cfg hub sess packet = onHangUp hub sess packet := by
  simp [handleSig, h]

theorem handleSig_urgstr (env : Env) (cfg : Config) (hub : Hub) (sess : Session)
    (packet : GMSigPacket) (h : packet.OpCmd = "urgstr") :
    handleSig env cfg hub sess packet = onUrgstr env hub sess := by
  simp [handleSig, h]

theorem handleSig_other (env : Env) (cfg : Config) (hub : Hub) (sess : Session)
    (packet : GMSigPacket)
    (h : packet.OpCmd ∉ ["grtng", "ighru", "gmk", "start_call", "gmp", "offer", "answer", "ice",
      "hang-up", "urgstr"]) :
    handleSig env cfg hub sess packet = ⟨hub, sess, [], false⟩ := by
  simp only [List.mem_cons, List.mem_singleton, List.not_mem_nil, or_false, not_or] at h
  obtain ⟨h1, h2, h3, h4, h5, h6, h7, h8, h9, h10⟩ := h
  simp only [handleSig, h1, h2, h3, h4, h5, h6, h7, h8, h9, h10, if_false]

/-! ## Lemmas: password hashes -/

theorem hexBytes_length (bs : Bytes) : (hexBytes bs).length = 2 * bs.length := by
  induction bs with
  | nil => rfl
  | cons b bs ih =>
    simp only [hexBytes, List.flatMap_cons, List.length_append, List.length_cons,
      List.length_nil] at ih ⊢
    omega

theorem hashPassword_length (idKey : Argon2IDKey) (p : String) :
    (HashPassword idKey p).data.length = 64 := by
  simp only [HashPassword, hexBytes_length, (idKey _ _ _ _ _ _).property]

theorem hashPassword_ne_empty (idKey : Argon2IDKey) (p : String) : HashPassword idKey p ≠ "" := by
  intro h
  have := hashPassword_length idKey p
  rw [h] at this
  simp at this

theorem hubPassword_of_ne (idKey : Argon2IDKey) (p : String) (hp : p ≠ "") :
    hubPassword idKey p = clientPassword idKey p := by
  simp only [hubPassword, clientPassword, hp, ne_eq, not_false_eq_true, if_true]

theorem hubPassword_empty (idKey : Argon2IDKey) : hubPassword idKey "" = "" := by
  simp [hubPassword]

theorem utf8EncodeChar_ne_nil (c : Char) : utf8EncodeChar c ≠ [] := by
  unfold utf8EncodeChar
  simp only
  split
  · simp
  · split
    · simp
    · split <;> simp

theorem utf8_eq_nil (s : String) (h : utf8 s = []) : s = "" := by
  cases s with
  | mk l =>
    cases l with
    | nil => rfl
    | cons c l =>
      simp only [utf8, List.flatMap_cons, List.append_eq_nil] at h
      exact absurd h.1 (utf8EncodeChar_ne_nil c)

theorem utf8_hash_ne (idKey : Argon2IDKey) (p : String) :
    utf8 (clientPassword idKey p) ≠ utf8 (hubPassword idKey "") := by
  rw [hubPassword_empty]
  intro h
  exact hashPassword_ne_empty idKey p (utf8_eq_nil _ h)

/-! ## Lemmas: UTF-8 -/

theorem char_valid_nat (c : Char) : c.toNat < 0xD800 ∨ (0xDFFF < c.toNat ∧ c.toNat < 0x110000) := by
  have h := c.valid
  simpa [UInt32.isValidChar, Nat.isValidChar, Char.toNat] using h

theorem byteOfNat_val (n : Nat) : (byteOfNat n).val = n % 256 := rfl

theorem decodeRune_encode (c : Char) (rest : Bytes) :
    decodeRune (utf8EncodeChar c ++ rest) = (c, (utf8EncodeChar c).length) := by
  have hv := char_valid_nat c
  unfold utf8EncodeChar
  simp only
  by_cases h1 : c.toNat < 0x80
  · rw [if_pos h1]
    have e : (byteOfNat c.toNat).val = c.toNat := by rw [byteOfNat_val]; omega
    simp only [List.singleton_append, decodeRune, e, h1, if_true, Char.ofNat_toNat, List.length_singleton]
  rw [if_neg h1]
  by_cases h2 : c.toNat < 0x800
  · rw [if_pos h2]
    have e0 : (byteOfNat (0xC0 + c.toNat / 64)).val = 0xC0 + c.toNat / 64 := by
      rw [byteOfNat_val]; omega
    have e1 : (byteOfNat (0x80 + c.toNat % 64)).val = 0x80 + c.toNat % 64 := by
      rw [byteOfNat_val]; omega
    have hc : isCont (byteOfNat (0x80 + c.toNat % 64)) = true := by
      simp only [isCont, e1, Bool.and_eq_true, decide_eq_true_eq]; omega
    have hval : (0xC0 + c.toNat / 64 - 0xC0) * 64 + (0x80 + c.toNat % 64 - 0x80) = c.toNat := by omega
    have n1 : ¬ (0xC0 + c.toNat / 64 < 0x80) := by omega
    have n2 : 0xC2 ≤ 0xC0 + c.toNat / 64 ∧ 0xC0 + c.toNat / 64 < 0xE0 := by omega
    simp only [List.cons_append, List.nil_append, decodeRune, e0, e1, n1, n2, hc, hval, if_true, if_false,
      and_self, Char.ofNat_toNat, List.length_cons, List.length_nil]
  rw [if_neg h2]
  by_cases h3 : c.toNat < 0x10000
  · rw [if_pos h3]
    have e0 : (byteOfNat (0xE0 + c.toNat / 4096)).val = 0xE0 + c.toNat / 4096 := by
      rw [byteOfNat_val]; omega
    have e1 : (byteOfNat (0x80 + c.toNat / 64 % 64)).val = 0x80 + c.toNat / 64 % 64 := by
      rw [byteOfNat_val]; omega
    have e2 : (byteOfNat (0x80 + c.toNat % 64)).val = 0x80 + c.toNat % 64 := by
      rw [byteOfNat_val]; omega
    have hc1 : isCont (byteOfNat (0x80 + c.toNat / 64 % 64)) = true := by
      simp only [isCont, e1, Bool.and_eq_true, decide_eq_true_eq]; omega
    have hc2 : isCont (byteOfNat (0x80 + c.toNat % 64)) = true := by
      simp only [isCont, e2, Bool.and_eq_true, decide_eq_true_eq]; omega
    have hval : (0xE0 + c.toNat / 4096 - 0xE0) * 4096 + (0x80 + c.toNat / 64 % 64 - 0x80) * 64 +
        (0x80 + c.toNat % 64 - 0x80) = c.toNat := by omega
    have n1 : ¬ (0xE0 + c.toNat / 4096 < 0x80) := by omega
    have n2 : ¬ (0xC2 ≤ 0xE0 + c.toNat / 4096 ∧ 0xE0 + c.toNat / 4096 < 0xE0) := by omega
    have n3 : 0xE0 ≤ 0xE0 + c.toNat / 4096 ∧ 0xE0 + c.toNat / 4096 < 0xF0 := by omega
    have n4 : 0x800 ≤ c.toNat ∧ ¬ (0xD800 ≤ c.toNat ∧ c.toNat < 0xE000) := by omega
    simp only [List.cons_append, List.nil_append, decodeRune, e0, e1, e2, n1, n2, n3, hc1, hc2,
      hval, n4, if_true, if_false, and_self, Char.ofNat_toNat, List.length_cons, List.length_nil,
      not_false_eq_true]
  rw [if_neg h3]
  have e0 : (byteOfNat (0xF0 + c.toNat / 262144)).val = 0xF0 + c.toNat / 262144 := by
    rw [byteOfNat_val]; omega
  have e1 : (byteOfNat (0x80 + c.toNat / 4096 % 64)).val = 0x80 + c.toNat / 4096 % 64 := by
    rw [byteOfNat_val]; omega
  have e2 : (byteOfNat (0x80 + c.toNat / 64 % 64)).val = 0x80 + c.toNat / 64 % 64 := by
    rw [byteOfNat_val]; omega
  have e3 : (byteOfNat (0x80 + c.toNat % 64)).val = 0x80 + c.toNat % 64 := by
    rw [byteOfNat_val]; omega
  have hc1 : isCont (byteOfNat (0x80 + c.toNat / 4096 % 64)) = true := by
    simp only [isCont, e1, Bool.and_eq_true, decide_eq_true_eq]; omega
  have hc2 : isCont (byteOfNat (0x80 + c.toNat / 64 % 64)) = true := by
    simp only [isCont, e2, Bool.and_eq_true, decide_eq_true_eq]; omega
  have hc3 : isCont (byteOfNat (0x80 + c.toNat % 64)) = true := by
    simp only [isCont, e3, Bool.and_eq_true, decide_eq_true_eq]; omega
  have hval : (0xF0 + c.toNat / 262144 - 0xF0) * 262144 + (0x80 + c.toNat / 4096 % 64 - 0x80) * 4096 +
      (0x80 + c.toNat / 64 % 64 - 0x80) * 64 + (0x80 + c.toNat % 64 - 0x80) = c.toNat := by omega
  have n1 : ¬ (0xF0 + c.toNat / 262144 < 0x80) := by omega
  have n2 : ¬ (0xC2 ≤ 0xF0 + c.toNat / 262144 ∧ 0xF0 + c.toNat / 262144 < 0xE0) := by omega
  have n3 : ¬ (0xE0 ≤ 0xF0 + c.toNat / 262144 ∧ 0xF0 + c.toNat / 262144 < 0xF0) := by omega
  have n4 : 0xF0 ≤ 0xF0 + c.toNat / 262144 ∧ 0xF0 + c.toNat / 262144 < 0xF8 := by omega
  have n5 : 0x10000 ≤ c.toNat ∧ c.toNat < 0x110000 := by omega
  simp only [List.cons_append, List.nil_append, decodeRune, e0, e1, e2, e3, n1, n2, n3, n4, hc1,
    hc2, hc3, hval, n5, if_true, if_false, and_self, Char.ofNat_toNat, List.length_cons,
    List.length_nil, not_false_eq_true]

theorem utf8EncodeChar_length_pos (c : Char) : 1 ≤ (utf8EncodeChar c).length := by
  unfold utf8EncodeChar
  simp only
  split
  · simp
  · split
    · simp
    · split <;> simp

theorem utf8DecodeFuel_encode (s : List Char) :
    ∀ fuel, s.length ≤ fuel → utf8DecodeFuel fuel (s.flatMap utf8EncodeChar) = s := by
  induction s with
  | nil =>
    intro fuel _
    cases fuel <;> rfl
  | cons c s ih =>
    intro fuel hf
    obtain ⟨f, rfl⟩ : ∃ f, fuel = f + 1 := ⟨fuel - 1, by simp at hf; omega⟩
    have hpos := utf8EncodeChar_length_pos c
    obtain ⟨b, bs, hb⟩ : ∃ b bs, utf8EncodeChar c = b :: bs := by
      cases h : utf8EncodeChar c with
      | nil => rw [h] at hpos; simp at hpos
      | cons b bs => exact ⟨b, bs, rfl⟩
    have hd := decodeRune_encode c (s.flatMap utf8EncodeChar)
    rw [List.flatMap_cons]
    rw [hb] at hd ⊢
    rw [List.cons_append] at hd ⊢
    rw [utf8DecodeFuel, hd]
    simp only
    rw [← List.cons_append, List.drop_left, ih f (by simp at hf; omega)]

/-- Reading back as text the bytes of a text gives the text. -/
theorem utf8DecodeLossy_utf8 (s : String) : utf8DecodeLossy (utf8 s) = s.data := by
  unfold utf8DecodeLossy utf8
  apply utf8DecodeFuel_encode
  induction s.data with
  | nil => simp
  | cons c l ih =>
    have := utf8EncodeChar_length_pos c
    simp only [List.flatMap_cons, List.length_append, List.length_cons]
    omega
/-! ## Lemmas: reading Go maps after an update -/

namespace GoMap

variable {κ ν : Type} [DecidableEq κ]

theorem get?_set_self (m : GoMap κ ν) (k : κ) (v : ν) : (m.set k v).get? k = some v := by
  rw [get?_eq_some_iff]
  simp [set]

theorem get?_eq_none_iff (m : GoMap κ ν) (k : κ) : m.get? k = none ↔ k ∉ m.keys := by
  rw [mem_keys_iff]
  cases h : m.get? k with
  | none => simp
  | some v => simp

theorem get?_ext (m₁ m₂ : GoMap κ ν) (a : κ)
    (h : ∀ v, (a, v) ∈ m₁.entries ↔ (a, v) ∈ m₂.entries) : m₁.get? a = m₂.get? a := by
  apply Option.ext
  intro v
  simp only [Option.mem_def, get?_eq_some_iff]
  exact h v

theorem get?_set_ne (m : GoMap κ ν) (k a : κ) (v : ν) (h : a ≠ k) :
    (m.set k v).get? a = m.get? a := by
  apply get?_ext
  intro x
  simp [set, h]

theorem get?_delete_self (m : GoMap κ ν) (k : κ) : (m.delete k).get? k = none := by
  rw [get?_eq_none_iff, mem_keys_delete]
  exact fun h => h.1 rfl

theorem get?_delete_ne (m : GoMap κ ν) (k a : κ) (h : a ≠ k) :
    (m.delete k).get? a = m.get? a := by
  apply get?_ext
  intro x
  simp [delete, h]

end GoMap

/-! ## Lemmas: data and stream fan-out -/

theorem deserialize_marshalData (p : GMDataPacket) :
    DeserializeGMDataPacket (String.mk (marshalData p)) = some p := by
  have := deserialize_serialize_data p
  simpa [SerializeGMDataPacket] using this

/-- The frames of the data fan-out, entry by entry. -/
theorem flatMap_eq_filterMap {α β : Type} (l : List α) (f : α → Option β) :
    (l.flatMap fun e => match f e with | some b => [b] | none => []) = l.filterMap f := by
  induction l with
  | nil => rfl
  | cons a l ih =>
    rw [List.flatMap_cons, List.filterMap_cons, ih]
    cases f a <;> rfl

/-- A valid type-1 frame body is forwarded entry by entry of the registry. -/
theorem handleDataPacket_valid (env : Env) (cfg : Config) (hub : Hub) (message : String)
    (decoded decrypted : Bytes) (packet : GMDataPacket)
    (hb : b64Decode message.data = some decoded) (hd : env.GWDecrypt decoded = some decrypted)
    (hp : DeserializeGMDataPacket (String.mk (utf8DecodeLossy decrypted)) = some packet) :
    handleDataPacket env cfg hub message =
      (env.connOrder.apply hub.connections.entries).filterMap fun e =>
        (SendDataPacket env packet (hub.keyOf e.1)).map fun line => (⟨e.2, line⟩ : Write) := by
  unfold handleDataPacket
  simp only [hb, hd, Option.isNone_some, Bool.false_eq_true, false_and, if_false,
    Option.getD_some, hp]
  rw [← flatMap_eq_filterMap]
  congr 1
  funext e
  cases SendDataPacket env packet (hub.keyOf e.1) <;> rfl

/-- The receiver of a data frame reads back the packet that was sent, when its
decryption inverts the encryption to the key used. -/
theorem dataPacket_sendDataPacket (env : Env) (packet : GMDataPacket) (key : GoBytes)
    (line : String) (conn : Conn) (decrypt : Bytes → Option Bytes)
    (hs : SendDataPacket env packet key = some line)
    (hinv : ∀ m c, env.GWEncrypt m (bytesOf key) = some c → decrypt c = some m) :
    Write.dataPacket decrypt ⟨conn, line⟩ = some packet := by
  unfold SendDataPacket at hs
  simp only [SerializeGMDataPacket] at hs
  cases henc : env.GWEncrypt (utf8 (String.mk (marshalData packet))) (bytesOf key) with
  | none => simp [henc] at hs
  | some ct =>
    simp only [henc, Option.some.injEq] at hs
    subst hs
    have hdata : ("1" ++ String.mk (b64Encode ct) ++ "\n").data = '1' :: (b64Encode ct ++ ['\n']) :=
      rfl
    simp only [Write.dataPacket, hdata, if_true, List.dropLast_concat, b64Decode_encode,
      hinv _ _ henc, utf8DecodeLossy_utf8, deserialize_marshalData]

theorem mem_handleStreamPacket (env : Env) (hub : Hub) (message : String) (w : Write)
    (hw : w ∈ handleStreamPacket env hub message) :
    ∃ decoded decrypted packet id,
      b64Decode message.data = some decoded ∧ env.GWDecrypt decoded = some decrypted ∧
      DeserializeGMStreamPacket (String.mk (utf8DecodeLossy decrypted)) = some packet ∧
      id ∈ packet.Recipients.getD [] ∧ hub.connections.get? id = some w.conn ∧
      SendStreamPacket env packet (hub.keyOf id) = some w.line := by
  unfold handleStreamPacket at hw
  cases hb : b64Decode message.data with
  | none => simp [hb] at hw
  | some decoded =>
    cases hd : env.GWDecrypt decoded with
    | none => simp [hb, hd] at hw
    | some decrypted =>
      cases hp : DeserializeGMStreamPacket (String.mk (utf8DecodeLossy decrypted)) with
      | none => simp [hb, hd, hp] at hw
      | some packet =>
        simp only [hb, hd, hp, List.mem_flatMap] at hw
        obtain ⟨id, hid, hw⟩ := hw
        cases hc : hub.connections.get? id with
        | none => simp [hc] at hw
        | some conn =>
          cases hs : SendStreamPacket env packet (hub.keyOf id) with
          | none => simp [hc, hs] at hw
          | some line =>
            simp only [hc, hs, List.mem_singleton] at hw
            subst hw
            exact ⟨decoded, decrypted, packet, id, rfl, hd, hp, hid, hc, hs⟩

theorem deserialize_marshalStream (p : GMStreamPacket) :
    DeserializeGMStreamPacket (String.mk (marshalStream p)) = some p := by
  have := deserialize_serialize_stream p
  simpa [SerializeGMStreamPacket] using this

/-! ## Lemmas: the call roster -/

/-- The `participent` frames of a `gmp`: the joiner itself, appended last, is
skipped, so the frames are those of the earlier entries other than the joiner. -/
theorem participent_frames (conn : Conn) (sender : String) (ps : List String) :
    ((ps ++ [sender]).flatMap fun participant =>
      if participant ≠ sender then
        sendSig conn
          (NewSignalPacketFromData "participent" participant sender (some (utf8 participant)))
      else []) =
    (ps.filter fun participant => participant ≠ sender).map fun participant =>
      (⟨conn, sigLine (NewSignalPacketFromData "participent" participant sender
        (some (utf8 participant)))⟩ : Write) := by
  induction ps with
  | nil => simp
  | cons p ps ih =>
    rw [List.cons_append, List.flatMap_cons, ih]
    by_cases h : p = sender
    · simp [h]
    · simp [h, sendSig_eq]


/-! ## Lemmas: frames and the receive paths -/

/-- The receiver of a stream frame reads back the packet that was sent, when its
decryption inverts the encryption to the key used. -/
theorem streamPacket_sendStreamPacket (env : Env) (packet : GMStreamPacket) (key : GoBytes)
    (line : String) (conn : Conn) (decrypt : Bytes → Option Bytes)
    (hs : SendStreamPacket env packet key = some line)
    (hinv : ∀ m c, env.GWEncrypt m (bytesOf key) = some c → decrypt c = some m) :
    Write.streamPacket decrypt ⟨conn, line⟩ = some packet := by
  unfold SendStreamPacket at hs
  simp only [SerializeGMStreamPacket] at hs
  cases henc : env.GWEncrypt (utf8 (String.mk (marshalStream packet))) (bytesOf key) with
  | none => simp [henc] at hs
  | some ct =>
    simp only [henc, Option.some.injEq] at hs
    subst hs
    have hdata : ("2" ++ String.mk (b64Encode ct) ++ "\n").data = '2' :: (b64Encode ct ++ ['\n']) :=
      rfl
    simp only [Write.streamPacket, hdata, if_true, List.dropLast_concat, b64Decode_encode,
      hinv _ _ henc, utf8DecodeLossy_utf8, deserialize_marshalStream]

/-- The send wrapper for data packets in one equation. -/
theorem sendDataPacket_eq (env : Env) (packet : GMDataPacket) (key : GoBytes) :
    SendDataPacket env packet key =
      (env.GWEncrypt (utf8 (String.mk (marshalData packet))) (bytesOf key)).map fun ct =>
        "1" ++ String.mk (b64Encode ct) ++ "\n" := by
  unfold SendDataPacket
  simp only [SerializeGMDataPacket]
  cases env.GWEncrypt (utf8 (String.mk (marshalData packet))) (bytesOf key) <;> rfl

/-- The send wrapper for stream packets in one equation. -/
theorem sendStreamPacket_eq (env : Env) (packet : GMStreamPacket) (key : GoBytes) :
    SendStreamPacket env packet key =
      (env.GWEncrypt (utf8 (String.mk (marshalStream packet))) (bytesOf key)).map fun ct =>
        "2" ++ String.mk (b64Encode ct) ++ "\n" := by
  unfold SendStreamPacket
  simp only [SerializeGMStreamPacket]
  cases env.GWEncrypt (utf8 (String.mk (marshalStream packet))) (bytesOf key) <;> rfl

/-- The client reading a data frame of a packet: the line without its line end
is decoded to the packet and handed to the data handler. -/
theorem handleResponse_data (cenv : ClientEnv) (cl : Client) (packet : GMDataPacket)
    (ct : Bytes) (hd : cenv.GWDecrypt ct = some (utf8 (String.mk (marshalData packet)))) :
    handleResponse cenv cl ("1" ++ String.mk (b64Encode ct)) =
      ⟨cl, Client.handleDataPacket cenv packet, false⟩ := by
  have hdata : ("1" ++ String.mk (b64Encode ct)).data = '1' :: b64Encode ct := rfl
  have h10 : ¬ ('1' = '0') := by decide
  simp only [handleResponse, hdata, h10, if_false, if_true, b64Decode_encode, hd,
    utf8DecodeLossy_utf8, deserialize_marshalData]

/-- The client reading a signal frame of a packet: the line without its line end
is dispatched on the packet. -/
theorem handleResponse_sig (cenv : ClientEnv) (cl : Client) (p : GMSigPacket) :
    handleResponse cenv cl ("0" ++ String.mk (marshalSig p)) = clientSig cenv cl p := by
  have hd : ("0" ++ String.mk (marshalSig p)).data = '0' :: marshalSig p := rfl
  simp only [handleResponse, hd, if_true, deserialize_marshalSig]

theorem clientSig_ckp (cenv : ClientEnv) (cl : Client) (packet : GMSigPacket)
    (h : packet.OpCmd = "ckp") : clientSig cenv cl packet = onCkp cenv cl packet := by
  simp [clientSig, h]

theorem clientSig_rmk (cenv : ClientEnv) (cl : Client) (packet : GMSigPacket)
    (h : packet.OpCmd = "rmk") : clientSig cenv cl packet = onRmk cl packet := by
  simp [clientSig, h]

/-! ## Lemmas: no line end inside a frame body -/

theorem hexDigit_ne_newline (n : Nat) : hexDigit n ≠ '\n' := by
  by_cases h : n < 16
  · interval_cases n <;> decide
  · have : hexDigit n = '0' := by
      unfold hexDigit
      exact List.getD_eq_default _ _ (by simpa using h)
    rw [this]; decide

theorem escapeChar_no_newline (c : Char) : '\n' ∉ escapeChar c := by
  have hh := hexDigit_ne_newline
  unfold escapeChar
  by_cases c1 : c = '\\'
  · rw [if_pos c1]; decide
  rw [if_neg c1]
  by_cases c2 : c = '"'
  · rw [if_pos c2]; decide
  rw [if_neg c2]
  by_cases c3 : c = '\x08'
  · rw [if_pos c3]; decide
  rw [if_neg c3]
  by_cases c4 : c = '\x0c'
  · rw [if_pos c4]; decide
  rw [if_neg c4]
  by_cases c5 : c = '\n'
  · rw [if_pos c5]; decide
  rw [if_neg c5]
  by_cases c6 : c = '\r'
  · rw [if_pos c6]; decide
  rw [if_neg c6]
  by_cases c7 : c = '\t'
  · rw [if_pos c7]; decide
  rw [if_neg c7]
  by_cases c8 : c.toNat < 0x20 ∨ c = '<' ∨ c = '>' ∨ c = '&'
  · rw [if_pos c8]
    simp only [List.mem_cons, List.mem_singleton, List.not_mem_nil, or_false, not_or]
    exact ⟨by decide, by decide, by decide, by decide, (hh _).symm, (hh _).symm⟩
  rw [if_neg c8]
  by_cases c9 : c = Char.ofNat 0x2028 ∨ c = Char.ofNat 0x2029
  · rw [if_pos c9]
    simp only [List.mem_cons, List.mem_singleton, List.not_mem_nil, or_false, not_or]
    exact ⟨by decide, by decide, by decide, by decide, by decide, (hh _).symm⟩
  rw [if_neg c9]
  simp only [List.mem_singleton]
  exact fun h => c5 h.symm

theorem quote_no_newline (s : List Char) : '\n' ∉ quote s := by
  unfold quote
  simp only [List.mem_cons, List.mem_append, List.mem_flatMap, List.mem_singleton,
    List.not_mem_nil, or_false, not_or, not_exists, not_and]
  exact ⟨by decide, fun c _ => escapeChar_no_newline c, by decide⟩

theorem b64Encode_no_newline (bs : Bytes) : '\n' ∉ b64Encode bs :=
  fun h => (b64Encode_safe bs _ h).2.2.2.2 rfl

theorem jsonBytes_no_newline (b : GoBytes) : '\n' ∉ jsonBytes b := by
  cases b with
  | none => simp only [jsonBytes]; decide
  | some bs =>
    simp only [jsonBytes, List.mem_cons, List.mem_append, List.mem_singleton, List.not_mem_nil,
      or_false, not_or]
    exact ⟨by decide, b64Encode_no_newline bs, by decide⟩

/-- The JSON text of a signal packet has no line end in it. -/
theorem marshalSig_no_newline (p : GMSigPacket) : '\n' ∉ marshalSig p := by
  have hq := quote_no_newline
  have hb := jsonBytes_no_newline p.Payload
  have k1 : '\n' ∉ jsonKey "cmd" := by decide
  have k2 : '\n' ∉ jsonKey "dst" := by decide
  have k3 : '\n' ∉ jsonKey "snd" := by decide
  have k4 : '\n' ∉ jsonKey "pld" := by decide
  unfold marshalSig
  simp only [List.mem_cons, List.mem_append, List.mem_singleton, List.not_mem_nil, or_false,
    not_or]
  exact ⟨by decide, ⟨k1, hq _⟩, by decide, ⟨k2, hq _⟩, by decide, ⟨k3, hq _⟩, by decide,
    ⟨k4, hb⟩, by decide⟩

/-! ## Lemmas: the first byte of a line -/

theorem handleLine_other_char (env : Env) (cfg : Config) (hub : Hub) (sess : Session)
    (message : String) (c : Char) (rest : List Char) (hm : message.data = c :: rest)
    (h0 : c ≠ '0') (h1 : c ≠ '1') (h2 : c ≠ '2') :
    handleLine env cfg hub sess message = ⟨hub, sess, [], false⟩ := by
  unfold handleLine
  rw [hm]
  simp only [if_neg h0, if_neg h1, if_neg h2]

theorem first_char_of_first_byte (message : String) (b : Byte)
    (hb : (utf8 message).head? = some b) (h0 : b.val ≠ 48) (h1 : b.val ≠ 49) (h2 : b.val ≠ 50) :
    ∃ c rest, message.data = c :: rest ∧ c ≠ '0' ∧ c ≠ '1' ∧ c ≠ '2' := by
  unfold utf8 at hb
  cases hm : message.data with
  | nil => rw [hm] at hb; simp at hb
  | cons c rest =>
    rw [hm] at hb
    refine ⟨c, rest, rfl, ?_, ?_, ?_⟩
    · intro hc
      subst hc
      have : b = 48 := by simpa [utf8EncodeChar] using hb.symm
      exact h0 (by rw [this]; rfl)
    · intro hc
      subst hc
      have : b = 49 := by simpa [utf8EncodeChar] using hb.symm
      exact h1 (by rw [this]; rfl)
    · intro hc
      subst hc
      have : b = 50 := by simpa [utf8EncodeChar] using hb.symm
      exact h2 (by rw [this]; rfl)

/-! ## Lemmas: the data path on a frame that does not decode -/

theorem deserializeData_empty :
    DeserializeGMDataPacket (String.mk (utf8DecodeLossy [])) = none := by
  rfl

theorem handleDataPacket_not_base64 (env : Env) (cfg : Config) (hub : Hub) (message : String)
    (hb : b64Decode message.data = none) : handleDataPacket env cfg hub message = [] := by
  unfold handleDataPacket
  rw [hb]

theorem handleDataPacket_not_decrypted (env : Env) (cfg : Config) (hub : Hub) (message : String)
    (decoded : Bytes) (hb : b64Decode message.data = some decoded)
    (hd : env.GWDecrypt decoded = none) : handleDataPacket env cfg hub message = [] := by
  unfold handleDataPacket
  simp only [hb, hd, Option.isNone_none, true_and, Option.getD_none, deserializeData_empty]
  split <;> rfl

theorem handleDataPacket_not_packet (env : Env) (cfg : Config) (hub : Hub) (message : String)
    (decoded decrypted : Bytes) (hb : b64Decode message.data = some decoded)
    (hd : env.GWDecrypt decoded = some decrypted)
    (hp : DeserializeGMDataPacket (String.mk (utf8DecodeLossy decrypted)) = none) :
    handleDataPacket env cfg hub message = [] := by
  unfold handleDataPacket
  simp only [hb, hd, Option.isNone_some, Bool.false_eq_true, false_and, if_false,
    Option.getD_some, hp]

theorem handleDataPacket_flag (env : Env) (cfg : Config) (hub : Hub) (message : String)
    (flag : Bool) :
    handleDataPacket env { cfg with debugLogging := flag } hub message =
      handleDataPacket env cfg hub message := by
  cases hb : b64Decode message.data with
  | none =>
    rw [handleDataPacket_not_base64 env _ hub message hb,
      handleDataPacket_not_base64 env _ hub message hb]
  | some decoded =>
    cases hd : env.GWDecrypt decoded with
    | none =>
      rw [handleDataPacket_not_decrypted env _ hub message decoded hb hd,
        handleDataPacket_not_decrypted env _ hub message decoded hb hd]
    | some decrypted =>
      unfold handleDataPacket
      simp only [hb, hd, Option.isNone_some, Bool.false_eq_true, false_and, if_false]

/-! ## Lemmas: the roster invariant -/

theorem rosterInv_set (hub : Hub) (hinv : rosterInv hub) (callID : Bytes)
    (participants : List String) (hne : participants ≠ []) :
    rosterInv { hub with activeCalls := hub.activeCalls.set callID participants } := by
  intro c ps hc
  by_cases h : c = callID
  · subst h
    rw [show ({ hub with activeCalls := hub.activeCalls.set c participants } : Hub).activeCalls =
      hub.activeCalls.set c participants from rfl, GoMap.get?_set_self] at hc
    cases hc
    exact hne
  · rw [show ({ hub with activeCalls := hub.activeCalls.set callID participants } : Hub).activeCalls
      = hub.activeCalls.set callID participants from rfl, GoMap.get?_set_ne _ _ _ _ h] at hc
    exact hinv c ps hc

theorem rosterInv_delete (hub : Hub) (hinv : rosterInv hub) (callID : Bytes) :
    rosterInv { hub with activeCalls := hub.activeCalls.delete callID } := by
  intro c ps hc
  by_cases h : c = callID
  · subst h
    rw [show ({ hub with activeCalls := hub.activeCalls.delete c } : Hub).activeCalls =
      hub.activeCalls.delete c from rfl, GoMap.get?_delete_self] at hc
    cases hc
  · rw [show ({ hub with activeCalls := hub.activeCalls.delete callID } : Hub).activeCalls
      = hub.activeCalls.delete callID from rfl, GoMap.get?_delete_ne _ _ _ h] at hc
    exact hinv c ps hc

theorem onStartCall_rosterInv (hub : Hub) (sess : Session) (packet : GMSigPacket)
    (hinv : rosterInv hub) : rosterInv (onStartCall hub sess packet).hub :=
  rosterInv_set hub hinv _ _ (by simp)

theorem onGmp_rosterInv (hub : Hub) (sess : Session) (packet : GMSigPacket)
    (hinv : rosterInv hub) : rosterInv (onGmp hub sess packet).hub := by
  simp only [onGmp]
  split
  · exact hinv
  · exact rosterInv_set hub hinv _ _ (by simp)

theorem onHangUp_rosterInv (hub : Hub) (sess : Session) (packet : GMSigPacket)
    (hinv : rosterInv hub) : rosterInv (onHangUp hub sess packet).hub := by
  simp only [onHangUp]
  split
  · exact hinv
  · split
    · rename_i h
      refine rosterInv_set hub hinv _ _ ?_
      intro h0
      rw [h0] at h
      simp at h
    · exact rosterInv_delete hub hinv _

theorem handleSig_rosterInv (env : Env) (cfg : Config) (hub : Hub) (sess : Session)
    (packet : GMSigPacket) (hinv : rosterInv hub) :
    rosterInv (handleSig env cfg hub sess packet).hub := by
  apply handleSig_cases (fun r => rosterInv r.hub)
  · unfold onGrtng; exact hinv
  · unfold onIghru
    split
    · exact hinv
    · split
      · exact hinv
      · split <;> exact hinv
  · exact hinv
  · exact onStartCall_rosterInv hub sess packet hinv
  · exact onGmp_rosterInv hub sess packet hinv
  · unfold relaySignal
    split <;> exact hinv
  · exact onHangUp_rosterInv hub sess packet hinv
  · unfold onUrgstr
    split
    · exact hinv
    · exact hinv
  · exact hinv

theorem handleLine_rosterInv (env : Env) (cfg : Config) (hub : Hub) (sess : Session)
    (message : String) (hinv : rosterInv hub) :
    rosterInv (handleLine env cfg hub sess message).hub := by
  apply handleLine_cases (fun r => rosterInv r.hub)
  · intro _; exact hinv
  · intro packet; exact handleSig_rosterInv env cfg hub sess packet hinv
  · intro _; exact hinv
  · intro _; exact hinv
  · exact hinv

theorem closeConn_rosterInv (env : Env) (hub : Hub) (sess : Session) (hinv : rosterInv hub) :
    rosterInv (closeConn env hub sess).1 := by
  unfold closeConn
  split
  · exact hinv
  · exact hinv

theorem step_rosterInv (env : Env) (cfg : Config) (s : System) (ev : Event)
    (hinv : rosterInv s.hub) : rosterInv (System.step env cfg s ev).hub := by
  cases ev with
  | line conn message =>
    simp only [System.step]
    split
    · exact hinv
    · split
      · exact closeConn_rosterInv env _ _ (handleLine_rosterInv env cfg s.hub _ message hinv)
      · exact handleLine_rosterInv env cfg s.hub _ message hinv
  | close conn =>
    simp only [System.step]
    split
    · exact hinv
    · exact closeConn_rosterInv env s.hub _ hinv

theorem run_rosterInv (env : Env) (cfg : Config) (events : List Event) :
    ∀ s : System, rosterInv s.hub → rosterInv (System.run env cfg s events).hub := by
  induction events with
  | nil => intro s h; exact h
  | cons ev evs ih =>
    intro s h
    exact ih (System.step env cfg s ev) (step_rosterInv env cfg s ev h)

theorem rosterInv_init : rosterInv Hub.init := by
  intro c ps hc
  cases hc

/-! ## Lemmas: lock discipline -/

theorem violationsFrom_guarded_reads {α : Type} (held : Mutex → Hold) (s : SharedMap)
    (hs : held s.mutex ≠ Hold.free) (l : List α) (rest : List Access) :
    violationsFrom held ((l.map fun _ => Access.read s) ++ rest) = violationsFrom held rest := by
  induction l with
  | nil => rfl
  | cons a l ih =>
    simp only [List.map_cons, List.cons_append, violationsFrom, if_neg hs]
    exact ih

theorem violations_sendKeyToOtherClients (hub : Hub) :
    violations (sendKeyToOtherClientsAccesses hub) = [] := by
  unfold violations sendKeyToOtherClientsAccesses
  simp only [violationsFrom]
  rw [if_neg (by decide)]
  rw [violationsFrom_guarded_reads _ _ (by decide)]
  rfl

theorem violations_grtng (hub : Hub) (sess : Session) (packet : GMSigPacket) :
    violations (grtngAccesses hub sess packet) = [] := by
  unfold violations grtngAccesses sendKeyToOtherClientsAccesses
  simp only [violationsFrom]
  rw [if_pos (by decide), if_pos (by decide), if_neg (by decide)]
  rw [violationsFrom_guarded_reads _ _ (by decide)]
  rfl

theorem violations_hangUp (hub : Hub) (packet : GMSigPacket) :
    violations (hangUpAccesses hub packet) = [] := by
  unfold hangUpAccesses
  split <;> rfl

theorem violations_gmp_known (hub : Hub) (packet : GMSigPacket) (participants : List String)
    (h : hub.activeCalls.get? (bytesOf packet.Payload) = some participants) :
    violations (gmpAccesses hub packet) =
      [Access.read SharedMap.activeCalls, Access.read SharedMap.activeCalls,
        Access.write SharedMap.activeCalls, Access.read SharedMap.activeCalls] := by
  unfold gmpAccesses
  rw [h]
  rfl

theorem violations_dataFanOut (hub : Hub) :
    Access.read SharedMap.connections ∈ violations (dataFanOutAccesses hub) := by
  unfold violations dataFanOutAccesses
  simp only [violationsFrom]
  rw [if_pos (by decide)]
  exact List.mem_cons_self _ _

theorem violations_streamFanOut (hub : Hub) (recipientID : String) (recipients : List String) :
    Access.read SharedMap.connections ∈
      violations (streamFanOutAccesses hub (recipientID :: recipients)) := by
  unfold violations streamFanOutAccesses
  rw [List.flatMap_cons]
  split
  · simp only [List.cons_append, violationsFrom]
    rw [if_pos (by decide)]
    exact List.mem_cons_self _ _
  · simp only [List.cons_append, violationsFrom]
    rw [if_pos (by decide)]
    exact List.mem_cons_self _ _

/-! ## Lemmas: the session variables of a connection -/

theorem handleSig_sess (env : Env) (cfg : Config) (hub : Hub) (sess : Session)
    (packet : GMSigPacket) (h1 : packet.OpCmd ≠ "grtng") (h3 : packet.OpCmd ≠ "gmk") :
    (handleSig env cfg hub sess packet).sess = sess := by
  unfold handleSig
  rw [if_neg h1]
  by_cases c2 : packet.OpCmd = "ighru"
  · rw [if_pos c2]; exact (onIghru_same env cfg hub sess packet).2.1
  rw [if_neg c2, if_neg h3]
  by_cases c4 : packet.OpCmd = "start_call"
  · rw [if_pos c4]; rfl
  rw [if_neg c4]
  by_cases c5 : packet.OpCmd = "gmp"
  · rw [if_pos c5]
    simp only [onGmp]
    split <;> rfl
  rw [if_neg c5]
  by_cases c6 : packet.OpCmd = "offer"
  · rw [if_pos c6]; exact (relaySignal_hub hub sess packet).2
  rw [if_neg c6]
  by_cases c7 : packet.OpCmd = "answer"
  · rw [if_pos c7]; exact (relaySignal_hub hub sess packet).2
  rw [if_neg c7]
  by_cases c8 : packet.OpCmd = "ice"
  · rw [if_pos c8]; exact (relaySignal_hub hub sess packet).2
  rw [if_neg c8]
  by_cases c9 : packet.OpCmd = "hang-up"
  · rw [if_pos c9]
    simp only [onHangUp]
    split
    · rfl
    · split <;> rfl
  rw [if_neg c9]
  by_cases c10 : packet.OpCmd = "urgstr"
  · rw [if_pos c10]
    unfold onUrgstr
    split <;> rfl
  rw [if_neg c10]

theorem handleSig_conn (env : Env) (cfg : Config) (hub : Hub) (sess : Session)
    (packet : GMSigPacket) : (handleSig env cfg hub sess packet).sess.conn = sess.conn := by
  by_cases h1 : packet.OpCmd = "grtng"
  · rw [handleSig_grtng env cfg hub sess packet h1]; rfl
  by_cases h3 : packet.OpCmd = "gmk"
  · rw [handleSig_gmk env cfg hub sess packet h3]; rfl
  rw [handleSig_sess env cfg hub sess packet h1 h3]

theorem handleLine_conn (env : Env) (cfg : Config) (hub : Hub) (sess : Session)
    (message : String) : (handleLine env cfg hub sess message).sess.conn = sess.conn := by
  apply handleLine_cases (fun r => r.sess.conn = sess.conn)
  · intro _; rfl
  · intro packet; exact handleSig_conn env cfg hub sess packet
  · intro _; rfl
  · intro _; rfl
  · rfl

/-- A line that is no `grtng` and no `gmk` signal leaves the session variables
as they are. -/
theorem handleLine_sess (env : Env) (cfg : Config) (hub : Hub) (sess : Session)
    (message : String) (h : assignsClientID message = false) :
    (handleLine env cfg hub sess message).sess = sess := by
  unfold assignsClientID at h
  unfold handleLine
  cases hm : message.data with
  | nil => rfl
  | cons c rest =>
    rw [hm] at h
    simp only at h ⊢
    by_cases c0 : c = '0'
    · rw [if_pos c0] at h ⊢
      cases hd : DeserializeGMSigPacket (String.mk rest) with
      | none => rfl
      | some packet =>
        rw [hd] at h
        simp only [Bool.or_eq_false_iff, decide_eq_false_iff_not] at h
        exact handleSig_sess env cfg hub sess packet h.1 h.2
    · rw [if_neg c0]
      by_cases c1 : c = '1'
      · rw [if_pos c1]
      rw [if_neg c1]
      by_cases c2 : c = '2'
      · rw [if_pos c2]
      rw [if_neg c2]

theorem find?_filter_conn (l : List Session) (conn other : Conn) (h : other ≠ conn) :
    (l.filter fun x => x.conn ≠ other).find? (fun x => x.conn = conn) =
      l.find? (fun x => x.conn = conn) := by
  induction l with
  | nil => rfl
  | cons a l ih =>
    by_cases hc : a.conn = conn
    · have hp : decide (a.conn ≠ other) = true :=
        decide_eq_true (fun e => h (e.symm.trans hc))
      have hq : decide (a.conn = conn) = true := decide_eq_true hc
      rw [List.filter_cons_of_pos (p := fun x : Session => decide (x.conn ≠ other)) hp, List.find?_cons_of_pos (p := fun x : Session => decide (x.conn = conn)) _ hq, List.find?_cons_of_pos (p := fun x : Session => decide (x.conn = conn)) _ hq]
    · have hq : ¬ decide (a.conn = conn) = true := fun e => hc (of_decide_eq_true e)
      rw [List.find?_cons_of_neg (p := fun x : Session => decide (x.conn = conn)) _ hq]
      by_cases ha : a.conn = other
      · have hp : ¬ decide (a.conn ≠ other) = true := fun e => (of_decide_eq_true e) ha
        rw [List.filter_cons_of_neg (p := fun x : Session => decide (x.conn ≠ other)) hp, ih]
      · have hp : decide (a.conn ≠ other) = true := decide_eq_true ha
        rw [List.filter_cons_of_pos (p := fun x : Session => decide (x.conn ≠ other)) hp, List.find?_cons_of_neg (p := fun x : Session => decide (x.conn = conn)) _ hq, ih]

theorem find?_filter_self (l : List Session) (conn : Conn) :
    (l.filter fun x => x.conn ≠ conn).find? (fun x => x.conn = conn) = none := by
  rw [List.find?_eq_none]
  intro x hx
  simp only [List.mem_filter, ne_eq, decide_not, Bool.not_eq_eq_eq_not, Bool.not_true,
    decide_eq_false_iff_not] at hx
  simpa using hx.2

theorem session_conn (s : System) (conn : Conn) : (s.session conn).conn = conn := by
  unfold System.session
  cases h : s.sessions.find? (fun x => x.conn = conn) with
  | none => rfl
  | some x =>
    have := List.find?_some h
    simpa using this

theorem session_cons_self (x : Session) (l : List Session) (conn : Conn) (hx : x.conn = conn) :
    ((x :: l).find? fun y => y.conn = conn).getD (Session.start conn) = x := by
  rw [List.find?_cons_of_pos (p := fun y : Session => decide (y.conn = conn)) _ (decide_eq_true hx)]
  rfl

theorem session_cons_other (x : Session) (l : List Session) (conn : Conn) (hx : ¬ x.conn = conn) :
    ((x :: l).find? fun y => y.conn = conn).getD (Session.start conn) =
      (l.find? fun y => y.conn = conn).getD (Session.start conn) := by
  rw [List.find?_cons_of_neg (p := fun y : Session => decide (y.conn = conn)) _
    (fun e => hx (of_decide_eq_true e))]

/-- Events of other connections do not touch the session variables of a
connection. -/
theorem session_step_other (env : Env) (cfg : Config) (s : System) (ev : Event) (conn : Conn)
    (h : ∀ message, ev ≠ Event.line conn message) (hc : ev ≠ Event.close conn) :
    (System.step env cfg s ev).session conn = s.session conn := by
  cases ev with
  | line other message =>
    have hne : other ≠ conn := fun e => h message (by rw [e])
    simp only [System.step]
    split
    · rfl
    · split
      · simp only [System.session, find?_filter_conn _ _ _ hne]
      · have hx : ¬ (handleLine env cfg s.hub (s.session other) message).sess.conn = conn := by
          rw [handleLine_conn, session_conn]; exact hne
        show ((_ :: _).find? fun y => y.conn = conn).getD (Session.start conn) = _
        rw [session_cons_other _ _ _ hx, find?_filter_conn _ _ _ hne]
        rfl
  | close other =>
    have hne : other ≠ conn := fun e => hc (by rw [e])
    simp only [System.step]
    split
    · rfl
    · simp only [System.session, find?_filter_conn _ _ _ hne]

/-- While a connection sends no `grtng` and no `gmk`, its client id stays
unset. -/
theorem session_step_clientID (env : Env) (cfg : Config) (s : System) (ev : Event) (conn : Conn)
    (hs : (s.session conn).clientID = "")
    (h : ∀ message, ev = Event.line conn message → assignsClientID message = false) :
    ((System.step env cfg s ev).session conn).clientID = "" := by
  by_cases hl : ∃ message, ev = Event.line conn message
  · obtain ⟨message, rfl⟩ := hl
    simp only [System.step]
    split
    · exact hs
    · split
      · simp only [System.session, find?_filter_self]
        rfl
      · have hx : (handleLine env cfg s.hub (s.session conn) message).sess.conn = conn := by
          rw [handleLine_conn, session_conn]
        show (((_ :: _).find? fun y => y.conn = conn).getD (Session.start conn)).clientID = _
        rw [session_cons_self _ _ _ hx, handleLine_sess env cfg s.hub _ message (h message rfl)]
        exact hs
  · by_cases hc : ev = Event.close conn
    · subst hc
      simp only [System.step]
      split
      · exact hs
      · simp only [System.session, find?_filter_self]
        rfl
    · rw [session_step_other env cfg s ev conn (fun m e => hl ⟨m, e⟩) hc]
      exact hs

theorem session_run_clientID (env : Env) (cfg : Config) (conn : Conn) (events : List Event) :
    ∀ s : System, (s.session conn).clientID = "" →
      (∀ message, Event.line conn message ∈ events → assignsClientID message = false) →
      ((System.run env cfg s events).session conn).clientID = "" := by
  induction events with
  | nil => intro s hs _; exact hs
  | cons ev evs ih =>
    intro s hs h
    exact ih (System.step env cfg s ev)
      (session_step_clientID env cfg s ev conn hs
        (fun m e => h m (by rw [e]; exact List.mem_cons_self _ _)))
      (fun m hm => h m (List.mem_cons_of_mem _ hm))

/-- With the client id unset, `urgstr` and every opcode without a case change
nothing and write nothing. -/
theorem handleSig_unset (env : Env) (cfg : Config) (hub : Hub) (sess : Session)
    (packet : GMSigPacket) (hs : sess.clientID = "")
    (h : packet.OpCmd ∉ ["grtng", "ighru", "gmk", "start_call", "gmp", "offer", "answer", "ice",
      "hang-up"]) :
    handleSig env cfg hub sess packet = ⟨hub, sess, [], false⟩ := by
  by_cases hu : packet.OpCmd = "urgstr"
  · rw [handleSig_urgstr env cfg hub _ packet hu]
    simp [onUrgstr, hs]
  · apply handleSig_other
    simp only [List.mem_cons, List.mem_singleton, List.not_mem_nil, or_false, not_or] at h ⊢
    obtain ⟨h1, h2, h3, h4, h5, h6, h7, h8, h9⟩ := h
    exact ⟨h1, h2, h3, h4, h5, h6, h7, h8, h9, hu⟩

/-- A line that its handler ignores changes, as an event of the hub process,
neither the maps nor the output nor the session variables of any connection. -/
theorem step_ignored (env : Env) (cfg : Config) (s : System) (conn : Conn) (message : String)
    (h : handleLine env cfg s.hub (s.session conn) message = ⟨s.hub, s.session conn, [], false⟩) :
    (System.step env cfg s (Event.line conn message)).hub = s.hub ∧
    (System.step env cfg s (Event.line conn message)).out = s.out ∧
    (System.step env cfg s (Event.line conn message)).crashed = s.crashed ∧
    ∀ c, (System.step env cfg s (Event.line conn message)).session c = s.session c := by
  simp only [System.step, h]
  cases hcr : s.crashed with
  | true => simp only [if_true, hcr, true_and, implies_true]
  | false =>
    simp only [Bool.false_eq_true, if_false, List.append_nil, true_and]
    intro c
    by_cases hc : conn = c
    · subst hc
      exact session_cons_self _ _ _ (session_conn s conn)
    · show ((_ :: _).find? fun y => y.conn = c).getD (Session.start c) = _
      rw [session_cons_other _ _ _ (by rw [session_conn]; exact hc), find?_filter_conn _ _ _ hc]
      rfl

theorem handleLine_packet (env : Env) (cfg : Config) (hub : Hub) (sess : Session)
    (message : String) (rest : List Char) (packet : GMSigPacket)
    (hm : message.data = '0' :: rest)
    (hd : DeserializeGMSigPacket (String.mk rest) = some packet) :
    handleLine env cfg hub sess message = handleSig env cfg hub sess packet := by
  simp only [handleLine, hm, if_true, hd]

theorem assignsClientID_sig (p : GMSigPacket) :
    assignsClientID ("0" ++ String.mk (marshalSig p)) =
      (decide (p.OpCmd = "grtng") || decide (p.OpCmd = "gmk")) := by
  have hd : ("0" ++ String.mk (marshalSig p)).data = '0' :: marshalSig p := rfl
  simp only [assignsClientID, hd, if_true, deserialize_marshalSig]

/-! ## Lemmas: the opcodes of the frames a session writes -/

theorem mem_sendSig (conn : Conn) (p : GMSigPacket) (w : Write) (hw : w ∈ sendSig conn p) :
    w.line = sigLine p := by
  rw [sendSig_eq, List.mem_singleton] at hw
  rw [hw]

theorem mem_sendKeyToOtherClients (env : Env) (hub : Hub) (clientID : String)
    (clientPublicKey : GoBytes) (w : Write)
    (hw : w ∈ sendKeyToOtherClients env hub clientID clientPublicKey) :
    ∃ p, w.line = sigLine p ∧ p.OpCmd = "ckp" := by
  simp only [sendKeyToOtherClients, List.mem_flatMap] at hw
  obtain ⟨e, -, hw⟩ := hw
  split at hw
  · simp at hw
  · split at hw
    · simp at hw
    · exact ⟨_, mem_sendSig _ _ _ hw, rfl⟩

theorem mem_gmkKeyFrames (env : Env) (hub : Hub) (conn : Conn) (clientID : String) (w : Write)
    (hw : w ∈ gmkKeyFrames env hub conn clientID) :
    ∃ p, w.line = sigLine p ∧ p.OpCmd = "ckp" := by
  simp only [gmkKeyFrames, List.mem_flatMap] at hw
  obtain ⟨e, -, hw⟩ := hw
  split at hw
  · simp at hw
  · exact ⟨_, mem_sendSig _ _ _ hw, rfl⟩

theorem mem_gmkChannelFrames (env : Env) (cfg : Config) (hub : Hub) (conn : Conn)
    (clientID : String) (w : Write) (hw : w ∈ gmkChannelFrames env cfg hub conn clientID) :
    ∃ p, w.line = sigLine p ∧ p.OpCmd = "cup" := by
  simp only [gmkChannelFrames, List.mem_flatMap] at hw
  obtain ⟨channel, -, hw⟩ := hw
  split at hw
  · simp at hw
  · exact ⟨_, mem_sendSig _ _ _ hw, rfl⟩

/-- No frame of a `grtng` reply is an `rmk`. -/
theorem onGrtng_no_rmk (env : Env) (cfg : Config) (hub : Hub) (sess : Session)
    (packet : GMSigPacket) (w : Write) (hw : w ∈ (onGrtng env cfg hub sess packet).out) :
    ∃ p, w.line = sigLine p ∧ p.OpCmd ≠ "rmk" := by
  simp only [onGrtng, List.mem_append] at hw
  rcases hw with hw | hw
  · obtain ⟨p, hp, hop⟩ := mem_sendKeyToOtherClients _ _ _ _ _ hw
    exact ⟨p, hp, by rw [hop]; decide⟩
  · exact ⟨_, mem_sendSig _ _ _ hw, by simp only [NewSignalPacketFromData]; decide⟩

/-- No frame of a `gmk` reply is an `rmk`. -/
theorem onGmk_no_rmk (env : Env) (cfg : Config) (hub : Hub) (sess : Session)
    (packet : GMSigPacket) (w : Write) (hw : w ∈ (onGmk env cfg hub sess packet).out) :
    ∃ p, w.line = sigLine p ∧ p.OpCmd ≠ "rmk" := by
  simp only [onGmk, List.mem_append] at hw
  rcases hw with hw | hw | hw
  · obtain ⟨p, hp, hop⟩ := mem_gmkKeyFrames _ _ _ _ _ hw
    exact ⟨p, hp, by rw [hop]; decide⟩
  · obtain ⟨p, hp, hop⟩ := mem_gmkChannelFrames _ _ _ _ _ _ hw
    exact ⟨p, hp, by rw [hop]; decide⟩
  · exact ⟨_, mem_sendSig _ _ _ hw, by simp only [NewSignalPacketFromData]; decide⟩

/-- Every frame of the deferred cleanup is an `rmk` about the client id of the
session. -/
theorem mem_closeConn (env : Env) (hub : Hub) (sess : Session) (w : Write)
    (hw : w ∈ (closeConn env hub sess).2) :
    ∃ id, w.line = sigLine (rmkPacket id sess.clientID) := by
  unfold closeConn at hw
  split at hw
  · obtain ⟨id, -, -, hline⟩ := (mem_sendRMKPackets env _ _ w).mp hw
    exact ⟨id, hline⟩
  · simp at hw

/-- What the deferred cleanup does for a session whose client id is set: the id
is removed from the connection registry and from the key map; every other
registered client is sent, on its own connection, the `rmk` with itself as
destination, the id as sender and an empty payload, exactly once, and that is
the only frame addressed to it; nothing else is written. -/
theorem closeConn_cleanup (env : Env) (hub : Hub) (sess : Session)
    (hA : sess.clientID ≠ "") :
    sess.clientID ∉ (closeConn env hub sess).1.connections.keys ∧
    sess.clientID ∉ (closeConn env hub sess).1.publicKeys.keys ∧
    (∀ id conn, id ≠ sess.clientID → hub.connections.get? id = some conn →
      (closeConn env hub sess).2.count ⟨conn, sigLine (rmkPacket id sess.clientID)⟩ = 1 ∧
      (closeConn env hub sess).2.countP
        (fun w => w.packet.map GMSigPacket.Destination = some id) = 1) ∧
    (∀ w ∈ (closeConn env hub sess).2, ∃ id, id ≠ sess.clientID ∧
      hub.connections.get? id = some w.conn ∧ w.line = sigLine (rmkPacket id sess.clientID)) := by
  simp only [closeConn, if_pos hA]
  refine ⟨?_, ?_, ?_, ?_⟩
  · rw [GoMap.mem_keys_delete]; exact fun h => h.1 rfl
  · rw [GoMap.mem_keys_delete]; exact fun h => h.1 rfl
  · intro id conn hid hget
    have hget' := (get?_delete _ _ _ _).mpr ⟨hid, hget⟩
    exact ⟨count_sendRMKPackets env _ _ id conn hid hget',
      countP_sendRMKPackets env _ _ id conn hid hget'⟩
  · intro w hw
    obtain ⟨id, hid, hget, hline⟩ := (mem_sendRMKPackets env _ _ w).mp hw
    exact ⟨id, hid, ((get?_delete _ _ _ _).mp hget).2, hline⟩
/-! ## The claims -/

/-- C1: framing round trip. For every packet of each of the three variants
(signal, data, stream), deserializing the output of the matching serialize
function succeeds and yields a packet equal to the original in every field. -/
theorem C1_framing_round_trip :
    (∀ p : GMSigPacket, (SerializeGMSigPacket p).bind DeserializeGMSigPacket = some p) ∧
    (∀ p : GMDataPacket, (SerializeGMDataPacket p).bind DeserializeGMDataPacket = some p) ∧
    (∀ p : GMStreamPacket, (SerializeGMStreamPacket p).bind DeserializeGMStreamPacket = some p) :=
  ⟨deserialize_serialize_sig, deserialize_serialize_data, deserialize_serialize_stream⟩

/-- C2: registry invariant. In every state the hub reaches from its start-up
state by any sequence of received lines and connection terminations, a client
id is a key of the connection registry if and only if it is a key of the key
map. -/
theorem C2_registry_invariant (env : Env) (cfg : Config) (events : List Event) (id : String) :
    id ∈ (System.run env cfg System.init events).hub.connections.keys ↔
      id ∈ (System.run env cfg System.init events).hub.publicKeys.keys :=
  run_regInv env cfg events System.init (fun _ => Iff.rfl) id

/-- C3 as stated fails: client `A` is registered, its `ighru` payload decrypts
to a text that is not the password; the hub writes `401`, but `A` stays in the
connection registry and in the key map, and a `start_call` arriving afterwards
on the same connection is processed and answered with `call_active`. -/
theorem C3_counterexample :
    (handleSig demoEnv demoCfg demoHubA ⟨1, "A", some (utf8 "A")⟩ ⟨"ighru", "", "A", some [1]⟩).out =
      [⟨1, sigLine (NewSignalPacketFromData "401" "A" "" (some []))⟩] ∧
    (handleSig demoEnv demoCfg demoHubA ⟨1, "A", some (utf8 "A")⟩
      ⟨"ighru", "", "A", some [1]⟩).hub.connections.keys = ["A"] ∧
    (handleSig demoEnv demoCfg demoHubA ⟨1, "A", some (utf8 "A")⟩
      ⟨"ighru", "", "A", some [1]⟩).hub.publicKeys.keys = ["A"] ∧
    (runSession demoEnv demoCfg demoHubA ⟨1, "A", some (utf8 "A")⟩
      ["0" ++ String.mk (marshalSig ⟨"ighru", "", "A", some [1]⟩),
       "0" ++ String.mk (marshalSig ⟨"start_call", "", "A", some [9]⟩)]).2.1 =
      [⟨1, sigLine (NewSignalPacketFromData "401" "A" "" (some []))⟩,
       ⟨1, sigLine (NewSignalPacketFromData "call_active" "A" "" (some []))⟩] := by
  refine ⟨by rfl, by rfl, by rfl, ?_⟩
  simp only [runSession, handleLine_sig]
  rfl

/-- C3, amended: when the hub receives an `ighru` whose decrypted payload differs
from the configured password, it writes exactly one frame, a `401` addressed to
the client id of the session with empty sender and payload, on that
connection; the shared maps and the session variables are unchanged and the
handler goes on to the next line. -/
theorem C3_ighru_mismatch (env : Env) (cfg : Config) (hub : Hub) (sess : Session)
    (packet : GMSigPacket) (decryptedMsg : Bytes) (hop : packet.OpCmd = "ighru")
    (hdec : env.GWDecrypt (bytesOf packet.Payload) = some decryptedMsg)
    (hne : decryptedMsg ≠ utf8 cfg.password) :
    handleSig env cfg hub sess packet =
      ⟨hub, sess, [⟨sess.conn, sigLine (NewSignalPacketFromData "401" sess.clientID "" (some []))⟩],
        false⟩ := by
  rw [handleSig_ighru env cfg hub sess packet hop]
  simp only [onIghru, hdec, hne, ne_eq, not_false_eq_true, if_true, sendSig_eq]

/-- Witness for C3: the mismatching `ighru` of client `A`. -/
theorem C3_ighru_mismatch_witness :
    (⟨"ighru", "", "A", some [1]⟩ : GMSigPacket).OpCmd = "ighru" ∧
    demoEnv.GWDecrypt (bytesOf (some [1])) = some [1] ∧ ([1] : Bytes) ≠ utf8 demoCfg.password ∧
    handleSig demoEnv demoCfg demoHubA ⟨1, "A", some (utf8 "A")⟩ ⟨"ighru", "", "A", some [1]⟩ =
      ⟨demoHubA, ⟨1, "A", some (utf8 "A")⟩,
        [⟨1, sigLine (NewSignalPacketFromData "401" "A" "" (some []))⟩], false⟩ :=
  ⟨rfl, rfl, by decide,
    C3_ighru_mismatch demoEnv demoCfg demoHubA ⟨1, "A", some (utf8 "A")⟩
      ⟨"ighru", "", "A", some [1]⟩ [1] rfl rfl (by decide)⟩

/-- C4 as stated fails for the empty password: the hub keeps the empty string
while the client sends the hash of the empty string, for every Argon2
function; in the stand-in environment the hub answers that payload with `401`. -/
theorem C4_counterexample :
    (∀ idKey : Argon2IDKey, hubPassword idKey "" = "" ∧ (clientPassword idKey "").data.length = 64) ∧
    (handleSig demoEnv
      { demoCfg with password := hubPassword demoIDKey "" } demoHubA ⟨1, "A", some (utf8 "A")⟩
      ⟨"ighru", "", "A", demoEnv.GWEncrypt (utf8 (clientPassword demoIDKey "")) []⟩).out =
      [⟨1, sigLine (NewSignalPacketFromData "401" "A" "" (some []))⟩] := by
  refine ⟨fun idKey => ⟨hubPassword_empty idKey, hashPassword_length idKey ""⟩, ?_⟩
  rw [handleSig_ighru _ _ _ _ _ rfl]
  have hne := utf8_hash_ne demoIDKey ""
  simp only [onIghru, demoEnv, bytesOf, Option.getD_some, hne, ne_eq, not_false_eq_true, if_true,
    sendSig_eq]

/-- C4, amended: for every non-empty cleartext password, the hub started with it
and a client booted with it derive the same hash, and when the `ighru` payload
is the encryption of the client's hash to the hub key and decryption inverts
encryption, the hub takes the match branch: it writes no `401`; it writes
exactly the `ig` reply whenever encrypting the reply to the key stored for the
client succeeds, and nothing otherwise. -/
theorem C4_password_match (idKey : Argon2IDKey) (env : Env) (cfg : Config) (hub : Hub)
    (sess : Session) (packet : GMSigPacket) (p : String) (ct : Bytes) (hp : p ≠ "")
    (hcfg : cfg.password = hubPassword idKey p) (hop : packet.OpCmd = "ighru")
    (hinv : ∀ m c, env.GWEncrypt m (bytesOf env.RetrievePublicKey) = some c →
      env.GWDecrypt c = some m)
    (henc : env.GWEncrypt (utf8 (clientPassword idKey p)) (bytesOf env.RetrievePublicKey) = some ct)
    (hpl : packet.Payload = some ct) :
    hubPassword idKey p = clientPassword idKey p ∧
    (handleSig env cfg hub sess packet).out =
      (match env.GWEncrypt (utf8 "I'm good!") (bytesOf (hub.keyOf sess.clientID)) with
        | some enc => [⟨sess.conn, sigLine (NewSignalPacketFromData "ig" sess.clientID "" (some enc))⟩]
        | none => []) ∧
    ∀ w ∈ (handleSig env cfg hub sess packet).out,
      w.packet.map GMSigPacket.OpCmd = some "ig" := by
  have hsame := hubPassword_of_ne idKey p hp
  have hdec : env.GWDecrypt (bytesOf packet.Payload) = some (utf8 cfg.password) := by
    rw [hpl, hcfg, hsame]
    exact hinv _ _ henc
  have hout : (handleSig env cfg hub sess packet).out =
      (match env.GWEncrypt (utf8 "I'm good!") (bytesOf (hub.keyOf sess.clientID)) with
        | some enc => [⟨sess.conn, sigLine (NewSignalPacketFromData "ig" sess.clientID "" (some enc))⟩]
        | none => []) := by
    rw [handleSig_ighru env cfg hub sess packet hop]
    simp only [onIghru, hdec, ne_eq, not_true_eq_false, if_false]
    cases env.GWEncrypt (utf8 "I'm good!") (bytesOf (hub.keyOf sess.clientID)) with
    | none => rfl
    | some enc => rfl
  refine ⟨hsame, hout, ?_⟩
  rw [hout]
  intro w hw
  cases henc2 : env.GWEncrypt (utf8 "I'm good!") (bytesOf (hub.keyOf sess.clientID)) with
  | none => simp [henc2] at hw
  | some enc =>
    simp only [henc2, List.mem_singleton] at hw
    rw [hw, packet_sigLine]
    rfl

/-- Witness for C4: password `pw`, client `A` registered in the stand-in
environment; the hub replies `ig`. -/
theorem C4_password_match_witness :
    ("pw" : String) ≠ "" ∧
    hubPassword demoIDKey "pw" = clientPassword demoIDKey "pw" ∧
    (handleSig demoEnv { demoCfg with password := hubPassword demoIDKey "pw" } demoHubA
      ⟨1, "A", some (utf8 "A")⟩
      ⟨"ighru", "", "A", some (utf8 (clientPassword demoIDKey "pw"))⟩).out =
      [⟨1, sigLine (NewSignalPacketFromData "ig" "A" "" (some (utf8 "I'm good!")))⟩] :=
  ⟨by decide,
    (C4_password_match demoIDKey demoEnv { demoCfg with password := hubPassword demoIDKey "pw" }
      demoHubA ⟨1, "A", some (utf8 "A")⟩
      ⟨"ighru", "", "A", some (utf8 (clientPassword demoIDKey "pw"))⟩ "pw"
      (utf8 (clientPassword demoIDKey "pw")) (by decide) rfl rfl
      (fun m c h => by simpa [demoEnv] using h.symm) rfl rfl).1,
    (C4_password_match demoIDKey demoEnv { demoCfg with password := hubPassword demoIDKey "pw" }
      demoHubA ⟨1, "A", some (utf8 "A")⟩
      ⟨"ighru", "", "A", some (utf8 (clientPassword demoIDKey "pw"))⟩ "pw"
      (utf8 (clientPassword demoIDKey "pw")) (by decide) rfl rfl
      (fun m c h => by simpa [demoEnv] using h.symm) rfl rfl).2.1⟩

/-- C5, the code at the failing input: on an empty registry, a `grtng` whose key
can be encrypted to itself makes the hub write two frames to the greeting
connection, first a `ckp` that carries the client's own key back to it (sender
and destination both the greeting client), then the `hru`. -/
theorem C5_greeting_on_empty_registry (env : Env) (cfg : Config) (sess : Session)
    (packet : GMSigPacket) (ct : Bytes) (hop : packet.OpCmd = "grtng")
    (henc : env.GWEncrypt (bytesOf packet.Payload) (bytesOf packet.Payload) = some ct) :
    (handleSig env cfg Hub.init sess packet).out =
      [⟨sess.conn, sigLine (NewSignalPacketFromData "ckp" packet.Sender packet.Sender (some ct))⟩,
       ⟨sess.conn, sigLine (NewSignalPacketFromData "hru" packet.Sender cfg.serverName
          env.RetrievePublicKey)⟩] := by
  rw [handleSig_grtng env cfg Hub.init sess packet hop]
  have hent : (Hub.init.connections.set packet.Sender sess.conn).entries =
      [(packet.Sender, sess.conn)] := rfl
  have hperm := env.connOrder.perm [(packet.Sender, sess.conn)]
  rw [List.perm_singleton] at hperm
  have hkey : (Hub.init.publicKeys.set packet.Sender packet.Payload).get? packet.Sender =
      some packet.Payload := by
    simp [GoMap.get?, GoMap.set, Hub.init, GoMap.empty]
  simp only [onGrtng, sendKeyToOtherClients, hent, hperm, List.flatMap_cons, List.flatMap_nil,
    hkey, henc, sendSig_eq, List.append_nil, List.singleton_append]

/-- Witness for C5: client `C` greets the start-up hub of the stand-in
environment. -/
theorem C5_greeting_on_empty_registry_witness :
    (⟨"grtng", "", "C", some [7]⟩ : GMSigPacket).OpCmd = "grtng" ∧
    demoEnv.GWEncrypt (bytesOf (some [7])) (bytesOf (some [7])) = some [7] ∧
    (handleSig demoEnv demoCfg Hub.init (Session.start 3) ⟨"grtng", "", "C", some [7]⟩).out =
      [⟨3, sigLine (NewSignalPacketFromData "ckp" "C" "C" (some [7]))⟩,
       ⟨3, sigLine (NewSignalPacketFromData "hru" "C" "hub" (some []))⟩] :=
  ⟨rfl, rfl,
    C5_greeting_on_empty_registry demoEnv demoCfg (Session.start 3) ⟨"grtng", "", "C", some [7]⟩
      [7] rfl rfl⟩

/-- C6 as stated fails: on a connection that has not greeted, a `start_call` is
answered with `call_active` and creates a call roster entry; and with `A` and
`B` registered, a connection that has not greeted and has sent a `gmk` with the
sender `A` then sends `urgstr`: `B` is sent an `rmk` about `A` and `A` is
removed from the connection registry. -/
theorem C6_counterexample :
    (handleSig demoEnv demoCfg Hub.init (Session.start 1) ⟨"start_call", "", "x", some [9]⟩).out =
      [⟨1, sigLine (NewSignalPacketFromData "call_active" "" "" (some []))⟩] ∧
    (handleSig demoEnv demoCfg Hub.init (Session.start 1)
      ⟨"start_call", "", "x", some [9]⟩).hub.activeCalls.entries = [([9], ["x"])] ∧
    (handleSig demoEnv demoCfg
      (handleSig demoEnv demoCfg demoHubAB (Session.start 5) ⟨"gmk", "", "A", some []⟩).hub
      (handleSig demoEnv demoCfg demoHubAB (Session.start 5) ⟨"gmk", "", "A", some []⟩).sess
      ⟨"urgstr", "", "", some []⟩).out = [⟨2, sigLine (rmkPacket "B" "A")⟩] ∧
    (handleSig demoEnv demoCfg
      (handleSig demoEnv demoCfg demoHubAB (Session.start 5) ⟨"gmk", "", "A", some []⟩).hub
      (handleSig demoEnv demoCfg demoHubAB (Session.start 5) ⟨"gmk", "", "A", some []⟩).sess
      ⟨"urgstr", "", "", some []⟩).hub.connections.keys = ["B"] := by
  exact ⟨by rfl, by rfl, by rfl, by rfl⟩

/-- C6, amended: on a connection that has sent neither `grtng` nor `gmk` since
it was accepted, whatever else it and the other connections have sent, every
signal packet whose opcode is none of `grtng`, `ighru`, `gmk`, `start_call`,
`gmp`, `offer`, `answer`, `ice` and `hang-up` is ignored: handling it writes no
frame, leaves the connection registry, the key map, the call roster and the
session variables unchanged and does not panic; so a line carrying the packet
changes, as an event of the hub process, neither the maps nor the output nor
the session variables of any connection. -/
theorem C6_before_greeting (env : Env) (cfg : Config) (s0 : System) (events : List Event)
    (conn : Conn) (packet : GMSigPacket)
    (h0 : s0.session conn = Session.start conn)
    (hev : ∀ message, Event.line conn message ∈ events → assignsClientID message = false)
    (h : packet.OpCmd ∉ ["grtng", "ighru", "gmk", "start_call", "gmp", "offer", "answer", "ice",
      "hang-up"]) :
    handleSig env cfg (System.run env cfg s0 events).hub
        ((System.run env cfg s0 events).session conn) packet =
      ⟨(System.run env cfg s0 events).hub, (System.run env cfg s0 events).session conn, [],
        false⟩ ∧
    ∀ message rest, message.data = '0' :: rest →
      DeserializeGMSigPacket (String.mk rest) = some packet →
      (System.step env cfg (System.run env cfg s0 events) (Event.line conn message)).hub =
        (System.run env cfg s0 events).hub ∧
      (System.step env cfg (System.run env cfg s0 events) (Event.line conn message)).out =
        (System.run env cfg s0 events).out ∧
      (System.step env cfg (System.run env cfg s0 events) (Event.line conn message)).crashed =
        (System.run env cfg s0 events).crashed ∧
      ∀ c, (System.step env cfg (System.run env cfg s0 events) (Event.line conn message)).session c =
        (System.run env cfg s0 events).session c := by
  have hid : ((System.run env cfg s0 events).session conn).clientID = "" :=
    session_run_clientID env cfg conn events s0 (by rw [h0]; rfl) hev
  have hsig := handleSig_unset env cfg (System.run env cfg s0 events).hub
    ((System.run env cfg s0 events).session conn) packet hid h
  refine ⟨hsig, ?_⟩
  intro message rest hm hd
  exact step_ignored env cfg _ conn message
    (by rw [handleLine_packet env cfg _ _ message rest packet hm hd]; exact hsig)

/-- Witness for C6: with `A` and `B` registered, connection 5 is new; it sends a
`start_call`, connection 1 sends a `gmk`, and then connection 5 sends an
`urgstr`. -/
theorem C6_before_greeting_witness :
    (⟨demoHubAB, [], [], false⟩ : System).session 5 = Session.start 5 ∧
    (∀ message, Event.line 5 message ∈
        [Event.line 5 ("0" ++ String.mk (marshalSig ⟨"start_call", "", "x", some [9]⟩)),
          Event.line 1 ("0" ++ String.mk (marshalSig ⟨"gmk", "", "A", some []⟩))] →
      assignsClientID message = false) ∧
    (⟨"urgstr", "", "A", some []⟩ : GMSigPacket).OpCmd ∉
      ["grtng", "ighru", "gmk", "start_call", "gmp", "offer", "answer", "ice", "hang-up"] ∧
    handleSig demoEnv demoCfg
        (System.run demoEnv demoCfg ⟨demoHubAB, [], [], false⟩
          [Event.line 5 ("0" ++ String.mk (marshalSig ⟨"start_call", "", "x", some [9]⟩)),
            Event.line 1 ("0" ++ String.mk (marshalSig ⟨"gmk", "", "A", some []⟩))]).hub
        ((System.run demoEnv demoCfg ⟨demoHubAB, [], [], false⟩
          [Event.line 5 ("0" ++ String.mk (marshalSig ⟨"start_call", "", "x", some [9]⟩)),
            Event.line 1 ("0" ++ String.mk (marshalSig ⟨"gmk", "", "A", some []⟩))]).session 5)
        ⟨"urgstr", "", "A", some []⟩ =
      ⟨(System.run demoEnv demoCfg ⟨demoHubAB, [], [], false⟩
          [Event.line 5 ("0" ++ String.mk (marshalSig ⟨"start_call", "", "x", some [9]⟩)),
            Event.line 1 ("0" ++ String.mk (marshalSig ⟨"gmk", "", "A", some []⟩))]).hub,
        (System.run demoEnv demoCfg ⟨demoHubAB, [], [], false⟩
          [Event.line 5 ("0" ++ String.mk (marshalSig ⟨"start_call", "", "x", some [9]⟩)),
            Event.line 1 ("0" ++ String.mk (marshalSig ⟨"gmk", "", "A", some []⟩))]).session 5,
        [], false⟩ :=
  have hev : ∀ message, Event.line 5 message ∈
      [Event.line 5 ("0" ++ String.mk (marshalSig ⟨"start_call", "", "x", some [9]⟩)),
        Event.line 1 ("0" ++ String.mk (marshalSig ⟨"gmk", "", "A", some []⟩))] →
      assignsClientID message = false := by
    intro message hm
    simp only [List.mem_cons, Event.line.injEq, List.mem_singleton, List.not_mem_nil,
      or_false] at hm
    rcases hm with ⟨-, hm⟩ | ⟨h5, -⟩
    · rw [hm, assignsClientID_sig]; rfl
    · exact absurd h5 (by decide)
  ⟨rfl, hev, by decide,
    (C6_before_greeting demoEnv demoCfg ⟨demoHubAB, [], [], false⟩ _ 5
      ⟨"urgstr", "", "A", some []⟩ rfl hev (by decide)).1⟩

/-- C7, the code at the failing input: with `A`, `B` and `C` registered, a `gmk`
from `C` makes the hub write three `ckp` frames to `C`, one of them carrying
`C`'s own key with `C` as sender, followed by the `cup` and the `eok`. -/
theorem C7_gmk_three_clients :
    (handleSig demoEnv demoCfg demoHubABC ⟨3, "C", some (utf8 "C")⟩ ⟨"gmk", "", "C", some []⟩).out =
      [⟨3, sigLine (NewSignalPacketFromData "ckp" "C" "A" (some (utf8 "A")))⟩,
       ⟨3, sigLine (NewSignalPacketFromData "ckp" "C" "B" (some (utf8 "B")))⟩,
       ⟨3, sigLine (NewSignalPacketFromData "ckp" "C" "C" (some (utf8 "C")))⟩,
       ⟨3, sigLine (NewSignalPacketFromData "cup" "C" "" (some (utf8 "general")))⟩,
       ⟨3, sigLine (NewSignalPacketFromData "eok" "C" "" (some []))⟩] ∧
    (handleSig demoEnv demoCfg demoHubABC ⟨3, "C", some (utf8 "C")⟩
      ⟨"gmk", "", "C", some []⟩).out.countP
        (fun w => w.packet.map GMSigPacket.OpCmd = some "ckp") = 3 := by
  have hout : (handleSig demoEnv demoCfg demoHubABC ⟨3, "C", some (utf8 "C")⟩
      ⟨"gmk", "", "C", some []⟩).out =
      [⟨3, sigLine (NewSignalPacketFromData "ckp" "C" "A" (some (utf8 "A")))⟩,
       ⟨3, sigLine (NewSignalPacketFromData "ckp" "C" "B" (some (utf8 "B")))⟩,
       ⟨3, sigLine (NewSignalPacketFromData "ckp" "C" "C" (some (utf8 "C")))⟩,
       ⟨3, sigLine (NewSignalPacketFromData "cup" "C" "" (some (utf8 "general")))⟩,
       ⟨3, sigLine (NewSignalPacketFromData "eok" "C" "" (some []))⟩] := by rfl
  refine ⟨hout, ?_⟩
  rw [hout]
  simp only [List.countP_cons, List.countP_nil, packet_sigLine, Option.map_some',
    NewSignalPacketFromData]
  decide

/-- C8: the frames written in response to one `gmk` are, in this order: frames
that are all `ckp` packets addressed to the requester, then one `cup` per
configured channel whose name could be encrypted, in configured order, then
`eok`; all go to the requesting connection, `eok` is last and occurs once. -/
theorem C8_gmk_frame_sequence (env : Env) (cfg : Config) (hub : Hub) (sess : Session)
    (packet : GMSigPacket) (h : packet.OpCmd = "gmk") :
    ∃ ckps cups : List Write,
      (handleSig env cfg hub sess packet).out =
        ckps ++ cups ++ [⟨sess.conn, sigLine (NewSignalPacketFromData "eok" packet.Sender "" (some []))⟩] ∧
      (∀ w ∈ ckps, w.conn = sess.conn ∧ ∃ id key,
        w.line = sigLine (NewSignalPacketFromData "ckp" packet.Sender id (some key))) ∧
      cups = cfg.channels.filterMap (fun channel =>
        (env.GWEncrypt (utf8 channel) (bytesOf (hub.keyOf packet.Sender))).map fun enc =>
          (⟨sess.conn, sigLine (NewSignalPacketFromData "cup" packet.Sender "" (some enc))⟩ : Write)) ∧
      (handleSig env cfg hub sess packet).out.countP
        (fun w => w.packet.map GMSigPacket.OpCmd = some "eok") = 1 := by
  have hck : ∀ w ∈ gmkKeyFrames env hub sess.conn packet.Sender, w.conn = sess.conn ∧ ∃ id key,
      w.line = sigLine (NewSignalPacketFromData "ckp" packet.Sender id (some key)) := by
    intro w hw
    simp only [gmkKeyFrames, List.mem_flatMap] at hw
    obtain ⟨e, -, hw⟩ := hw
    cases henc : env.GWEncrypt (bytesOf e.2) (bytesOf (hub.keyOf packet.Sender)) with
    | none => simp [henc] at hw
    | some enc =>
      simp only [henc, sendSig_eq, List.mem_singleton] at hw
      subst hw
      exact ⟨rfl, e.1, enc, rfl⟩
  have hcup : gmkChannelFrames env cfg hub sess.conn packet.Sender =
      cfg.channels.filterMap (fun channel =>
        (env.GWEncrypt (utf8 channel) (bytesOf (hub.keyOf packet.Sender))).map fun enc =>
          (⟨sess.conn, sigLine (NewSignalPacketFromData "cup" packet.Sender "" (some enc))⟩ : Write)) := by
    unfold gmkChannelFrames
    induction cfg.channels with
    | nil => rfl
    | cons ch chs ih =>
      rw [List.flatMap_cons, List.filterMap_cons, ih]
      cases env.GWEncrypt (utf8 ch) (bytesOf (hub.keyOf packet.Sender)) with
      | none => rfl
      | some enc => rfl
  have hout : (handleSig env cfg hub sess packet).out =
      gmkKeyFrames env hub sess.conn packet.Sender ++
        gmkChannelFrames env cfg hub sess.conn packet.Sender ++
        [⟨sess.conn, sigLine (NewSignalPacketFromData "eok" packet.Sender "" (some []))⟩] := by
    rw [handleSig_gmk env cfg hub sess packet h]
    simp only [onGmk, sendSig_eq, List.append_assoc]
  refine ⟨_, _, hout, hck, hcup, ?_⟩
  rw [hout, List.countP_append, List.countP_append]
  have z1 : (gmkKeyFrames env hub sess.conn packet.Sender).countP
      (fun w => w.packet.map GMSigPacket.OpCmd = some "eok") = 0 := by
    rw [List.countP_eq_zero]
    intro w hw
    obtain ⟨hc, id, key, hl⟩ := hck w hw
    have : w = ⟨sess.conn, sigLine (NewSignalPacketFromData "ckp" packet.Sender id (some key))⟩ := by
      cases w; simp only at hc hl; rw [hc, hl]
    rw [this, packet_sigLine]
    simp [NewSignalPacketFromData]
  have z2 : (gmkChannelFrames env cfg hub sess.conn packet.Sender).countP
      (fun w => w.packet.map GMSigPacket.OpCmd = some "eok") = 0 := by
    rw [List.countP_eq_zero, hcup]
    intro w hw
    simp only [List.mem_filterMap, Option.map_eq_some'] at hw
    obtain ⟨ch, -, enc, -, hw⟩ := hw
    rw [← hw, packet_sigLine]
    simp [NewSignalPacketFromData]
  rw [z1, z2]
  simp [packet_sigLine, NewSignalPacketFromData]

/-- Witness for C8: a `gmk` packet on the start-up hub. -/
theorem C8_gmk_frame_sequence_witness :
    (⟨"gmk", "", "C", some []⟩ : GMSigPacket).OpCmd = "gmk" ∧
    ∃ ckps cups : List Write,
      (handleSig demoEnv demoCfg Hub.init (Session.start 3) ⟨"gmk", "", "C", some []⟩).out =
        ckps ++ cups ++ [⟨3, sigLine (NewSignalPacketFromData "eok" "C" "" (some []))⟩] :=
  ⟨rfl, by
    obtain ⟨ckps, cups, h, -⟩ :=
      C8_gmk_frame_sequence demoEnv demoCfg Hub.init (Session.start 3) ⟨"gmk", "", "C", some []⟩ rfl
    exact ⟨ckps, cups, h⟩⟩

/-- C9, the code at the failing input: a connection greets as one id, then
sends a `gmk` with a different sender id, and ends with no `urgstr` and no
panic. The client id of the session is then the sender of the `gmk`, and the
cleanup works on that id: the greeted id stays in the connection registry,
still mapped to the ended connection, and in the key map, and no frame written
during the session or by the cleanup is an `rmk` about the greeted id. -/
theorem C9_cleanup_misses_greeted_id (env : Env) (cfg : Config) (hub : Hub) (sess : Session)
    (p1 p2 : GMSigPacket) (h1 : p1.OpCmd = "grtng") (h2 : p2.OpCmd = "gmk")
    (hne : p1.Sender ≠ p2.Sender) :
    (runSession env cfg hub sess
      ["0" ++ String.mk (marshalSig p1), "0" ++ String.mk (marshalSig p2)]).1.connections.get?
        p1.Sender = some sess.conn ∧
    (runSession env cfg hub sess
      ["0" ++ String.mk (marshalSig p1), "0" ++ String.mk (marshalSig p2)]).1.publicKeys.get?
        p1.Sender = some p1.Payload ∧
    (runSession env cfg hub sess
      ["0" ++ String.mk (marshalSig p1), "0" ++ String.mk (marshalSig p2)]).2.2 = false ∧
    ∀ w ∈ (runSession env cfg hub sess
      ["0" ++ String.mk (marshalSig p1), "0" ++ String.mk (marshalSig p2)]).2.1,
      ∀ id, w.line ≠ sigLine (rmkPacket id p1.Sender) := by
  have hg : (onGrtng env cfg hub sess p1).fault = false := rfl
  have hk : ∀ hub1 sess1, (onGmk env cfg hub1 sess1 p2).fault = false := fun _ _ => rfl
  simp only [runSession, handleLine_sig, handleSig_grtng _ _ _ _ _ h1,
    handleSig_gmk _ _ _ _ _ h2, hg, hk, Bool.false_eq_true, if_false]
  refine ⟨?_, ?_, trivial, ?_⟩
  · simp only [onGrtng, onGmk, closeConn]
    by_cases he : p2.Sender = ""
    · simp only [he, ne_eq, not_true_eq_false, if_false]
      exact GoMap.get?_set_self _ _ _
    · simp only [he, ne_eq, not_false_eq_true, if_true]
      rw [GoMap.get?_delete_ne _ _ _ hne, GoMap.get?_set_self]
  · simp only [onGrtng, onGmk, closeConn]
    by_cases he : p2.Sender = ""
    · simp only [he, ne_eq, not_true_eq_false, if_false]
      exact GoMap.get?_set_self _ _ _
    · simp only [he, ne_eq, not_false_eq_true, if_true]
      rw [GoMap.get?_delete_ne _ _ _ hne, GoMap.get?_set_self]
  · intro w hw id hline
    simp only [List.mem_append] at hw
    rcases hw with hw | hw | hw
    · obtain ⟨p, hp, hop⟩ := onGrtng_no_rmk _ _ _ _ _ _ hw
      rw [hline] at hp
      exact hop (by rw [← sigLine_injective _ _ hp]; rfl)
    · obtain ⟨p, hp, hop⟩ := onGmk_no_rmk _ _ _ _ _ _ hw
      rw [hline] at hp
      exact hop (by rw [← sigLine_injective _ _ hp]; rfl)
    · obtain ⟨id2, hp⟩ := mem_closeConn _ _ _ _ hw
      rw [hline] at hp
      have hs := congrArg GMSigPacket.Sender (sigLine_injective _ _ hp)
      exact hne hs

/-- Witness for C9: with `A` registered on connection 1, connection 2 greets as
`B`, sends a `gmk` with the sender `C`, and ends: `B` is still registered. -/
theorem C9_cleanup_misses_greeted_id_witness :
    (⟨"grtng", "", "B", some [2]⟩ : GMSigPacket).OpCmd = "grtng" ∧
    (⟨"gmk", "", "C", some []⟩ : GMSigPacket).OpCmd = "gmk" ∧
    (⟨"grtng", "", "B", some [2]⟩ : GMSigPacket).Sender ≠
      (⟨"gmk", "", "C", some []⟩ : GMSigPacket).Sender ∧
    (runSession demoEnv demoCfg demoHubA (Session.start 2)
      ["0" ++ String.mk (marshalSig ⟨"grtng", "", "B", some [2]⟩),
       "0" ++ String.mk (marshalSig ⟨"gmk", "", "C", some []⟩)]).1.connections.get? "B" =
      some 2 ∧
    ∀ w ∈ (runSession demoEnv demoCfg demoHubA (Session.start 2)
      ["0" ++ String.mk (marshalSig ⟨"grtng", "", "B", some [2]⟩),
       "0" ++ String.mk (marshalSig ⟨"gmk", "", "C", some []⟩)]).2.1,
      ∀ id, w.line ≠ sigLine (rmkPacket id "B") :=
  ⟨rfl, rfl, by decide,
    (C9_cleanup_misses_greeted_id demoEnv demoCfg demoHubA (Session.start 2)
      ⟨"grtng", "", "B", some [2]⟩ ⟨"gmk", "", "C", some []⟩ rfl rfl (by decide)).1,
    (C9_cleanup_misses_greeted_id demoEnv demoCfg demoHubA (Session.start 2)
      ⟨"grtng", "", "B", some [2]⟩ ⟨"gmk", "", "C", some []⟩ rfl rfl (by decide)).2.2.2⟩

/-- C10 as stated fails: `A` and `B` are registered, `A` sends `urgstr` and its
connection then closes: `B` is sent the `rmk` about `A` twice; and a
`start_call` that arrives after the `urgstr` is processed and answered. -/
theorem C10_counterexample :
    (runSession demoEnv demoCfg demoHubAB ⟨1, "A", some (utf8 "A")⟩
      ["0" ++ String.mk (marshalSig ⟨"urgstr", "", "A", some []⟩)]).2.1 =
      [⟨2, sigLine (rmkPacket "B" "A")⟩, ⟨2, sigLine (rmkPacket "B" "A")⟩] ∧
    (runSession demoEnv demoCfg demoHubAB ⟨1, "A", some (utf8 "A")⟩
      ["0" ++ String.mk (marshalSig ⟨"urgstr", "", "A", some []⟩),
       "0" ++ String.mk (marshalSig ⟨"start_call", "", "A", some [9]⟩)]).2.1 =
      [⟨2, sigLine (rmkPacket "B" "A")⟩,
       ⟨1, sigLine (NewSignalPacketFromData "call_active" "A" "" (some []))⟩,
       ⟨2, sigLine (rmkPacket "B" "A")⟩] := by
  constructor
  · simp only [runSession, handleLine_sig]
    rfl
  · simp only [runSession, handleLine_sig]
    rfl

/-- C10, amended: an `urgstr` line does to the shared maps what a disconnect
does and writes the same frames (the client is removed from the connection
registry and the key map and every remaining client is sent one `rmk`), but
the session is not ended by it: its variables are kept, and the lines that
follow on the connection are handled as usual, starting from that state. -/
theorem C10_urgstr_unregisters (env : Env) (cfg : Config) (hub : Hub) (sess : Session)
    (message : String) (body : List Char) (packet : GMSigPacket) (rest : List String)
    (hm : message.data = '0' :: body)
    (hd : DeserializeGMSigPacket (String.mk body) = some packet)
    (hop : packet.OpCmd = "urgstr") :
    handleLine env cfg hub sess message =
      ⟨(closeConn env hub sess).1, sess, (closeConn env hub sess).2, false⟩ ∧
    runSession env cfg hub sess (message :: rest) =
      ((runSession env cfg (closeConn env hub sess).1 sess rest).1,
        (closeConn env hub sess).2 ++ (runSession env cfg (closeConn env hub sess).1 sess rest).2.1,
        (runSession env cfg (closeConn env hub sess).1 sess rest).2.2) := by
  have hl : handleLine env cfg hub sess message =
      ⟨(closeConn env hub sess).1, sess, (closeConn env hub sess).2, false⟩ := by
    simp only [handleLine, hm, if_true, hd]
    rw [handleSig_urgstr env cfg hub sess packet hop]
    unfold onUrgstr closeConn
    by_cases hc : sess.clientID = ""
    · simp [hc]
    · simp [hc]
  refine ⟨hl, ?_⟩
  rw [runSession, hl]
  simp

/-- Witness for C10: the `urgstr` line of client `A`. -/
theorem C10_urgstr_unregisters_witness :
    ("0" ++ String.mk (marshalSig ⟨"urgstr", "", "A", some []⟩)).data =
      '0' :: marshalSig ⟨"urgstr", "", "A", some []⟩ ∧
    (⟨"urgstr", "", "A", some []⟩ : GMSigPacket).OpCmd = "urgstr" ∧
    handleLine demoEnv demoCfg demoHubAB ⟨1, "A", some (utf8 "A")⟩
      ("0" ++ String.mk (marshalSig ⟨"urgstr", "", "A", some []⟩)) =
      ⟨(closeConn demoEnv demoHubAB ⟨1, "A", some (utf8 "A")⟩).1, ⟨1, "A", some (utf8 "A")⟩,
        (closeConn demoEnv demoHubAB ⟨1, "A", some (utf8 "A")⟩).2, false⟩ :=
  ⟨rfl, rfl,
    (C10_urgstr_unregisters demoEnv demoCfg demoHubAB ⟨1, "A", some (utf8 "A")⟩
      ("0" ++ String.mk (marshalSig ⟨"urgstr", "", "A", some []⟩))
      (marshalSig ⟨"urgstr", "", "A", some []⟩) ⟨"urgstr", "", "A", some []⟩ [] rfl
      (deserialize_marshalSig _) rfl).1⟩

/-- C11, the code at the failing input: a connection greets as one id, greets
again as a different id, and ends without a panic; the cleanup removes only
the id greeted last, and the first id stays in the connection registry, still
mapped to the ended connection, and in the key map. -/
theorem C11_second_greeting_leaves_entry (env : Env) (cfg : Config) (hub : Hub) (sess : Session)
    (p1 p2 : GMSigPacket) (h1 : p1.OpCmd = "grtng") (h2 : p2.OpCmd = "grtng")
    (hne : p1.Sender ≠ p2.Sender) :
    (runSession env cfg hub sess
      ["0" ++ String.mk (marshalSig p1), "0" ++ String.mk (marshalSig p2)]).1.connections.get?
        p1.Sender = some sess.conn ∧
    (runSession env cfg hub sess
      ["0" ++ String.mk (marshalSig p1), "0" ++ String.mk (marshalSig p2)]).1.publicKeys.get?
        p1.Sender = some p1.Payload ∧
    (runSession env cfg hub sess
      ["0" ++ String.mk (marshalSig p1), "0" ++ String.mk (marshalSig p2)]).2.2 = false := by
  simp only [runSession, handleLine_sig, handleSig_grtng _ _ _ _ _ h1,
    handleSig_grtng _ _ _ _ _ h2, onGrtng, Bool.false_eq_true, if_false, closeConn]
  by_cases he : p2.Sender = ""
  · simp only [he, ne_eq, not_true_eq_false, if_false]
    rw [he] at hne
    exact ⟨by rw [GoMap.get?_set_ne _ _ _ _ hne, GoMap.get?_set_self],
      by rw [GoMap.get?_set_ne _ _ _ _ hne, GoMap.get?_set_self], trivial⟩
  · simp only [he, ne_eq, not_false_eq_true, if_true]
    exact ⟨by rw [GoMap.get?_delete_ne _ _ _ hne, GoMap.get?_set_ne _ _ _ _ hne,
        GoMap.get?_set_self],
      by rw [GoMap.get?_delete_ne _ _ _ hne, GoMap.get?_set_ne _ _ _ _ hne,
        GoMap.get?_set_self], trivial⟩

/-- Witness for C11: connection 1 greets as `X`, then as `Y`, then ends. -/
theorem C11_second_greeting_leaves_entry_witness :
    (⟨"grtng", "", "X", some [1]⟩ : GMSigPacket).OpCmd = "grtng" ∧
    (⟨"grtng", "", "Y", some [2]⟩ : GMSigPacket).OpCmd = "grtng" ∧
    (⟨"grtng", "", "X", some [1]⟩ : GMSigPacket).Sender ≠
      (⟨"grtng", "", "Y", some [2]⟩ : GMSigPacket).Sender ∧
    (runSession demoEnv demoCfg Hub.init (Session.start 1)
      ["0" ++ String.mk (marshalSig ⟨"grtng", "", "X", some [1]⟩),
       "0" ++ String.mk (marshalSig ⟨"grtng", "", "Y", some [2]⟩)]).1.connections.get? "X" =
      some 1 :=
  ⟨rfl, rfl, by decide,
    (C11_second_greeting_leaves_entry demoEnv demoCfg Hub.init (Session.start 1)
      ⟨"grtng", "", "X", some [1]⟩ ⟨"grtng", "", "Y", some [2]⟩ rfl rfl (by decide)).1⟩

/-- C12 as stated fails: `A` is registered with a key and `Z` with an empty key,
to which nothing can be encrypted; a valid type-1 frame is forwarded to `A` only,
and `Z`, though in the connection registry, is sent nothing. -/
theorem C12_counterexample :
    demoHubAZ.connections.entries = [("A", 1), ("Z", 2)] ∧
    handleDataPacket strictEnv demoCfg demoHubAZ demoChatBody =
      [⟨1, "1" ++ demoChatBody ++ "\n"⟩] := by
  refine ⟨by rfl, ?_⟩
  have hp : DeserializeGMDataPacket
      (String.mk (utf8DecodeLossy (utf8 (String.mk (marshalData demoChat))))) = some demoChat := by
    rw [utf8DecodeLossy_utf8]
    exact deserialize_marshalData demoChat
  rw [handleDataPacket_valid strictEnv demoCfg demoHubAZ demoChatBody _ _ demoChat
    (b64Decode_encode _) rfl hp]
  have he : strictEnv.connOrder.apply demoHubAZ.connections.entries = [("A", 1), ("Z", 2)] := by
    rfl
  have hA : demoHubAZ.keyOf "A" = some (utf8 "A") := by rfl
  have hZ : demoHubAZ.keyOf "Z" = some [] := by rfl
  have hne : utf8 "A" ≠ [] := by decide
  simp only [he, List.filterMap_cons, List.filterMap_nil, hA, hZ, SendDataPacket,
    SerializeGMDataPacket, strictEnv, bytesOf, Option.getD_some, hne, if_false, if_true,
    Option.map_some', Option.map_none']
  rfl

/-- C12, amended: for every valid type-1 frame received by the hub, the frames
written by `handleDataPacket` are, up to order, exactly one per entry of the
connection registry for whose stored key the encryption succeeds (the original
sender included): the frame is written to that client's connection and is the
type-1 frame of the received packet encrypted to the key stored for that
client, which a receiver whose decryption inverts that encryption reads back
as the received packet; nothing else is written. -/
theorem C12_data_fan_out (env : Env) (cfg : Config) (hub : Hub) (message : String)
    (decoded decrypted : Bytes) (packet : GMDataPacket)
    (hb : b64Decode message.data = some decoded) (hd : env.GWDecrypt decoded = some decrypted)
    (hp : DeserializeGMDataPacket (String.mk (utf8DecodeLossy decrypted)) = some packet) :
    (handleDataPacket env cfg hub message).Perm
      (hub.connections.entries.filterMap fun e =>
        (SendDataPacket env packet (hub.keyOf e.1)).map fun line => (⟨e.2, line⟩ : Write)) ∧
    (∀ id conn line, hub.connections.get? id = some conn →
      SendDataPacket env packet (hub.keyOf id) = some line →
      (⟨conn, line⟩ : Write) ∈ handleDataPacket env cfg hub message ∧
      ∀ decrypt : Bytes → Option Bytes,
        (∀ m c, env.GWEncrypt m (bytesOf (hub.keyOf id)) = some c → decrypt c = some m) →
        Write.dataPacket decrypt ⟨conn, line⟩ = some packet) ∧
    (∀ w ∈ handleDataPacket env cfg hub message, ∃ id,
      hub.connections.get? id = some w.conn ∧
      SendDataPacket env packet (hub.keyOf id) = some w.line) := by
  rw [handleDataPacket_valid env cfg hub message decoded decrypted packet hb hd hp]
  refine ⟨(env.connOrder.perm _).filterMap _, ?_, ?_⟩
  · intro id conn line hget hs
    refine ⟨?_, fun decrypt hinv => dataPacket_sendDataPacket env packet _ line conn decrypt hs hinv⟩
    rw [List.mem_filterMap]
    refine ⟨(id, conn), ?_, by simp [hs]⟩
    rw [(env.connOrder.perm _).mem_iff]
    exact (GoMap.get?_eq_some_iff _ _ _).mp hget
  · intro w hw
    rw [List.mem_filterMap] at hw
    obtain ⟨e, he, hw⟩ := hw
    rw [(env.connOrder.perm _).mem_iff] at he
    cases hs : SendDataPacket env packet (hub.keyOf e.1) with
    | none => simp [hs] at hw
    | some line =>
      simp only [hs, Option.map_some', Option.some.injEq] at hw
      subst hw
      exact ⟨e.1, (GoMap.get?_eq_some_iff _ _ _).mpr he, hs⟩

/-- Witness for C12: the example chat frame arrives at the hub with `A` and `B`
registered, and `B` is sent its frame. -/
theorem C12_data_fan_out_witness :
    b64Decode demoChatBody.data = some (utf8 (String.mk (marshalData demoChat))) ∧
    demoEnv.GWDecrypt (utf8 (String.mk (marshalData demoChat))) =
      some (utf8 (String.mk (marshalData demoChat))) ∧
    DeserializeGMDataPacket
      (String.mk (utf8DecodeLossy (utf8 (String.mk (marshalData demoChat))))) = some demoChat ∧
    (⟨2, "1" ++ demoChatBody ++ "\n"⟩ : Write) ∈
      handleDataPacket demoEnv demoCfg demoHubAB demoChatBody :=
  ⟨b64Decode_encode _, rfl,
    by rw [utf8DecodeLossy_utf8]; exact deserialize_marshalData demoChat,
    ((C12_data_fan_out demoEnv demoCfg demoHubAB demoChatBody _ _ demoChat
      (b64Decode_encode _) rfl
      (by rw [utf8DecodeLossy_utf8]; exact deserialize_marshalData demoChat)).2.1
      "B" 2 ("1" ++ demoChatBody ++ "\n") (by rfl) (by rfl)).1⟩

/-- C13: for every valid type-2 frame received by the hub, every frame that
`handleStreamPacket` writes goes to the connection registered for an id that
is listed in the `r` field of the packet, and is the type-2 frame of the
received packet encrypted to the key stored for that id; so a connection that
is not registered for any listed id is written nothing, and a listed id that
is not registered causes no write. -/
theorem C13_stream_fan_out (env : Env) (hub : Hub) (message : String)
    (decoded decrypted : Bytes) (packet : GMStreamPacket)
    (hb : b64Decode message.data = some decoded) (hd : env.GWDecrypt decoded = some decrypted)
    (hp : DeserializeGMStreamPacket (String.mk (utf8DecodeLossy decrypted)) = some packet) :
    (∀ w ∈ handleStreamPacket env hub message, ∃ id,
      id ∈ packet.Recipients.getD [] ∧ hub.connections.get? id = some w.conn ∧
      SendStreamPacket env packet (hub.keyOf id) = some w.line) ∧
    (∀ conn, (∀ id ∈ packet.Recipients.getD [], hub.connections.get? id ≠ some conn) →
      ∀ w ∈ handleStreamPacket env hub message, w.conn ≠ conn) := by
  have key : ∀ w ∈ handleStreamPacket env hub message, ∃ id,
      id ∈ packet.Recipients.getD [] ∧ hub.connections.get? id = some w.conn ∧
      SendStreamPacket env packet (hub.keyOf id) = some w.line := by
    intro w hw
    obtain ⟨d1, d2, p, id, h1, h2, h3, hid, hc, hs⟩ := mem_handleStreamPacket env hub message w hw
    rw [hb] at h1
    obtain rfl := Option.some.inj h1
    rw [hd] at h2
    obtain rfl := Option.some.inj h2
    rw [hp] at h3
    obtain rfl := Option.some.inj h3
    exact ⟨id, hid, hc, hs⟩
  refine ⟨key, ?_⟩
  intro conn hconn w hw hwc
  obtain ⟨id, hid, hc, -⟩ := key w hw
  exact hconn id hid (hwc ▸ hc)

/-- Witness for C13: the example stream frame lists `B` and `Q`; with `A` and `B`
registered, nothing is written to the connection of `A`. -/
theorem C13_stream_fan_out_witness :
    b64Decode demoStreamBody.data = some (utf8 (String.mk (marshalStream demoStream))) ∧
    demoEnv.GWDecrypt (utf8 (String.mk (marshalStream demoStream))) =
      some (utf8 (String.mk (marshalStream demoStream))) ∧
    DeserializeGMStreamPacket
      (String.mk (utf8DecodeLossy (utf8 (String.mk (marshalStream demoStream))))) =
        some demoStream ∧
    ∀ w ∈ handleStreamPacket demoEnv demoHubAB demoStreamBody, w.conn ≠ 1 :=
  ⟨b64Decode_encode _, rfl,
    by rw [utf8DecodeLossy_utf8]; exact deserialize_marshalStream demoStream,
    (C13_stream_fan_out demoEnv demoHubAB demoStreamBody _ _ demoStream
      (b64Decode_encode _) rfl
      (by rw [utf8DecodeLossy_utf8]; exact deserialize_marshalStream demoStream)).2 1
      (by decide)⟩

/-- C14: for every `offer`, `answer` or `ice` signal whose destination is
registered, the hub writes exactly one frame, to the connection registered for
the destination: the signal frame with the received opcode, destination,
sender and payload, which the receiver reads back as such; the connection
registry, the key map, the call roster and the session variables are
unchanged and there is no panic. -/
theorem C14_relay_to_registered (env : Env) (cfg : Config) (hub : Hub) (sess : Session)
    (packet : GMSigPacket) (conn : Conn)
    (hop : packet.OpCmd = "offer" ∨ packet.OpCmd = "answer" ∨ packet.OpCmd = "ice")
    (hget : hub.connections.get? packet.Destination = some conn) :
    handleSig env cfg hub sess packet =
      ⟨hub, sess,
        [⟨conn, sigLine (NewSignalPacketFromData packet.OpCmd packet.Destination packet.Sender
          packet.Payload)⟩], false⟩ ∧
    Write.packet ⟨conn, sigLine (NewSignalPacketFromData packet.OpCmd packet.Destination
      packet.Sender packet.Payload)⟩ =
      some ⟨packet.OpCmd, packet.Destination, packet.Sender, packet.Payload⟩ := by
  refine ⟨?_, packet_sigLine _ _⟩
  rw [handleSig_relay env cfg hub sess packet hop]
  simp only [relaySignal, hget, sendSig_eq]

/-- Witness for C14: `A` sends an `offer` for the registered `B`. -/
theorem C14_relay_to_registered_witness :
    ((⟨"offer", "B", "A", some [5]⟩ : GMSigPacket).OpCmd = "offer" ∨
      (⟨"offer", "B", "A", some [5]⟩ : GMSigPacket).OpCmd = "answer" ∨
      (⟨"offer", "B", "A", some [5]⟩ : GMSigPacket).OpCmd = "ice") ∧
    demoHubAB.connections.get? "B" = some 2 ∧
    handleSig demoEnv demoCfg demoHubAB ⟨1, "A", some (utf8 "A")⟩ ⟨"offer", "B", "A", some [5]⟩ =
      ⟨demoHubAB, ⟨1, "A", some (utf8 "A")⟩,
        [⟨2, sigLine (NewSignalPacketFromData "offer" "B" "A" (some [5]))⟩], false⟩ :=
  ⟨Or.inl rfl, by rfl,
    (C14_relay_to_registered demoEnv demoCfg demoHubAB ⟨1, "A", some (utf8 "A")⟩
      ⟨"offer", "B", "A", some [5]⟩ 2 (Or.inl rfl) (by rfl)).1⟩

/-- C15, the code at the failing input: for an `offer`, `answer` or `ice` signal
whose destination is not in the connection registry, the handler wraps the nil
connection in a writer and the flush panics: the handler ends with a run-time
panic and has written nothing; while it unwinds the deferred cleanup of the
connection runs, as at the end of input, and then the process has stopped: no
further line of any connection is handled. -/
theorem C15_relay_to_unregistered (env : Env) (cfg : Config) (hub : Hub) (sess : Session)
    (packet : GMSigPacket) (rest : List String)
    (hop : packet.OpCmd = "offer" ∨ packet.OpCmd = "answer" ∨ packet.OpCmd = "ice")
    (hget : hub.connections.get? packet.Destination = none) :
    handleSig env cfg hub sess packet = ⟨hub, sess, [], true⟩ ∧
    runSession env cfg hub sess (("0" ++ String.mk (marshalSig packet)) :: rest) =
      ((closeConn env hub sess).1, (closeConn env hub sess).2, true) := by
  have h : handleSig env cfg hub sess packet = ⟨hub, sess, [], true⟩ := by
    rw [handleSig_relay env cfg hub sess packet hop]
    simp only [relaySignal, hget]
  refine ⟨h, ?_⟩
  rw [runSession, handleLine_sig, h]
  rfl

/-- Witness for C15: `A` sends an `offer` for `Q`, which is not registered. -/
theorem C15_relay_to_unregistered_witness :
    ((⟨"offer", "Q", "A", some [5]⟩ : GMSigPacket).OpCmd = "offer" ∨
      (⟨"offer", "Q", "A", some [5]⟩ : GMSigPacket).OpCmd = "answer" ∨
      (⟨"offer", "Q", "A", some [5]⟩ : GMSigPacket).OpCmd = "ice") ∧
    demoHubAB.connections.get? "Q" = none ∧
    handleSig demoEnv demoCfg demoHubAB ⟨1, "A", some (utf8 "A")⟩ ⟨"offer", "Q", "A", some [5]⟩ =
      ⟨demoHubAB, ⟨1, "A", some (utf8 "A")⟩, [], true⟩ :=
  ⟨Or.inl rfl, by rfl,
    (C15_relay_to_unregistered demoEnv demoCfg demoHubAB ⟨1, "A", some (utf8 "A")⟩
      ⟨"offer", "Q", "A", some [5]⟩ [] (Or.inl rfl) (by rfl)).1⟩

/-- C16: `start_call` with payload `c` from sender `S` appends `S` to the end of
the roster of call `c`, which becomes `[S]` when `c` had no entry, and leaves
the roster of every other call unchanged; the only frame written is one
`call_active`, to the requesting connection; the connection registry and the
key map are unchanged. -/
theorem C16_start_call (env : Env) (cfg : Config) (hub : Hub) (sess : Session)
    (packet : GMSigPacket) (hop : packet.OpCmd = "start_call") :
    (handleSig env cfg hub sess packet).hub.activeCalls.get? (bytesOf packet.Payload) =
      some ((hub.activeCalls.get? (bytesOf packet.Payload)).getD [] ++ [packet.Sender]) ∧
    (hub.activeCalls.get? (bytesOf packet.Payload) = none →
      (handleSig env cfg hub sess packet).hub.activeCalls.get? (bytesOf packet.Payload) =
        some [packet.Sender]) ∧
    (∀ c, c ≠ bytesOf packet.Payload →
      (handleSig env cfg hub sess packet).hub.activeCalls.get? c = hub.activeCalls.get? c) ∧
    (handleSig env cfg hub sess packet).out =
      [⟨sess.conn, sigLine (NewSignalPacketFromData "call_active" sess.clientID "" (some []))⟩] ∧
    (handleSig env cfg hub sess packet).hub.connections = hub.connections ∧
    (handleSig env cfg hub sess packet).hub.publicKeys = hub.publicKeys ∧
    (handleSig env cfg hub sess packet).fault = false := by
  rw [handleSig_start_call env cfg hub sess packet hop]
  refine ⟨GoMap.get?_set_self _ _ _, ?_, fun c hc => GoMap.get?_set_ne _ _ _ _ hc, rfl, rfl, rfl,
    rfl⟩
  intro hnone
  show (hub.activeCalls.set _ _).get? _ = _
  rw [GoMap.get?_set_self, hnone]
  rfl

/-- Witness for C16: `A` starts call `[9]` on a hub without calls. -/
theorem C16_start_call_witness :
    (⟨"start_call", "", "A", some [9]⟩ : GMSigPacket).OpCmd = "start_call" ∧
    (handleSig demoEnv demoCfg demoHubAB ⟨1, "A", some (utf8 "A")⟩
      ⟨"start_call", "", "A", some [9]⟩).hub.activeCalls.get? [9] = some ["A"] :=
  ⟨rfl,
    (C16_start_call demoEnv demoCfg demoHubAB ⟨1, "A", some (utf8 "A")⟩
      ⟨"start_call", "", "A", some [9]⟩ rfl).2.1 (by rfl)⟩

/-- C17: `gmp` with a call id that has no entry in the call roster makes the hub
write exactly one frame, a `c404`, to the requesting connection, and leaves the
call roster (and all other state) unchanged: no entry is created. -/
theorem C17_gmp_unknown_call (env : Env) (cfg : Config) (hub : Hub) (sess : Session)
    (packet : GMSigPacket) (hop : packet.OpCmd = "gmp")
    (hnone : hub.activeCalls.get? (bytesOf packet.Payload) = none) :
    handleSig env cfg hub sess packet =
      ⟨hub, sess,
        [⟨sess.conn, sigLine (NewSignalPacketFromData "c404" sess.clientID "" (some []))⟩],
        false⟩ := by
  rw [handleSig_gmp env cfg hub sess packet hop]
  simp only [onGmp, hnone, sendSig_eq]

/-- Witness for C17: `B` asks for the participants of a call that does not exist. -/
theorem C17_gmp_unknown_call_witness :
    (⟨"gmp", "", "B", some (utf8 "nope")⟩ : GMSigPacket).OpCmd = "gmp" ∧
    demoHubAB.activeCalls.get? (bytesOf (some (utf8 "nope"))) = none ∧
    handleSig demoEnv demoCfg demoHubAB ⟨2, "B", some (utf8 "B")⟩
      ⟨"gmp", "", "B", some (utf8 "nope")⟩ =
      ⟨demoHubAB, ⟨2, "B", some (utf8 "B")⟩,
        [⟨2, sigLine (NewSignalPacketFromData "c404" "B" "" (some []))⟩], false⟩ :=
  ⟨rfl, by rfl,
    C17_gmp_unknown_call demoEnv demoCfg demoHubAB ⟨2, "B", some (utf8 "B")⟩
      ⟨"gmp", "", "B", some (utf8 "nope")⟩ rfl (by rfl)⟩

/-- C18: `gmp` from sender `S` with a call id that has a roster appends `S` to
that roster, leaves every other roster unchanged, and writes to the requesting
connection one `participent` frame per earlier roster entry different from
`S`, in roster order, each with that participant as destination (and `S` as
sender); every frame written is a `participent`, so no `c404` is sent. -/
theorem C18_gmp_known_call (env : Env) (cfg : Config) (hub : Hub) (sess : Session)
    (packet : GMSigPacket) (participants : List String) (hop : packet.OpCmd = "gmp")
    (hsome : hub.activeCalls.get? (bytesOf packet.Payload) = some participants) :
    (handleSig env cfg hub sess packet).hub.activeCalls.get? (bytesOf packet.Payload) =
      some (participants ++ [packet.Sender]) ∧
    (∀ c, c ≠ bytesOf packet.Payload →
      (handleSig env cfg hub sess packet).hub.activeCalls.get? c = hub.activeCalls.get? c) ∧
    (handleSig env cfg hub sess packet).out =
      (participants.filter fun participant => participant ≠ packet.Sender).map
        (fun participant =>
          (⟨sess.conn, sigLine (NewSignalPacketFromData "participent" participant packet.Sender
            (some (utf8 participant)))⟩ : Write)) ∧
    (∀ w ∈ (handleSig env cfg hub sess packet).out,
      w.packet.map GMSigPacket.OpCmd = some "participent") := by
  have hout : (handleSig env cfg hub sess packet).out =
      (participants.filter fun participant => participant ≠ packet.Sender).map
        (fun participant =>
          (⟨sess.conn, sigLine (NewSignalPacketFromData "participent" participant packet.Sender
            (some (utf8 participant)))⟩ : Write)) := by
    rw [handleSig_gmp env cfg hub sess packet hop]
    simp only [onGmp, hsome]
    exact participent_frames sess.conn packet.Sender participants
  refine ⟨?_, ?_, hout, ?_⟩
  · rw [handleSig_gmp env cfg hub sess packet hop]
    simp only [onGmp, hsome]
    exact GoMap.get?_set_self _ _ _
  · intro c hc
    rw [handleSig_gmp env cfg hub sess packet hop]
    simp only [onGmp, hsome]
    exact GoMap.get?_set_ne _ _ _ _ hc
  · intro w hw
    rw [hout, List.mem_map] at hw
    obtain ⟨p, -, rfl⟩ := hw
    rw [packet_sigLine]
    rfl

/-- Witness for C18: `B` joins the call `[9]` that `A` started. -/
theorem C18_gmp_known_call_witness :
    (⟨"gmp", "", "B", some [9]⟩ : GMSigPacket).OpCmd = "gmp" ∧
    demoHubCall.activeCalls.get? (bytesOf (some [9])) = some ["A"] ∧
    (handleSig demoEnv demoCfg demoHubCall ⟨2, "B", some (utf8 "B")⟩
      ⟨"gmp", "", "B", some [9]⟩).hub.activeCalls.get? [9] = some ["A", "B"] :=
  ⟨rfl, by rfl,
    (C18_gmp_known_call demoEnv demoCfg demoHubCall ⟨2, "B", some (utf8 "B")⟩
      ⟨"gmp", "", "B", some [9]⟩ ["A"] rfl (by rfl)).1⟩

/-- C19 as stated fails: `A` (connection 1) has started call `[9]`, `B`
(connection 2) sends `gmp` for it: the only frame written is a `participent`
on the connection of `B`, with destination `A` and sender `B`; nothing is
written to the connection of `A`. -/
theorem C19_counterexample :
    (handleSig demoEnv demoCfg demoHubCall ⟨2, "B", some (utf8 "B")⟩
      ⟨"gmp", "", "B", some [9]⟩).out =
      [⟨2, sigLine (NewSignalPacketFromData "participent" "A" "B" (some (utf8 "A")))⟩] ∧
    demoHubCall.connections.entries = [("A", 1), ("B", 2)] ∧
    demoHubCall.activeCalls.entries = [([9], ["A"])] := by
  exact ⟨by rfl, by rfl, by rfl⟩

/-- C19, amended: when `A` has created call `X` with `start_call` and `B`, a
different id, then sends `gmp` with `X`, the hub writes exactly one frame: a
`participent` whose destination is `A` and whose sender is `B`, on the
connection of the requester `B`. -/
theorem C19_participent_to_requester (env : Env) (cfg : Config) (hub : Hub)
    (sessA sessB : Session) (pA pB : GMSigPacket)
    (hA : pA.OpCmd = "start_call") (hB : pB.OpCmd = "gmp")
    (hX : bytesOf pB.Payload = bytesOf pA.Payload)
    (hnew : hub.activeCalls.get? (bytesOf pA.Payload) = none)
    (hne : pA.Sender ≠ pB.Sender) :
    (handleSig env cfg (handleSig env cfg hub sessA pA).hub sessB pB).out =
      [⟨sessB.conn, sigLine (NewSignalPacketFromData "participent" pA.Sender pB.Sender
        (some (utf8 pA.Sender)))⟩] := by
  have hroster : (handleSig env cfg hub sessA pA).hub.activeCalls.get? (bytesOf pB.Payload) =
      some [pA.Sender] := by
    rw [hX, handleSig_start_call env cfg hub sessA pA hA]
    show (hub.activeCalls.set _ _).get? _ = _
    rw [GoMap.get?_set_self, hnew]
    rfl
  rw [handleSig_gmp env cfg _ sessB pB hB]
  simp only [onGmp, hroster]
  rw [participent_frames]
  simp [hne]

/-- Witness for C19: `A` starts call `[9]`, `B` asks for its participants. -/
theorem C19_participent_to_requester_witness :
    (⟨"start_call", "", "A", some [9]⟩ : GMSigPacket).OpCmd = "start_call" ∧
    (⟨"gmp", "", "B", some [9]⟩ : GMSigPacket).OpCmd = "gmp" ∧
    demoHubAB.activeCalls.get? (bytesOf (some [9])) = none ∧
    (handleSig demoEnv demoCfg
      (handleSig demoEnv demoCfg demoHubAB ⟨1, "A", some (utf8 "A")⟩
        ⟨"start_call", "", "A", some [9]⟩).hub
      ⟨2, "B", some (utf8 "B")⟩ ⟨"gmp", "", "B", some [9]⟩).out =
      [⟨2, sigLine (NewSignalPacketFromData "participent" "A" "B" (some (utf8 "A")))⟩] :=
  ⟨rfl, rfl, by rfl,
    C19_participent_to_requester demoEnv demoCfg demoHubAB ⟨1, "A", some (utf8 "A")⟩
      ⟨2, "B", some (utf8 "B")⟩ ⟨"start_call", "", "A", some [9]⟩ ⟨"gmp", "", "B", some [9]⟩
      rfl rfl rfl (by rfl) (by decide)⟩

/-- C20: `hang-up` with payload `c` from sender `S`: when `c` has a roster, the
new roster of `c` is the old one without the occurrences of `S`, the others in
their order, and the entry of `c` is deleted when nothing is left; when `c` has
no roster, the hub state is unchanged; in both cases the roster of every other
call, the connection registry and the key map are unchanged and no frame is
written. -/
theorem C20_hang_up (env : Env) (cfg : Config) (hub : Hub) (sess : Session)
    (packet : GMSigPacket) (hop : packet.OpCmd = "hang-up") :
    (∀ participants, hub.activeCalls.get? (bytesOf packet.Payload) = some participants →
      (handleSig env cfg hub sess packet).hub.activeCalls.get? (bytesOf packet.Payload) =
        if (participants.filter fun participant => participant ≠ packet.Sender) = [] then none
        else some (participants.filter fun participant => participant ≠ packet.Sender)) ∧
    (hub.activeCalls.get? (bytesOf packet.Payload) = none →
      handleSig env cfg hub sess packet = ⟨hub, sess, [], false⟩) ∧
    (∀ c, c ≠ bytesOf packet.Payload →
      (handleSig env cfg hub sess packet).hub.activeCalls.get? c = hub.activeCalls.get? c) ∧
    (handleSig env cfg hub sess packet).out = [] ∧
    (handleSig env cfg hub sess packet).hub.connections = hub.connections ∧
    (handleSig env cfg hub sess packet).hub.publicKeys = hub.publicKeys := by
  rw [handleSig_hang_up env cfg hub sess packet hop]
  cases hget : hub.activeCalls.get? (bytesOf packet.Payload) with
  | none =>
    have h : onHangUp hub sess packet = ⟨hub, sess, [], false⟩ := by
      simp only [onHangUp, hget]
    rw [h]
    exact ⟨fun _ hp => by simp at hp, fun _ => rfl, fun _ _ => rfl, rfl, rfl, rfl⟩
  | some ps =>
    by_cases hf : (ps.filter fun participant => participant ≠ packet.Sender) = []
    · have h : onHangUp hub sess packet =
          ⟨{ hub with activeCalls := hub.activeCalls.delete (bytesOf packet.Payload) }, sess, [],
            false⟩ := by
        simp only [onHangUp, hget, hf, List.length_nil, gt_iff_lt, Nat.lt_irrefl, if_false]
      rw [h]
      refine ⟨?_, fun hp => by simp at hp, fun c hc => GoMap.get?_delete_ne _ _ _ hc, rfl, rfl,
        rfl⟩
      intro participants hp
      obtain rfl := Option.some.inj hp
      rw [if_pos hf]
      exact GoMap.get?_delete_self _ _
    · have hpos : (ps.filter fun participant => participant ≠ packet.Sender).length > 0 :=
        List.length_pos.mpr hf
      have h : onHangUp hub sess packet =
          ⟨{ hub with
              activeCalls := hub.activeCalls.set (bytesOf packet.Payload)
                (ps.filter fun participant => participant ≠ packet.Sender) }, sess, [], false⟩ := by
        simp only [onHangUp, hget, hpos, if_true]
      rw [h]
      refine ⟨?_, fun hp => by simp at hp, fun c hc => GoMap.get?_set_ne _ _ _ _ hc, rfl, rfl,
        rfl⟩
      intro participants hp
      obtain rfl := Option.some.inj hp
      rw [if_neg hf]
      exact GoMap.get?_set_self _ _ _

/-- Witness for C20: `A` hangs up the call `[9]` that only `A` is in, and the
entry is deleted. -/
theorem C20_hang_up_witness :
    (⟨"hang-up", "", "A", some [9]⟩ : GMSigPacket).OpCmd = "hang-up" ∧
    demoHubCall.activeCalls.get? (bytesOf (some [9])) = some ["A"] ∧
    (handleSig demoEnv demoCfg demoHubCall ⟨1, "A", some (utf8 "A")⟩
      ⟨"hang-up", "", "A", some [9]⟩).hub.activeCalls.get? [9] = none :=
  ⟨rfl, by rfl,
    (C20_hang_up demoEnv demoCfg demoHubCall ⟨1, "A", some (utf8 "A")⟩
      ⟨"hang-up", "", "A", some [9]⟩ rfl).1 ["A"] (by rfl)⟩


/-- C21: the line that `SendDataPacket` writes for a data packet is read back as
that packet by the receive path (prefix `1` removed, base64-decoded, decrypted,
`DeserializeGMDataPacket`), whenever the receiver decryption inverts the
encryption to the key used; the client response loop, given that line, hands
exactly that packet to its data handler; and the line that `SendStreamPacket`
writes is read back in the same way with the prefix `2` and
`DeserializeGMStreamPacket`. -/
theorem C21_encrypted_frame_round_trip (env : Env) (decrypt : Bytes → Option Bytes)
    (key : GoBytes) (conn : Conn)
    (hinv : ∀ m c, env.GWEncrypt m (bytesOf key) = some c → decrypt c = some m) :
    (∀ (p : GMDataPacket) (line : String), SendDataPacket env p key = some line →
      Write.dataPacket decrypt ⟨conn, line⟩ = some p) ∧
    (∀ (p : GMDataPacket) (ct : Bytes) (cenv : ClientEnv) (cl : Client),
      env.GWEncrypt (utf8 (String.mk (marshalData p))) (bytesOf key) = some ct →
      cenv.GWDecrypt = decrypt →
      SendDataPacket env p key = some ("1" ++ String.mk (b64Encode ct) ++ "\n") ∧
      handleResponse cenv cl ("1" ++ String.mk (b64Encode ct)) =
        ⟨cl, Client.handleDataPacket cenv p, false⟩) ∧
    (∀ (p : GMStreamPacket) (line : String), SendStreamPacket env p key = some line →
      Write.streamPacket decrypt ⟨conn, line⟩ = some p) := by
  refine ⟨fun p line hs => dataPacket_sendDataPacket env p key line conn decrypt hs hinv, ?_,
    fun p line hs => streamPacket_sendStreamPacket env p key line conn decrypt hs hinv⟩
  intro p ct cenv cl henc hdec
  refine ⟨?_, handleResponse_data cenv cl p ct ?_⟩
  · rw [sendDataPacket_eq, henc]
    rfl
  · rw [hdec]
    exact hinv _ _ henc

/-- Witness for C21: with the identity as encryption and decryption, the frames
of the example chat packet and of the example stream packet are read back. -/
theorem C21_encrypted_frame_round_trip_witness :
    (∀ m c, demoEnv.GWEncrypt m (bytesOf (some [])) = some c → (fun x => some x) c = some m) ∧
    Write.dataPacket (fun x => some x) ⟨1, "1" ++ demoChatBody ++ "\n"⟩ = some demoChat ∧
    Write.streamPacket (fun x => some x) ⟨1, "2" ++ demoStreamBody ++ "\n"⟩ = some demoStream :=
  ⟨fun _ _ h => Option.some.inj h ▸ rfl,
    (C21_encrypted_frame_round_trip demoEnv (fun x => some x) (some []) 1
      (fun _ _ h => Option.some.inj h ▸ rfl)).1 demoChat _
      (sendDataPacket_eq demoEnv demoChat (some [])),
    (C21_encrypted_frame_round_trip demoEnv (fun x => some x) (some []) 1
      (fun _ _ h => Option.some.inj h ▸ rfl)).2.2 demoStream _
      (sendStreamPacket_eq demoEnv demoStream (some []))⟩

/-- C22: each send wrapper writes at most one line. `SendSignalPacket` always
writes the digit `0`, the JSON text of the packet as serialized, and a line end,
and the JSON text has no line end in it. `SendDataPacket` and
`SendStreamPacket` write the digit `1`, respectively `2`, the base64 text of the
encryption of the serialized JSON, and a line end whenever the encryption
succeeds, and write nothing and return the error when it fails; base64 text has
no line end in it. -/
theorem C22_send_frames (env : Env) (key : GoBytes) :
    (∀ p : GMSigPacket,
      SerializeGMSigPacket p = some (String.mk (marshalSig p)) ∧
      SendSignalPacket p = some ("0" ++ String.mk (marshalSig p) ++ "\n") ∧
      '\n' ∉ marshalSig p) ∧
    (∀ p : GMDataPacket,
      SerializeGMDataPacket p = some (String.mk (marshalData p)) ∧
      SendDataPacket env p key =
        (env.GWEncrypt (utf8 (String.mk (marshalData p))) (bytesOf key)).map fun ct =>
          "1" ++ String.mk (b64Encode ct) ++ "\n") ∧
    (∀ p : GMStreamPacket,
      SerializeGMStreamPacket p = some (String.mk (marshalStream p)) ∧
      SendStreamPacket env p key =
        (env.GWEncrypt (utf8 (String.mk (marshalStream p))) (bytesOf key)).map fun ct =>
          "2" ++ String.mk (b64Encode ct) ++ "\n") ∧
    (∀ ct : Bytes, '\n' ∉ b64Encode ct) :=
  ⟨fun p => ⟨rfl, rfl, marshalSig_no_newline p⟩,
    fun p => ⟨rfl, sendDataPacket_eq env p key⟩,
    fun p => ⟨rfl, sendStreamPacket_eq env p key⟩,
    b64Encode_no_newline⟩

/-- C23: a received line whose first byte is none of the digits `0`, `1`, `2` is
dropped by the hub: no frame is written, the shared maps and the session
variables are unchanged, there is no panic and the connection is not closed,
and the session goes on with the next line as if the line had not come. -/
theorem C23_other_first_byte_dropped (env : Env) (cfg : Config) (hub : Hub) (sess : Session)
    (message : String) (rest : List String) (b : Byte)
    (hb : (utf8 message).head? = some b)
    (h0 : b.val ≠ 0x30) (h1 : b.val ≠ 0x31) (h2 : b.val ≠ 0x32) :
    handleLine env cfg hub sess message = ⟨hub, sess, [], false⟩ ∧
    runSession env cfg hub sess (message :: rest) = runSession env cfg hub sess rest := by
  obtain ⟨c, tail, hm, c0, c1, c2⟩ := first_char_of_first_byte message b hb h0 h1 h2
  have h := handleLine_other_char env cfg hub sess message c tail hm c0 c1 c2
  refine ⟨h, ?_⟩
  rw [runSession, h]
  simp

/-- Witness for C23: the line `9abc` starts with the byte `0x39`. -/
theorem C23_other_first_byte_dropped_witness :
    (utf8 "9abc").head? = some (0x39 : Byte) ∧
    handleLine demoEnv demoCfg demoHubAB ⟨1, "A", some (utf8 "A")⟩ "9abc" =
      ⟨demoHubAB, ⟨1, "A", some (utf8 "A")⟩, [], false⟩ :=
  ⟨by rfl,
    (C23_other_first_byte_dropped demoEnv demoCfg demoHubAB ⟨1, "A", some (utf8 "A")⟩ "9abc" []
      0x39 (by rfl) (by decide) (by decide) (by decide)).1⟩

/-- C24, the code at the failing input: on an empty line the hub loop and the
client loop both read `message[0]`, an index out of range: the handling of the
line ends in a run-time panic with nothing written by the handler. At the hub
the deferred cleanup of the connection runs while the handler unwinds, as at
the end of input; then the process has stopped and no further line is
handled. The client loop has no deferred call and just stops. -/
theorem C24_empty_line_panics (env : Env) (cfg : Config) (hub : Hub) (sess : Session)
    (cenv : ClientEnv) (cl : Client) (rest : List String) :
    handleLine env cfg hub sess "" = ⟨hub, sess, [], true⟩ ∧
    runSession env cfg hub sess ("" :: rest) =
      ((closeConn env hub sess).1, (closeConn env hub sess).2, true) ∧
    handleResponse cenv cl "" = ⟨cl, [], true⟩ ∧
    handleResponses cenv cl ("" :: rest) = (cl, [], true) :=
  ⟨rfl, rfl, rfl, rfl⟩

/-- C25, counterexample: the example client has the user name `alice` and the
client id `id-A`, and knows the key of `B`. The packet that `SendMessage` builds
for `hello` carries `id-A` as sender, and its uid decrypts (here with the
identity) to the bytes of `alice`, not to the bytes of the client id. -/
theorem C25_counterexample :
    chatPacket demoClientEnv demoClientB zeroInt64 "hello" zeroInt64 "general" =
      some (NewDataPacketFromData "cht" (some (utf8 "alice")) zeroInt64 zeroInt64 oneInt64
        oneInt64 "id-A" "general" (some (utf8 "hello"))) ∧
    demoClientEnv.GetClientID = "id-A" ∧
    demoClientEnv.GWDecrypt (utf8 "alice") = some (utf8 "alice") ∧
    utf8 "alice" ≠ utf8 demoClientEnv.GetClientID :=
  ⟨by rfl, rfl, rfl, by decide⟩

/-- C25, amended: the data packet built by `SendMessage` is a `cht` packet with
the client id as sender, the channel as destination, the time of the call as
timestamp, the given expiry and chunk 1 of 1; its payload is the
multi-recipient encryption of the message and its uid the multi-recipient
encryption of the user name given at `Boot` (not of the client id), both to all
keys in the key map. `SendMessage` writes this packet in a data frame encrypted
to the hub key. On every recipient whose decryption inverts that encryption the
uid decrypts to the user name, and the data handler of the recipient hands the
channel, the user name, the message, expiry, timestamp and the sender id to the
user interface. -/
theorem C25_uid_is_username (cenv : ClientEnv) (cl : Client) (now expiry : Int64)
    (message channel : String) (p : GMDataPacket)
    (hp : chatPacket cenv cl now message expiry channel = some p) :
    (∃ encryptedUID encryptedMsg,
      cenv.GWEncryptToMultiple (utf8 cl.username)
        ((cenv.keyOrder.apply cl.publicKeys.entries).map fun e => bytesOf e.2) =
          some encryptedUID ∧
      cenv.GWEncryptToMultiple (utf8 message)
        ((cenv.keyOrder.apply cl.publicKeys.entries).map fun e => bytesOf e.2) =
          some encryptedMsg ∧
      p = ⟨"cht", some encryptedUID, now, expiry, oneInt64, oneInt64, cenv.GetClientID, channel,
        some encryptedMsg⟩) ∧
    SendMessage cenv cl now message expiry channel =
      ⟨none, (SendDataPacket cenv.toEnv p cl.serverPublicKey).toList⟩ ∧
    (∀ renv : ClientEnv,
      (∀ m c,
        cenv.GWEncryptToMultiple m
          ((cenv.keyOrder.apply cl.publicKeys.entries).map fun e => bytesOf e.2) = some c →
        renv.GWDecrypt c = some m) →
      renv.GWDecrypt (bytesOf p.UID) = some (utf8 cl.username) ∧
      renv.GWDecrypt (bytesOf p.Payload) = some (utf8 message) ∧
      Client.handleDataPacket renv p =
        [ClientEffect.emit "message-received"
          [channel, cl.username, message, String.mk (formatInt expiry.1),
            String.mk (formatInt now.1), cenv.GetClientID]]) := by
  unfold chatPacket at hp
  cases hm : cenv.GWEncryptToMultiple (utf8 message)
      ((cenv.keyOrder.apply cl.publicKeys.entries).map fun e => bytesOf e.2) with
  | none => simp [hm] at hp
  | some encryptedMsg =>
    cases hu : cenv.GWEncryptToMultiple (utf8 cl.username)
        ((cenv.keyOrder.apply cl.publicKeys.entries).map fun e => bytesOf e.2) with
    | none => simp [hm, hu] at hp
    | some encryptedUID =>
      simp only [hm, hu, Option.some.injEq] at hp
      subst hp
      refine ⟨⟨encryptedUID, encryptedMsg, rfl, rfl, rfl⟩, ?_, ?_⟩
      · simp only [SendMessage, chatPacket, hm, hu]
        cases SendDataPacket cenv.toEnv
          (NewDataPacketFromData "cht" (some encryptedUID) now expiry oneInt64 oneInt64
            cenv.GetClientID channel (some encryptedMsg)) cl.serverPublicKey <;> rfl
      · intro renv hinv
        have h1 : renv.GWDecrypt encryptedUID = some (utf8 cl.username) := hinv _ _ hu
        have h2 : renv.GWDecrypt encryptedMsg = some (utf8 message) := hinv _ _ hm
        refine ⟨h1, h2, ?_⟩
        simp only [Client.handleDataPacket, NewDataPacketFromData, bytesOf, Option.getD_some,
          if_true, h1, h2, utf8DecodeLossy_utf8]

/-- Witness for C25: the example client `alice` sends `hello` to `general`. -/
theorem C25_uid_is_username_witness :
    chatPacket demoClientEnv demoClientB zeroInt64 "hello" zeroInt64 "general" =
      some (NewDataPacketFromData "cht" (some (utf8 "alice")) zeroInt64 zeroInt64 oneInt64
        oneInt64 "id-A" "general" (some (utf8 "hello"))) ∧
    demoClientEnv.GWDecrypt (bytesOf (some (utf8 "alice"))) = some (utf8 demoClientB.username) :=
  ⟨by rfl,
    ((C25_uid_is_username demoClientEnv demoClientB zeroInt64 zeroInt64 "hello" "general"
      (NewDataPacketFromData "cht" (some (utf8 "alice")) zeroInt64 zeroInt64 oneInt64
        oneInt64 "id-A" "general" (some (utf8 "hello"))) (by rfl)).2.2 demoClientEnv
      (fun _ _ h => Option.some.inj h ▸ rfl)).1⟩

/-- C26, the code at the failing input: `SendMessage` returns `nil` on every
path. When one of the two encryptions fails, or when `SendDataPacket` fails,
nothing is written to the hub and the returned error is still `nil`. -/
theorem C26_send_message_returns_nil (cenv : ClientEnv) (cl : Client) (now expiry : Int64)
    (message channel : String) :
    (SendMessage cenv cl now message expiry channel).err = none ∧
    (chatPacket cenv cl now message expiry channel = none →
      SendMessage cenv cl now message expiry channel = ⟨none, []⟩) ∧
    (∀ p, chatPacket cenv cl now message expiry channel = some p →
      SendDataPacket cenv.toEnv p cl.serverPublicKey = none →
      SendMessage cenv cl now message expiry channel = ⟨none, []⟩) := by
  refine ⟨?_, ?_, ?_⟩
  · unfold SendMessage
    split
    · rfl
    · split <;> rfl
  · intro h
    simp only [SendMessage, h]
  · intro p h hs
    simp only [SendMessage, h, hs]

/-- Witness for C26: in the second example environment the key of `B` is empty,
the encryption of the message fails, and `SendMessage` returns `nil` with
nothing sent. -/
theorem C26_send_message_returns_nil_witness :
    strictClientEnv.GWEncryptToMultiple (utf8 "hello")
      ((strictClientEnv.keyOrder.apply demoClientB.publicKeys.entries).map fun e =>
        bytesOf e.2) = none ∧
    chatPacket strictClientEnv demoClientB zeroInt64 "hello" zeroInt64 "general" = none ∧
    SendMessage strictClientEnv demoClientB zeroInt64 "hello" zeroInt64 "general" = ⟨none, []⟩ :=
  ⟨by rfl, by rfl,
    (C26_send_message_returns_nil strictClientEnv demoClientB zeroInt64 zeroInt64 "hello"
      "general").2.1 (by rfl)⟩

/-- C27: at the client, a `ckp` frame from sender `s` whose payload decrypts to
`k` makes `k` the entry of `s` in the key map and leaves the entry of every
other id as it was; a `ckp` frame whose payload does not decrypt leaves the
client unchanged; an `rmk` frame with sender `s` removes the entry of `s` and
leaves the entry of every other id as it was. None of them writes to the hub
or panics. -/
theorem C27_client_key_replica (cenv : ClientEnv) (cl : Client) (packet : GMSigPacket) :
    (packet.OpCmd = "ckp" →
      ∀ k, cenv.GWDecrypt (bytesOf packet.Payload) = some k →
        (handleResponse cenv cl ("0" ++ String.mk (marshalSig packet))).client.publicKeys.get?
          packet.Sender = some (some k) ∧
        (∀ s, s ≠ packet.Sender →
          (handleResponse cenv cl ("0" ++ String.mk (marshalSig packet))).client.publicKeys.get? s
            = cl.publicKeys.get? s) ∧
        (∀ line, ClientEffect.send line ∉
          (handleResponse cenv cl ("0" ++ String.mk (marshalSig packet))).out) ∧
        (handleResponse cenv cl ("0" ++ String.mk (marshalSig packet))).fault = false) ∧
    (packet.OpCmd = "ckp" → cenv.GWDecrypt (bytesOf packet.Payload) = none →
      handleResponse cenv cl ("0" ++ String.mk (marshalSig packet)) = ⟨cl, [], false⟩) ∧
    (packet.OpCmd = "rmk" →
      (handleResponse cenv cl ("0" ++ String.mk (marshalSig packet))).client.publicKeys.get?
        packet.Sender = none ∧
      (∀ s, s ≠ packet.Sender →
        (handleResponse cenv cl ("0" ++ String.mk (marshalSig packet))).client.publicKeys.get? s
          = cl.publicKeys.get? s) ∧
      (handleResponse cenv cl ("0" ++ String.mk (marshalSig packet))).out = [] ∧
      (handleResponse cenv cl ("0" ++ String.mk (marshalSig packet))).fault = false) := by
  rw [handleResponse_sig]
  refine ⟨?_, ?_, ?_⟩
  · intro hop k hk
    rw [clientSig_ckp cenv cl packet hop]
    simp only [onCkp, hk]
    refine ⟨GoMap.get?_set_self _ _ _, fun s hs => GoMap.get?_set_ne _ _ _ _ hs, ?_, trivial⟩
    intro line hmem
    simp at hmem
  · intro hop hk
    rw [clientSig_ckp cenv cl packet hop]
    simp only [onCkp, hk]
  · intro hop
    rw [clientSig_rmk cenv cl packet hop]
    exact ⟨GoMap.get?_delete_self _ _, fun s hs => GoMap.get?_delete_ne _ _ _ hs, rfl, rfl⟩

/-- Witness for C27: the example client receives the key `[7]` of `B`. -/
theorem C27_client_key_replica_witness :
    (⟨"ckp", "id-A", "B", some [7]⟩ : GMSigPacket).OpCmd = "ckp" ∧
    demoClientEnv.GWDecrypt (bytesOf (some [7])) = some [7] ∧
    (handleResponse demoClientEnv demoClient
      ("0" ++ String.mk (marshalSig ⟨"ckp", "id-A", "B", some [7]⟩))).client.publicKeys.get? "B"
        = some (some [7]) :=
  ⟨rfl, rfl,
    ((C27_client_key_replica demoClientEnv demoClient ⟨"ckp", "id-A", "B", some [7]⟩).1 rfl [7]
      rfl).1⟩

/-- C28, the code at the failing input: with the accesses of each handler
listed in program order, `gmp` reads the call roster with no lock held and, for
a known call, writes it with no lock held; the fan-out loops of
`handleDataPacket` and `handleStreamPacket`, the `rmk` broadcast (alone and
after an unregistration) and the relay of `offer`, `answer` and `ice` read the
connection registry with no lock held, and `gmk` reads the key map with no lock
held. The sibling handlers do lock: `start_call`, `hang-up` and `grtng` with
its key broadcast make no access without the lock it needs. -/
theorem C28_unlocked_accesses (cfg : Config) (hub : Hub) (sess : Session)
    (packet : GMSigPacket) :
    (∀ participants, hub.activeCalls.get? (bytesOf packet.Payload) = some participants →
      Access.write SharedMap.activeCalls ∈ violations (gmpAccesses hub packet)) ∧
    Access.read SharedMap.activeCalls ∈ violations (gmpAccesses hub packet) ∧
    Access.read SharedMap.connections ∈ violations (dataFanOutAccesses hub) ∧
    (∀ recipientID recipients,
      Access.read SharedMap.connections ∈
        violations (streamFanOutAccesses hub (recipientID :: recipients))) ∧
    Access.read SharedMap.connections ∈ violations sendRMKPacketsAccesses ∧
    Access.read SharedMap.connections ∈ violations unregisterAccesses ∧
    Access.read SharedMap.connections ∈ violations relayAccesses ∧
    Access.read SharedMap.publicKeys ∈ violations (gmkAccesses cfg hub) ∧
    violations startCallAccesses = [] ∧
    violations (hangUpAccesses hub packet) = [] ∧
    violations (grtngAccesses hub sess packet) = [] := by
  refine ⟨?_, ?_, violations_dataFanOut hub, violations_streamFanOut hub, by decide, by decide,
    by decide, ?_, rfl, violations_hangUp hub packet, violations_grtng hub sess packet⟩
  · intro participants h
    rw [violations_gmp_known hub packet participants h]
    decide
  · unfold gmpAccesses
    split <;> decide
  · unfold violations gmkAccesses
    simp only [violationsFrom]
    rw [if_pos (by decide)]
    exact List.mem_cons_self _ _

/-- Witness for C28: `B` sends `gmp` for the call `[9]` that `A` started; the
roster is written with no lock held. -/
theorem C28_unlocked_accesses_witness :
    demoHubCall.activeCalls.get? (bytesOf (some [9])) = some ["A"] ∧
    Access.write SharedMap.activeCalls ∈
      violations (gmpAccesses demoHubCall ⟨"gmp", "", "B", some [9]⟩) :=
  ⟨by rfl,
    (C28_unlocked_accesses demoCfg demoHubCall ⟨2, "B", some (utf8 "B")⟩
      ⟨"gmp", "", "B", some [9]⟩).1 ["A"] (by rfl)⟩

/-- C29: the hub `handleDataPacket` writes no frame to any client when the body
of a type-1 frame is not base64, when the decoded bytes do not decrypt, or when
the decrypted text does not deserialize to a data packet; and for every body
the frames written are the same for both values of `debugLogging`. -/
theorem C29_undecodable_data_frame (env : Env) (cfg : Config) (hub : Hub) (message : String) :
    (b64Decode message.data = none → handleDataPacket env cfg hub message = []) ∧
    (∀ decoded, b64Decode message.data = some decoded → env.GWDecrypt decoded = none →
      handleDataPacket env cfg hub message = []) ∧
    (∀ decoded decrypted, b64Decode message.data = some decoded →
      env.GWDecrypt decoded = some decrypted →
      DeserializeGMDataPacket (String.mk (utf8DecodeLossy decrypted)) = none →
      handleDataPacket env cfg hub message = []) ∧
    (∀ flag : Bool,
      handleDataPacket env { cfg with debugLogging := flag } hub message =
        handleDataPacket env cfg hub message) :=
  ⟨handleDataPacket_not_base64 env cfg hub message,
    fun decoded hb hd => handleDataPacket_not_decrypted env cfg hub message decoded hb hd,
    fun decoded decrypted hb hd hp =>
      handleDataPacket_not_packet env cfg hub message decoded decrypted hb hd hp,
    handleDataPacket_flag env cfg hub message⟩

/-- Witness for C29: a body that is not base64, a body that does not decrypt
(with logging off), and a body that decrypts to the text `hi`. -/
theorem C29_undecodable_data_frame_witness :
    (b64Decode "!".data = none ∧ handleDataPacket demoEnv demoCfg demoHubAB "!" = []) ∧
    (b64Decode "aGk=".data = some (utf8 "hi") ∧
      strictClientEnv.GWDecrypt (utf8 "hi") = none ∧
      handleDataPacket strictClientEnv.toEnv demoCfg demoHubAB "aGk=" = []) ∧
    (demoEnv.GWDecrypt (utf8 "hi") = some (utf8 "hi") ∧
      DeserializeGMDataPacket (String.mk (utf8DecodeLossy (utf8 "hi"))) = none ∧
      handleDataPacket demoEnv demoCfg demoHubAB "aGk=" = []) :=
  ⟨⟨by rfl, (C29_undecodable_data_frame demoEnv demoCfg demoHubAB "!").1 (by rfl)⟩,
    ⟨by rfl, rfl,
      (C29_undecodable_data_frame strictClientEnv.toEnv demoCfg demoHubAB "aGk=").2.1
        (utf8 "hi") (by rfl) rfl⟩,
    ⟨rfl, by rfl,
      (C29_undecodable_data_frame demoEnv demoCfg demoHubAB "aGk=").2.2.1
        (utf8 "hi") (utf8 "hi") (by rfl) rfl (by rfl)⟩⟩

/-- C30: in every state the hub reaches from start-up by any sequence of lines
and connection ends, among them every sequence of `start_call`, `gmp` and
`hang-up` signals, each call id in the roster has a non-empty participant
list; and each single signal keeps this property of the roster. -/
theorem C30_roster_invariant (env : Env) (cfg : Config) (events : List Event) :
    (∀ callID participants,
      (System.run env cfg System.init events).hub.activeCalls.get? callID = some participants →
      participants ≠ []) ∧
    (∀ (hub : Hub) (sess : Session) (packet : GMSigPacket),
      (∀ callID participants, hub.activeCalls.get? callID = some participants →
        participants ≠ []) →
      ∀ callID participants,
        (handleSig env cfg hub sess packet).hub.activeCalls.get? callID = some participants →
        participants ≠ []) :=
  ⟨run_rosterInv env cfg events System.init rosterInv_init,
    fun hub sess packet hinv => handleSig_rosterInv env cfg hub sess packet hinv⟩

/-- Witness for C30: after `A` starts the call `[9]` and hangs up again the
roster has no entry for `[9]`; after the start alone the entry is `[A]`. -/
theorem C30_roster_invariant_witness :
    (System.run demoEnv demoCfg System.init
      [Event.line 1 ("0" ++ String.mk (marshalSig ⟨"start_call", "", "A", some [9]⟩))]
      ).hub.activeCalls.get? [9] = some ["A"] ∧
    ["A"] ≠ [] ∧
    (System.run demoEnv demoCfg System.init
      [Event.line 1 ("0" ++ String.mk (marshalSig ⟨"start_call", "", "A", some [9]⟩)),
        Event.line 1 ("0" ++ String.mk (marshalSig ⟨"hang-up", "", "A", some [9]⟩))]
      ).hub.activeCalls.get? [9] = none :=
  ⟨by rfl,
    (C30_roster_invariant demoEnv demoCfg
      [Event.line 1 ("0" ++ String.mk (marshalSig ⟨"start_call", "", "A", some [9]⟩))]).1
      [9] ["A"] (by rfl),
    by rfl⟩
end Gossip
